import Mathlib

/-!
# Parqueadero: access decision engine and occupancy ledger

Shallow embedding of `server/routes/access.js` and of the model methods it
calls (`server/models/Employee.js`, `Visitor.js`, `AccessLog.js`).

Conventions of the embedding

* A JavaScript `Date` is its `getTime()` value, an `Int` of milliseconds.
  One handler run reads the clock once: every `new Date()` / `Date.now()` of a
  run is the same reading `now`.
* The reading of the clock also carries the local calendar date (`Clock.today`),
  which is what `getFullYear`, `getMonth`, `getDate` and `getDay` observe.
* Collections are lists in natural order; `findOne` is the first match.
* Stored documents are documents of their schema: they passed its validators
  when they were stored. `AccessLog.create(doc)` runs the validators of
  `accessLogSchema` on the submitted document (`AccessLog.schemaAccepts`) and
  throws when one fails; a `save()` of a stored document runs the hooks the
  repository registers (`visitorSchema.pre('save')`) and the validators again,
  of which only `license.expiryDate > new Date()` of `licenseSchema` depends on
  the clock and can fail on a stored document. An exception inside a handler
  is caught by its `catch` block, which answers 500.
* Strings of the source stay strings (`'basic'`, `'approved'`, `'unknown'`, ...);
  the `type` of a stored vehicle is the enum of `vehicleSchema`.
-/

namespace Parqueadero

/-! ## Calendar -/

/-- Local calendar date as observed through `getFullYear()`, `getMonth()`
(0 = January) and `getDate()`. -/
structure CalDate where
  year : Int
  month : Nat
  date : Nat
  deriving DecidableEq, Repr

/-- Gregorian leap year rule. -/
def isLeapYear (y : Int) : Bool :=
  (y % 4 == 0 && y % 100 != 0) || y % 400 == 0

/-- Number of days of month `m` (0 = January) of year `y`. -/
def daysInMonth (y : Int) (m : Nat) : Nat :=
  if m == 1 then (if isLeapYear y then 29 else 28)
  else if m == 3 || m == 5 || m == 8 || m == 10 then 30
  else 31

/-- Days between 1970-01-01 and the given civil date (proleptic Gregorian
calendar); `month` is 0-based as in JavaScript. -/
def dayNumber (d : CalDate) : Int :=
  let m : Int := (d.month : Int) + 1
  let y : Int := if m ≤ 2 then d.year - 1 else d.year
  let era : Int := y / 400
  let yoe : Int := y - era * 400
  let mp : Int := if m > 2 then m - 3 else m + 9
  let doy : Int := (153 * mp + 2) / 5 + (d.date : Int) - 1
  let doe : Int := yoe * 365 + yoe / 4 - yoe / 100 + doy
  era * 146097 + doe - 719468

/-- Embedding of `Date.prototype.getDay()`: 0 = Sunday, ..., 4 = Thursday.
1970-01-01 was a Thursday. -/
def getDay (d : CalDate) : Nat :=
  ((dayNumber d + 4) % 7).toNat

/-- Embedding of `d.setDate(d.getDate() + 1)`: the next calendar day, rolling
over to the next month (and year) past the last day of the month. -/
def addOneDay (d : CalDate) : CalDate :=
  if d.date + 1 ≤ daysInMonth d.year d.month then
    { d with date := d.date + 1 }
  else if d.month + 1 ≤ 11 then
    { year := d.year, month := d.month + 1, date := d.date + 1 - daysInMonth d.year d.month }
  else
    { year := d.year + 1, month := 0, date := d.date + 1 - daysInMonth d.year d.month }

/-- Embedding of `Date.prototype.toDateString()`, e.g. `Thu Nov 02 2023`:
weekday, month, day of month and year. -/
def toDateString (d : CalDate) : Nat × Nat × Nat × Int :=
  (getDay d, d.month, d.date, d.year)

/-- The `while (firstThursday.getDay() !== 4)` loop of `isFirstThursday`,
with `fuel` bounding the number of tests of the loop condition. -/
def firstThursdayLoop : Nat → CalDate → Option CalDate
  | 0, _ => none
  | fuel + 1, d =>
    if getDay d != 4 then firstThursdayLoop fuel (addOneDay d) else some d

/-- Embedding of `isFirstThursday` of `routes/access.js`, with `today` the
calendar date of `new Date()`.  The loop starts on day 1 of the month of
`today`; seven tests of its condition are enough for it to stop
(`firstThursdayLoop_stops`). `new Date(year, month, 1)` is the first day of
that month; the two-digit-year rule of that constructor (years 0 to 99) does
not concern a reading of the clock and is not modelled. -/
def isFirstThursday (today : CalDate) : Bool :=
  let firstDay : CalDate := { year := today.year, month := today.month, date := 1 }
  match firstThursdayLoop 7 firstDay with
  | some firstThursday => toDateString today == toDateString firstThursday
  | none => false

/-- One reading of the clock: `time` is `Date.now()`, `today` the local
calendar date of the same instant. -/
structure Clock where
  time : Int
  today : CalDate
  deriving DecidableEq, Repr

/-! ## Strings -/

/-- Embedding of `String.prototype.toUpperCase()` on the ASCII range: the
letters `a` to `z` are mapped to `A` to `Z`. A character outside the ASCII
range is left as it is, where the source applies the Unicode case mapping.
The development uses of upper-casing that it is idempotent and keeps a
non-empty string non-empty, and evaluates it on ASCII plates only. -/
def toUpperCase (s : String) : String :=
  String.mk (s.data.map Char.toUpper)

/-! ## Employees (`models/Employee.js`) -/

/-- The path `type` of `vehicleSchema`:
`{ type: String, enum: ['car', 'motorcycle'], required: true }`. -/
inductive VehicleType where
  | car
  | motorcycle
  deriving DecidableEq, Repr

/-- The string that a vehicle type is in the source. -/
def VehicleType.toString : VehicleType → String
  | .car => "car"
  | .motorcycle => "motorcycle"

/-- Sub-document of `vehicleSchema` (fields read by the access routes). -/
structure Vehicle where
  type : VehicleType
  licensePlate : String
  isActive : Bool
  deriving DecidableEq, Repr

/-- Sub-document of `licenseSchema`. -/
structure License where
  expiryDate : Int
  categories : List String
  isValid : Bool
  deriving DecidableEq, Repr

/-- Document of `employeeSchema`; `license` is an optional sub-document. -/
structure Employee where
  id : Nat
  fullName : String
  position : String
  workArea : String
  photo : Option String
  vehicles : List Vehicle
  license : Option License
  accessLevel : String
  isActive : Bool
  lastAccess : Option Int
  deriving DecidableEq, Repr

/-- Embedding of `employeeSchema.methods.hasValidLicense`:
`this.license && this.license.isValid && this.license.expiryDate > new Date()`. -/
def Employee.hasValidLicense (e : Employee) (now : Int) : Bool :=
  match e.license with
  | none => false
  | some l => l.isValid && decide (l.expiryDate > now)

/-- Property names that every object literal inherits from
`Object.prototype`: for these keys `requiredCategories[vehicleType]` is a
function (for `__proto__` the prototype object), which is truthy and has no
method `some`. -/
def objectPrototypeKeys : List String :=
  ["constructor", "__defineGetter__", "__defineSetter__", "hasOwnProperty",
    "__lookupGetter__", "__lookupSetter__", "isPrototypeOf", "propertyIsEnumerable",
    "toString", "valueOf", "__proto__", "toLocaleString"]

/-- The lookup `requiredCategories[vehicleType] || []` of
`canDriveVehicleType`: the two own properties of the table, `none` for an
inherited property (a value on which `.some(...)` throws a `TypeError`), and
the empty list for every other key. -/
def requiredCategories (vehicleType : String) : Option (List String) :=
  if vehicleType = "motorcycle" then some ["A1", "A2"]
  else if vehicleType = "car" then some ["B1", "B2"]
  else if objectPrototypeKeys.contains vehicleType then none
  else some []

/-- Embedding of `employeeSchema.methods.canDriveVehicleType`; `none` is the
`TypeError` of `needed.some` on an inherited property. -/
def Employee.canDriveVehicleType (e : Employee) (vehicleType : String) (now : Int) :
    Option Bool :=
  if !e.hasValidLicense now then some false
  else
    match e.license with
    | none => some false
    | some l =>
      let userCategories := l.categories
      match requiredCategories vehicleType with
      | none => none
      | some needed => some (needed.any (fun category => userCategories.contains category))

/-- Embedding of `employeeSchema.methods.getVehicleByPlate`: the first vehicle
whose plate is `licensePlate.toUpperCase()` and which is active. -/
def Employee.getVehicleByPlate (e : Employee) (licensePlate : String) : Option Vehicle :=
  e.vehicles.find? (fun vehicle =>
    vehicle.licensePlate == toUpperCase licensePlate && vehicle.isActive)

/-- Query of `employeeSchema.statics.findByPlate`:
`'vehicles.licensePlate': plate, 'vehicles.isActive': true, isActive: true`.
Each dotted condition on the `vehicles` array holds when some element
satisfies it; the two conditions need not hold of the same element. -/
def Employee.matchesPlate (licensePlate : String) (e : Employee) : Bool :=
  e.vehicles.any (fun v => v.licensePlate == toUpperCase licensePlate)
    && e.vehicles.any (fun v => v.isActive)
    && e.isActive

/-- Embedding of `employeeSchema.statics.findByPlate` (`findOne`). -/
def Employee.findByPlate (employees : List Employee) (licensePlate : String) :
    Option Employee :=
  employees.find? (Employee.matchesPlate licensePlate)

/-- Embedding of `Employee.findById`. -/
def Employee.findById (employees : List Employee) (id : Nat) : Option Employee :=
  employees.find? (fun e => e.id == id)

/-- The validator of `licenseSchema` that depends on the clock:
`expiryDate: { validate: date => date > new Date() }`. An employee without
licence sub-document passes. -/
def Employee.licenseNotExpired (e : Employee) (now : Int) : Bool :=
  match e.license with
  | none => true
  | some l => decide (l.expiryDate > now)

/-- Embedding of `employee.save()` on a document loaded from the store: the
validators run (`Employee.licenseNotExpired` is the one that can fail on a
stored document; `none` is the `ValidationError`), then the stored document
with the same `_id` is replaced. The hook `employeeSchema.pre('save')` acts on
a modified password only. -/
def Employee.save (employees : List Employee) (now : Int) (e : Employee) :
    Option (List Employee) :=
  if e.licenseNotExpired now then
    some (employees.map (fun x => if x.id = e.id then e else x))
  else none

/-! ## Visitors (`models/Visitor.js`) -/

/-- Content of a visitor QR code: `generateQRCode` encodes exactly these
fields (base64 of their JSON); the code is represented by the fields. -/
structure QRData where
  visitorId : Nat
  documentNumber : String
  licensePlate : String
  visitDate : Option Int
  expiryTime : Option Int
  deriving DecidableEq, Repr

/-- Document of `visitorSchema`; `expectedDuration` is a number of hours. -/
structure Visitor where
  id : Nat
  name : String
  documentNumber : String
  licensePlate : String
  purpose : String
  destinationArea : String
  visitDate : Option Int
  expectedDuration : Int
  qrCode : Option QRData
  status : String
  entryTime : Option Int
  exitTime : Option Int
  companions : List String := []
  notes : Option String := none
  approvedBy : Option Nat := none
  authorizedBy : Option Nat := none
  deriving DecidableEq, Repr

/-- Time values of a valid `Date`: at most 8.64e15 milliseconds from the
epoch (`TimeClip`); `new Date(t)` is an Invalid Date for any other `t`. -/
def isValidTime (t : Int) : Bool :=
  decide (-8640000000000000 ≤ t ∧ t ≤ 8640000000000000)

/-- Embedding of the virtual `expiryTime`:
`if (this.visitDate && this.expectedDuration)` the date
`new Date(visitDate.getTime() + expectedDuration * 60 * 60 * 1000)`, else
`null`. A duration of 0 is falsy. The result `none` stands for `null` and for
an Invalid Date (the sum, or the visit date itself, outside the range of
`Date`): both are `null` in a JSON response and both make `isExpired()`
falsy. -/
def Visitor.expiryTime (v : Visitor) : Option Int :=
  match v.visitDate with
  | none => none
  | some visitDate =>
    if v.expectedDuration ≠ 0 then
      if isValidTime visitDate && isValidTime (visitDate + v.expectedDuration * 60 * 60 * 1000)
      then some (visitDate + v.expectedDuration * 60 * 60 * 1000)
      else none
    else none

/-- Embedding of `visitorSchema.methods.isExpired`:
`expiry && new Date() > expiry`; the comparison with an Invalid Date is
false. -/
def Visitor.isExpired (v : Visitor) (now : Int) : Bool :=
  match v.expiryTime with
  | none => false
  | some expiry => decide (now > expiry)

/-- Embedding of `visitorSchema.methods.canEnter`. -/
def Visitor.canEnter (v : Visitor) (now : Int) : Bool :=
  v.status == "approved" && !v.isExpired now && v.entryTime.isNone

/-- Embedding of `visitorSchema.methods.generateQRCode`. -/
def Visitor.generateQRCode (v : Visitor) : Visitor :=
  let data : QRData :=
    { visitorId := v.id
      documentNumber := v.documentNumber
      licensePlate := v.licensePlate
      visitDate := v.visitDate
      expiryTime := v.expiryTime }
  { v with qrCode := some data }

/-- Embedding of `visitorSchema.pre('save')`: a new document without QR code
gets one; a document past its expiry whose status is neither `completed` nor
`expired` becomes `expired`. -/
def Visitor.preSave (isNew : Bool) (now : Int) (v : Visitor) : Visitor :=
  let v1 := if isNew && v.qrCode.isNone then v.generateQRCode else v
  if v1.isExpired now && v1.status != "completed" && v1.status != "expired" then
    { v1 with status := "expired" }
  else v1

/-- Embedding of `visitor.save()` on a document loaded from the store: the
save hook runs, then the stored document with the same `_id` is replaced. -/
def Visitor.save (visitors : List Visitor) (now : Int) (v : Visitor) : List Visitor :=
  let saved := Visitor.preSave false now v
  visitors.map (fun x => if x.id = saved.id then saved else x)

/-- Query of `visitorSchema.statics.findByPlate`: plate, status in
`approved`, `in_progress`, and `visitDate` within the last 24 hours. -/
def Visitor.matchesPlate (licensePlate : String) (now : Int) (v : Visitor) : Bool :=
  v.licensePlate == toUpperCase licensePlate
    && (v.status == "approved" || v.status == "in_progress")
    && (match v.visitDate with
        | none => false
        | some visitDate => decide (visitDate ≥ now - 24 * 60 * 60 * 1000))

/-- Embedding of `visitorSchema.statics.findByPlate` (`findOne`). -/
def Visitor.findByPlate (visitors : List Visitor) (licensePlate : String) (now : Int) :
    Option Visitor :=
  visitors.find? (Visitor.matchesPlate licensePlate now)

/-- Embedding of `Visitor.findById`. -/
def Visitor.findById (visitors : List Visitor) (id : Nat) : Option Visitor :=
  visitors.find? (fun v => v.id == id)

/-! ## Access log (`models/AccessLog.js`) -/

/-- Argument of `AccessLog.create` as the routes build it. -/
structure AccessLogInput where
  userType : String
  userId : Option Nat
  userModel : Option String
  licensePlate : String
  vehicleType : String
  accessType : String
  status : String
  denialReason : Option String
  isFirstThursday : Bool
  detectionMethod : Option String
  processedBy : Option Nat
  ipAddress : Option String
  userAgent : Option String
  deriving DecidableEq, Repr

/-- Stored document of `accessLogSchema`: the submitted fields, the schema
defaults (`accessTime`, `detectionMethod`) and the optional `exitTime`. -/
structure AccessLog where
  id : Nat
  userType : String
  userId : Option Nat
  userModel : Option String
  licensePlate : String
  vehicleType : String
  accessTime : Int
  exitTime : Option Int
  accessType : String
  status : String
  denialReason : Option String
  isFirstThursday : Bool
  detectionMethod : String
  processedBy : Option Nat
  ipAddress : Option String
  userAgent : Option String
  deriving DecidableEq, Repr

/-- Document that `AccessLog.create(doc)` stores at clock reading `now`:
`_id` is fresh (`id`), `accessTime` defaults to `Date.now`,
`detectionMethod` defaults to `manual`, and the `uppercase` setter applies to
`licensePlate`; there is no `exitTime`. -/
def AccessLog.ofInput (id : Nat) (now : Int) (doc : AccessLogInput) : AccessLog :=
  { id := id
    userType := doc.userType
    userId := doc.userId
    userModel := doc.userModel
    licensePlate := toUpperCase doc.licensePlate
    vehicleType := doc.vehicleType
    accessTime := now
    exitTime := none
    accessType := doc.accessType
    status := doc.status
    denialReason := doc.denialReason
    isFirstThursday := doc.isFirstThursday
    detectionMethod := doc.detectionMethod.getD "manual"
    processedBy := doc.processedBy
    ipAddress := doc.ipAddress
    userAgent := doc.userAgent }

/-- Validators that `accessLogSchema` declares, on a submitted document: the
`required` paths are present (a required string is not empty) and every
`enum` path holds one of its values. -/
def AccessLog.schemaAccepts (doc : AccessLogInput) : Bool :=
  (doc.userType == "employee" || doc.userType == "visitor")
    && doc.userId.isSome
    && (doc.userModel == some "Employee" || doc.userModel == some "Visitor")
    && doc.licensePlate != ""
    && (doc.vehicleType == "car" || doc.vehicleType == "motorcycle")
    && (doc.accessType == "entry" || doc.accessType == "exit" || doc.accessType == "denied")
    && (doc.status == "successful" || doc.status == "denied" || doc.status == "suspicious")
    && (match doc.denialReason with
        | none => true
        | some r =>
          ["expired_license", "inactive_employee", "first_thursday_restriction",
            "invalid_plate", "visitor_not_approved", "visitor_expired",
            "unauthorized_vehicle", "system_error"].contains r)
    && (match doc.detectionMethod with
        | none => true
        | some m => ["manual", "camera_scan", "qr_scan", "rfid"].contains m)

/-- Embedding of `AccessLog.create(doc)`: the validators of the schema run
on the submitted document and `none` is the `ValidationError` they throw;
otherwise the new document is appended to the collection. Documents are never
removed, so the length of the collection is a fresh `_id`. -/
def AccessLog.create (logs : List AccessLog) (now : Int) (doc : AccessLogInput) :
    Option (AccessLog × List AccessLog) :=
  if AccessLog.schemaAccepts doc then
    let created := AccessLog.ofInput logs.length now doc
    some (created, logs ++ [created])
  else none

/-- Embedding of the virtual `isInside`:
`accessType === 'entry' && status === 'successful' && !exitTime`. -/
def AccessLog.isInside (l : AccessLog) : Bool :=
  l.accessType == "entry" && l.status == "successful" && l.exitTime.isNone

/-- Embedding of `accessLog.save()`: the stored document with the same `_id`
is replaced (the schema registers no hook). -/
def AccessLog.save (logs : List AccessLog) (l : AccessLog) : List AccessLog :=
  logs.map (fun x => if x.id = l.id then l else x)

/-! ## Requests, responses and state -/

/-- The three collections the access routes read and write. -/
structure State where
  employees : List Employee
  visitors : List Visitor
  accessLogs : List AccessLog
  deriving DecidableEq, Repr

/-- What the handlers read of a request: the body fields `licensePlate`,
`accessType`, `entryType` (absent = `none`), the `_id` of `req.user` as the
authentication middleware set it, `req.ip` and the `User-Agent` header. -/
structure Request where
  licensePlate : Option String
  accessType : Option String
  entryType : Option String
  user : Option Nat
  ip : Option String
  userAgent : Option String
  deriving DecidableEq, Repr

/-- The `data` object of a granted employee validation. -/
structure EmployeeGrant where
  userType : String
  driverName : String
  licensePlate : String
  vehicleType : String
  position : String
  workArea : String
  photo : Option String
  isFirstThursday : Bool
  hasSpecialPermit : Bool
  deriving DecidableEq, Repr

/-- The `data` object of a granted visitor validation. -/
structure VisitorGrant where
  userType : String
  driverName : String
  licensePlate : String
  vehicleType : String
  purpose : String
  destinationArea : String
  expiryTime : Option Int
  qrCode : Option QRData
  deriving DecidableEq, Repr

/-- Responses of `POST /validate`: 400, `success: false` with its message and
optional `requiresSpecialPermit`, `success: true` with the data of either
branch, 500 from the `catch` block, or no response at all (an `accessType`
other than `employee` and `visitor` reaches the end of the handler). -/
inductive ValidateResponse where
  | badRequest (message : String)
  | denied (message : String) (requiresSpecialPermit : Option Bool)
  | grantedEmployee (data : EmployeeGrant)
  | grantedVisitor (data : VisitorGrant)
  | serverError (message : String)
  | noResponse
  deriving DecidableEq, Repr

/-- Responses of `POST /entry`. -/
inductive EntryResponse where
  | unauthorized
  | serverError (message : String)
  | notFound (message : String)
  | ok (accessLogId : Nat) (entryTime : Int) (userName : String) (userType : String)
  deriving DecidableEq, Repr

/-- Responses of `POST /exit`. -/
inductive ExitResponse where
  | unauthorized
  | serverError (message : String)
  | notFound (message : String)
  | ok (entryTime : Int) (exitTime : Int) (duration : Int)
  deriving DecidableEq, Repr

/-- The expression `vehicle?.type || 'unknown'`. -/
def typeOrUnknown (vehicle : Option Vehicle) : String :=
  match vehicle with
  | none => "unknown"
  | some v => v.type.toString

/-- The document every denial of `validate` passes to `AccessLog.create`:
`accessType: 'denied', status: 'denied'`, the reason, and the request
context. `user` is the pair `userId`, `userModel` when the branch has one. -/
def denialDoc (req : Request) (userType : String) (user : Option (Nat × String))
    (plate vehicleType denialReason : String) (firstThursday : Bool) : AccessLogInput :=
  { userType := userType
    userId := user.map Prod.fst
    userModel := user.map Prod.snd
    licensePlate := plate
    vehicleType := vehicleType
    accessType := "denied"
    status := "denied"
    denialReason := some denialReason
    isFirstThursday := firstThursday
    detectionMethod := none
    processedBy := req.user
    ipAddress := req.ip
    userAgent := req.userAgent }

/-- State after a successful `await AccessLog.create(doc)`; `none` when the
create throws. -/
def State.record (st : State) (now : Clock) (doc : AccessLogInput) : Option State :=
  (AccessLog.create st.accessLogs now.time doc).map
    (fun created => { st with accessLogs := created.2 })

/-! ## `POST /validate` -/

/-- A denial of `POST /validate`:
`await AccessLog.create(doc); return res.json(response)` inside the `try`
block. When the create throws, the `catch` block answers 500
`Validation failed` and nothing is stored. -/
def deny (st : State) (now : Clock) (doc : AccessLogInput) (response : ValidateResponse) :
    ValidateResponse × State :=
  match st.record now doc with
  | none => (.serverError "Validation failed", st)
  | some st1 => (response, st1)

/-- The branch `if (accessType === 'employee')` of `POST /validate`. -/
def validateEmployee (st : State) (req : Request) (now : Clock) (plate : String)
    (firstThursday : Bool) : ValidateResponse × State :=
  match Employee.findByPlate st.employees plate with
  | none =>
    deny st now (denialDoc req "employee" none plate "unknown" "invalid_plate" firstThursday)
      (.denied "License plate not found in employee records" (some firstThursday))
  | some employee =>
    if !employee.isActive then
      deny st now
        (denialDoc req "employee" (some (employee.id, "Employee")) plate
          (typeOrUnknown (employee.getVehicleByPlate plate)) "inactive_employee" firstThursday)
        (.denied "Employee account is inactive" none)
    else
      match employee.getVehicleByPlate plate with
      | none =>
        deny st now
          (denialDoc req "employee" (some (employee.id, "Employee")) plate
            "unknown" "unauthorized_vehicle" firstThursday)
          (.denied "Vehicle not authorized for this employee" none)
      | some vehicle =>
        if !employee.hasValidLicense now.time then
          deny st now
            (denialDoc req "employee" (some (employee.id, "Employee")) plate
              vehicle.type.toString "expired_license" firstThursday)
            (.denied "Driver license is expired or invalid" none)
        else
          match employee.canDriveVehicleType vehicle.type.toString now.time with
          | none => (.serverError "Validation failed", st)
          | some false =>
            deny st now
              (denialDoc req "employee" (some (employee.id, "Employee")) plate
                vehicle.type.toString "expired_license" firstThursday)
              (.denied ("License doesn\x27t cover " ++ vehicle.type.toString ++ " category")
                none)
          | some true =>
            if firstThursday && employee.accessLevel == "basic" then
              deny st now
                (denialDoc req "employee" (some (employee.id, "Employee")) plate
                  vehicle.type.toString "first_thursday_restriction" firstThursday)
                (.denied "First Thursday restriction - Special permit required" (some true))
            else
              (.grantedEmployee
                { userType := "employee"
                  driverName := employee.fullName
                  licensePlate := plate
                  vehicleType := vehicle.type.toString
                  position := employee.position
                  workArea := employee.workArea
                  photo := employee.photo
                  isFirstThursday := firstThursday
                  hasSpecialPermit := employee.accessLevel != "basic" }, st)

/-- The branch `if (accessType === 'visitor')` of `POST /validate`. -/
def validateVisitor (st : State) (req : Request) (now : Clock) (plate : String)
    (firstThursday : Bool) : ValidateResponse × State :=
  match Visitor.findByPlate st.visitors plate now.time with
  | none =>
    deny st now (denialDoc req "visitor" none plate "unknown" "invalid_plate" firstThursday)
      (.denied "No visitor registration found for this plate" none)
  | some visitor =>
    if !visitor.canEnter now.time then
      let reason := if visitor.isExpired now.time then "visitor_expired" else "visitor_not_approved"
      deny st now
        (denialDoc req "visitor" (some (visitor.id, "Visitor")) plate
          "unknown" reason firstThursday)
        (.denied
          (if visitor.isExpired now.time then "Visitor pass has expired"
           else "Visitor not approved or already inside") none)
    else
      (.grantedVisitor
        { userType := "visitor"
          driverName := visitor.name
          licensePlate := plate
          vehicleType := "unknown"
          purpose := visitor.purpose
          destinationArea := visitor.destinationArea
          expiryTime := visitor.expiryTime
          qrCode := visitor.qrCode }, st)

/-- Embedding of `router.post('/validate', optionalAuth, ...)`. A missing or
empty `licensePlate` is falsy (400); `accessType` defaults to `employee`. -/
def validate (st : State) (req : Request) (now : Clock) : ValidateResponse × State :=
  match req.licensePlate with
  | none => (.badRequest "License plate is required", st)
  | some licensePlate =>
    if licensePlate = "" then (.badRequest "License plate is required", st)
    else
      let accessType := req.accessType.getD "employee"
      let plate := toUpperCase licensePlate
      let firstThursday := isFirstThursday now.today
      if accessType = "employee" then validateEmployee st req now plate firstThursday
      else if accessType = "visitor" then validateVisitor st req now plate firstThursday
      else (.noResponse, st)

/-! ## `POST /entry` -/

/-- The document `POST /entry` passes to `AccessLog.create`; `user` is the
resolved employee or visitor (`_id` and model name). -/
def entryDoc (req : Request) (processedBy : Nat) (userType : String) (user : Nat × String)
    (plate : String) (vehicle : Option Vehicle) (entryType : String) (firstThursday : Bool) :
    AccessLogInput :=
  { userType := userType
    userId := some user.1
    userModel := some user.2
    licensePlate := plate
    vehicleType := typeOrUnknown vehicle
    accessType := "entry"
    status := "successful"
    denialReason := none
    isFirstThursday := firstThursday
    detectionMethod := some entryType
    processedBy := some processedBy
    ipAddress := req.ip
    userAgent := req.userAgent }

/-- Embedding of `router.post('/entry', authenticateToken, ...)`. Without an
authenticated user the middleware answers 401; without a `licensePlate` the
call of `toUpperCase` throws. The employee lookup comes first and the visitor
lookup runs only when it finds nobody. Every exception (the `TypeError`, a
`ValidationError` of `AccessLog.create` or of `employee.save()`) is caught
and answered 500 `Entry registration failed`; what was stored before the
exception stays stored. -/
def entry (st : State) (req : Request) (now : Clock) : EntryResponse × State :=
  match req.user with
  | none => (.unauthorized, st)
  | some processedBy =>
    match req.licensePlate with
    | none => (.serverError "Entry registration failed", st)
    | some licensePlate =>
      let entryType := req.entryType.getD "manual_confirmation"
      let plate := toUpperCase licensePlate
      match Employee.findByPlate st.employees plate with
      | some employee =>
        let vehicle := employee.getVehicleByPlate plate
        match AccessLog.create st.accessLogs now.time
            (entryDoc req processedBy "employee" (employee.id, "Employee") plate vehicle
              entryType (isFirstThursday now.today)) with
        | none => (.serverError "Entry registration failed", st)
        | some created =>
          let employee1 := { employee with lastAccess := some now.time }
          match Employee.save st.employees now.time employee1 with
          | none =>
            (.serverError "Entry registration failed", { st with accessLogs := created.2 })
          | some employees =>
            (.ok created.1.id created.1.accessTime employee.fullName "employee",
              { st with accessLogs := created.2, employees := employees })
      | none =>
        match Visitor.findByPlate st.visitors plate now.time with
        | none => (.notFound "No valid registration found", st)
        | some visitor =>
          match AccessLog.create st.accessLogs now.time
              (entryDoc req processedBy "visitor" (visitor.id, "Visitor") plate none
                entryType (isFirstThursday now.today)) with
          | none => (.serverError "Entry registration failed", st)
          | some created =>
            let visitor1 := { visitor with status := "in_progress", entryTime := some now.time }
            (.ok created.1.id created.1.accessTime visitor.name "visitor",
              { st with accessLogs := created.2
                        visitors := Visitor.save st.visitors now.time visitor1 })

/-! ## `POST /exit` -/

/-- Filter of the `findOne` of `POST /exit`: `licensePlate: plate,
accessType: 'entry', status: 'successful', exitTime: { $exists: false }`. -/
def isOpenEntryFor (plate : String) (l : AccessLog) : Bool :=
  l.licensePlate == plate && l.accessType == "entry" && l.status == "successful"
    && l.exitTime.isNone

/-- The `findOne(...).sort({ accessTime: -1 })` of `POST /exit`: among the
matching documents one with the greatest `accessTime` (the earliest stored
one among equals). -/
def findOpenEntry (logs : List AccessLog) (plate : String) : Option AccessLog :=
  (logs.filter (isOpenEntryFor plate)).foldl
    (fun best l =>
      match best with
      | none => some l
      | some b => if l.accessTime > b.accessTime then some l else some b)
    none

/-- The expression `Math.round(ms / (1000 * 60))`: rounding to the nearest
integer, halves upwards. -/
def roundMinutes (ms : Int) : Int :=
  (ms + 30000) / 60000

/-- Embedding of `router.post('/exit', authenticateToken, ...)`. -/
def exit (st : State) (req : Request) (now : Clock) : ExitResponse × State :=
  match req.user with
  | none => (.unauthorized, st)
  | some _ =>
    match req.licensePlate with
    | none => (.serverError "Exit registration failed", st)
    | some licensePlate =>
      let plate := toUpperCase licensePlate
      match findOpenEntry st.accessLogs plate with
      | none => (.notFound "No active entry found for this vehicle", st)
      | some entryLog =>
        let entryLog1 := { entryLog with exitTime := some now.time }
        let logs := AccessLog.save st.accessLogs entryLog1
        let visitors :=
          if entryLog1.userType = "visitor" then
            match entryLog1.userId.bind (Visitor.findById st.visitors) with
            | none => st.visitors
            | some visitor =>
              Visitor.save st.visitors now.time
                { visitor with status := "completed", exitTime := some now.time }
          else st.visitors
        (.ok entryLog1.accessTime now.time (roundMinutes (now.time - entryLog1.accessTime)),
          { st with accessLogs := logs, visitors := visitors })

/-! ## Decisions -/

/-- Decision of `validate` in the vocabulary of the specification. -/
inductive Decision where
  | granted
  | denied (reasonCode : String)
  deriving DecidableEq, Repr

/-- Decision observed on a run of `validate` from state `st`: `granted` for a
`success: true` response; `denied code` for a `success: false` response,
`code` being the `denialReason` of the one event the run recorded; nothing
for a run that answers 400 or 500 or does not answer. -/
def observedDecision (st : State) (r : ValidateResponse × State) : Option Decision :=
  match r.1 with
  | .grantedEmployee _ => some .granted
  | .grantedVisitor _ => some .granted
  | .denied _ _ =>
    match r.2.accessLogs.drop st.accessLogs.length with
    | [ev] => ev.denialReason.map Decision.denied
    | _ => none
  | _ => none


/-! ## `GET /occupancy` -/

/-- Embedding of `accessLogSchema.statics.findCurrentlyInside`, without the
`populate`: `accessType: 'entry', status: 'successful',
exitTime: { $exists: false }`. -/
def AccessLog.findCurrentlyInside (logs : List AccessLog) : List AccessLog :=
  logs.filter (fun l => l.accessType == "entry" && l.status == "successful" && l.exitTime.isNone)

/-- Result of `populate('userId')`: the document that `userId` refers to in
the collection named by `userModel`. -/
inductive PopulatedUser where
  | employee (e : Employee)
  | visitor (v : Visitor)
  deriving DecidableEq, Repr

/-- Embedding of `populate('userId')` with `refPath: 'userModel'`. -/
def populateUserId (st : State) (l : AccessLog) : Option PopulatedUser :=
  match l.userId with
  | none => none
  | some id =>
    if l.userModel = some "Employee" then (Employee.findById st.employees id).map .employee
    else if l.userModel = some "Visitor" then (Visitor.findById st.visitors id).map .visitor
    else none

/-- The expression `log.userId?.fullName || log.userId?.name`. -/
def userNameOf (user : Option PopulatedUser) : Option String :=
  match user with
  | none => none
  | some (.employee e) => if e.fullName = "" then none else some e.fullName
  | some (.visitor v) => some v.name

/-- One element of `vehicles` in the occupancy response. -/
structure OccupancyVehicle where
  licensePlate : String
  userType : String
  entryTime : Int
  userName : Option String
  deriving DecidableEq, Repr

/-- The `data` object of `GET /occupancy`. -/
structure Occupancy where
  total : Nat
  employees : Nat
  visitors : Nat
  vehicles : List OccupancyVehicle
  deriving DecidableEq, Repr

/-- Embedding of the handler of `router.get('/occupancy', ...)` for an
authenticated request. -/
def occupancy (st : State) : Occupancy :=
  let currentlyInside := AccessLog.findCurrentlyInside st.accessLogs
  { total := currentlyInside.length
    employees := (currentlyInside.filter (fun log => log.userType == "employee")).length
    visitors := (currentlyInside.filter (fun log => log.userType == "visitor")).length
    vehicles := currentlyInside.map (fun log =>
      { licensePlate := log.licensePlate
        userType := log.userType
        entryTime := log.accessTime
        userName := userNameOf (populateUserId st log) }) }

/-! ## Numbers -/

/-- The function `Math.round` on exact values: the nearest integer, halves
upwards. The embedding uses it through `roundMinutes` and `roundTenths`. -/
def mathRound (x : ℚ) : Int :=
  ⌊x + 1 / 2⌋

/-! ## Plate recognition (`routes/ocr.js`) -/

/-- Characters that `\s` matches in a JavaScript regular expression. -/
def isJsWhitespace (c : Char) : Bool :=
  let n := c.toNat
  n == 9 || n == 10 || n == 11 || n == 12 || n == 13 || n == 32 || n == 160 || n == 5760
    || (decide (8192 ≤ n) && decide (n ≤ 8202)) || n == 8232 || n == 8233 || n == 8239
    || n == 8287 || n == 12288 || n == 65279

/-- The character class `[A-Z0-9]`. -/
def isPlateChar (c : Char) : Bool :=
  c.isUpper || c.isDigit

/-- Embedding of `text.replace(/\s/g, '').replace(/[^A-Z0-9]/g, '').toUpperCase()`. -/
def cleanText (text : String) : String :=
  toUpperCase (String.mk ((text.data.filter (fun c => !isJsWhitespace c)).filter isPlateChar))

/-- Embedding of `text.trim()`. -/
def jsTrim (text : String) : String :=
  String.mk ((text.data.dropWhile isJsWhitespace).reverse.dropWhile isJsWhitespace).reverse

/-- An anchored pattern made of character classes, one per position, such as
`/^[A-Z]{3}[0-9]{3}$/`. -/
def matchesClasses : List (Char → Bool) → List Char → Bool
  | [], [] => true
  | p :: ps, c :: cs => p c && matchesClasses ps cs
  | _, _ => false

/-- The array `platePatterns`, in its order: `ABC123`, `ABC12D`, `AB1234`,
`123ABC`. -/
def platePatterns : List (List (Char → Bool)) :=
  [ [Char.isUpper, Char.isUpper, Char.isUpper, Char.isDigit, Char.isDigit, Char.isDigit],
    [Char.isUpper, Char.isUpper, Char.isUpper, Char.isDigit, Char.isDigit, Char.isUpper],
    [Char.isUpper, Char.isUpper, Char.isDigit, Char.isDigit, Char.isDigit, Char.isDigit],
    [Char.isDigit, Char.isDigit, Char.isDigit, Char.isUpper, Char.isUpper, Char.isUpper] ]

/-- The loop `for (const pattern of platePatterns) if (pattern.test(s))`:
some pattern matches `s`. -/
def matchesPlatePattern (s : String) : Bool :=
  platePatterns.any (fun pattern => matchesClasses pattern s.data)

/-- Embedding of `s.substring(i, j)` for `i ≤ j`. -/
def substring (s : String) (i j : Nat) : String :=
  String.mk ((s.data.drop i).take (j - i))

/-- The array `substrings`: for every start `i` from 0 to `length - 6` the
window of length 6 and, when `i ≤ length - 7`, the window of length 7. -/
def substrings (cleanedText : String) : List String :=
  (List.range (cleanedText.length - 6 + 1)).flatMap (fun i =>
    substring cleanedText i (i + 6)
      :: (if i + 7 ≤ cleanedText.length then [substring cleanedText i (i + 7)] else []))

/-- The values of `detectedPlate` and `patternMatch` after the three steps:
exact match (sets `patternMatch`), first matching window when the text has at
least 6 characters, and the text itself when it has exactly 6 characters. -/
def detectPlate (cleanedText : String) : Option String × Bool :=
  if matchesPlatePattern cleanedText then (some cleanedText, true)
  else
    let windowed : Option String :=
      if cleanedText.length ≥ 6 then (substrings cleanedText).find? matchesPlatePattern
      else none
    match windowed with
    | some plate => (some plate, false)
    | none => if cleanedText.length = 6 then (some cleanedText, false) else (none, false)

/-- The value of `finalConfidence`, in tenths (750 stands for 75). The
recognition engine reports an integer confidence, so `confidence * 0.8` has
one decimal digit. -/
def finalConfidence (confidence : Int) (detectedPlate : Option String) (patternMatch : Bool) :
    Int :=
  if patternMatch then max (10 * confidence) 750
  else
    match detectedPlate with
    | some plate =>
      if plate.length ≥ 6 then max (8 * confidence) 500
      else min (10 * confidence) 400
    | none => min (10 * confidence) 400

/-- Embedding of `Math.round` on a number given in tenths: the nearest
integer, halves upwards. -/
def roundTenths (tenths : Int) : Int :=
  (tenths + 5) / 10

/-- The `result` object of `POST /plate`. -/
structure PlateResult where
  success : Bool
  plate : Option String
  confidence : Int
  rawText : String
  cleanedText : String
  patternMatch : Bool
  processingTime : Int
  deriving DecidableEq, Repr

/-- Embedding of the handler of `router.post('/plate', ...)` from the output
`text`, `confidence` of the recognition engine on; `confidence` is the
engine's mean text confidence, an integer. -/
def ocrPlate (text : String) (confidence : Int) (now : Int) : PlateResult :=
  let cleanedText := cleanText text
  let detected := detectPlate cleanedText
  { success := detected.1.isSome
    plate := detected.1
    confidence := roundTenths (finalConfidence confidence detected.1 detected.2)
    rawText := jsTrim text
    cleanedText := cleanedText
    patternMatch := detected.2
    processingTime := now }

/-! ## Visitor routes (`routes/visitors.js`) -/

/-- Embedding of `visitorSchema.statics.findByQRCode` (`findOne`). -/
def Visitor.findByQRCode (visitors : List Visitor) (qrCode : QRData) : Option Visitor :=
  visitors.find? (fun v =>
    v.qrCode == some qrCode && (v.status == "approved" || v.status == "in_progress"))

/-- The `visitor` object of a successful QR validation. -/
structure QrVisitor where
  id : Nat
  name : String
  documentNumber : String
  licensePlate : String
  purpose : String
  destinationArea : String
  companions : List String
  expiryTime : Option Int
  deriving DecidableEq, Repr

/-- Responses of `POST /validate-qr`: 400 without code, 404 when no visitor
is found, 400 when the visitor cannot enter, 200 with the visitor. -/
inductive QrResponse where
  | badRequest (message : String)
  | notFound (message : String)
  | cannotEnter (message : String)
  | ok (visitor : QrVisitor)
  deriving DecidableEq, Repr

/-- Embedding of `router.post('/validate-qr', ...)`. -/
def validateQr (visitors : List Visitor) (qrCode : Option QRData) (now : Int) : QrResponse :=
  match qrCode with
  | none => .badRequest "QR code is required"
  | some code =>
    match Visitor.findByQRCode visitors code with
    | none => .notFound "Invalid or expired QR code"
    | some visitor =>
      if !visitor.canEnter now then
        .cannotEnter
          (if visitor.isExpired now then "Visitor pass has expired"
           else "Visitor cannot enter at this time")
      else
        .ok
          { id := visitor.id
            name := visitor.name
            documentNumber := visitor.documentNumber
            licensePlate := visitor.licensePlate
            purpose := visitor.purpose
            destinationArea := visitor.destinationArea
            companions := visitor.companions
            expiryTime := visitor.expiryTime }

/-- The array `validStatuses` of `PATCH /:id/status`. -/
def validStatuses : List String :=
  ["pending", "approved", "rejected", "in_progress", "completed", "expired"]

/-- Responses of `PATCH /:id/status`. -/
inductive StatusResponse where
  | unauthorized
  | badRequest (message : String)
  | notFound (message : String)
  | ok (message : String) (data : Visitor)
  deriving DecidableEq, Repr

/-- Embedding of `router.patch('/:id/status', authenticateToken, ...)`:
`user` is the `_id` of `req.user`, `id` the route parameter, `status` and
`notes` the body fields. The requested status is stored whatever the current
one is; the save hook runs on the save. -/
def updateStatus (visitors : List Visitor) (user : Option Nat) (id : Nat)
    (status : Option String) (notes : Option String) (now : Int) :
    StatusResponse × List Visitor :=
  match user with
  | none => (.unauthorized, visitors)
  | some userId =>
    match status with
    | none => (.badRequest "Invalid status", visitors)
    | some status =>
      if !validStatuses.contains status then (.badRequest "Invalid status", visitors)
      else
        match Visitor.findById visitors id with
        | none => (.notFound "Visitor not found", visitors)
        | some visitor =>
          let v1 := { visitor with status := status }
          let v2 :=
            match notes with
            | none => v1
            | some n => if n = "" then v1 else { v1 with notes := some n }
          let v3 :=
            if status = "approved" then { v2 with approvedBy := some userId }
            else if status = "rejected" then { v2 with authorizedBy := some userId }
            else v2
          (.ok ("Visitor status updated to " ++ status) (Visitor.preSave false now v3),
            Visitor.save visitors now v3)

/-! ## Client (`src/AccessControl.jsx`) -/

/-- The `while (firstThursday.getDay() !== 4)` loop of `checkFirstThursday`,
with `fuel` bounding the number of tests of the loop condition. -/
def checkFirstThursdayLoop : Nat → CalDate → Option CalDate
  | 0, _ => none
  | fuel + 1, firstThursday =>
    if getDay firstThursday != 4 then checkFirstThursdayLoop fuel (addOneDay firstThursday)
    else some firstThursday

/-- Embedding of `checkFirstThursday` of `AccessControl.jsx`: the value it
passes to `setIsFirstThursday`, with `today` the calendar date of
`new Date()` in the browser. -/
def checkFirstThursday (today : CalDate) : Bool :=
  let firstDay : CalDate := { year := today.year, month := today.month, date := 1 }
  match checkFirstThursdayLoop 7 firstDay with
  | some firstThursday => toDateString today == toDateString firstThursday
  | none => false

/-! ## Specification-side definitions (employee branch) -/

/-- Specification, check 3: the first active vehicle of the employee whose
plate is the (upper-cased) plate of the request. -/
def specActiveVehicle (e : Employee) (plate : String) : Option Vehicle :=
  e.vehicles.find? (fun v => v.licensePlate == plate && v.isActive)

/-- Specification, check 5: motorcycle requires A1 or A2, car requires B1 or
B2, nothing else is covered. -/
def specCovers (categories : List String) (vehicleType : String) : Bool :=
  (vehicleType == "motorcycle" && (categories.contains "A1" || categories.contains "A2"))
    || (vehicleType == "car" && (categories.contains "B1" || categories.contains "B2"))

/-- Specification of the employee branch: the six checks in their order, the
first failing one giving the reason code. `found` is the result of the
directory lookup for `plate`. -/
def specEmployeeDecision (found : Option Employee) (plate : String) (now : Clock) : Decision :=
  match found with
  | none => .denied "invalid_plate"
  | some e =>
    if e.isActive = false then .denied "inactive_employee"
    else
      match specActiveVehicle e plate with
      | none => .denied "unauthorized_vehicle"
      | some v =>
        match e.license with
        | none => .denied "expired_license"
        | some l =>
          if l.isValid = false ∨ l.expiryDate ≤ now.time then .denied "expired_license"
          else if specCovers l.categories v.type.toString = false then .denied "expired_license"
          else if isFirstThursday now.today = true ∧ e.accessLevel = "basic" then
            .denied "first_thursday_restriction"
          else .granted

/-- A request that `validate` routes to its employee branch with licence
plate `lp`: the plate is present and non-empty and `accessType` is absent or
`employee`. -/
def Request.isEmployeeValidation (req : Request) (lp : String) : Prop :=
  req.licensePlate = some lp ∧ lp ≠ "" ∧ req.accessType.getD "employee" = "employee"

/-- A request that `validate` routes to its visitor branch with licence
plate `lp`. -/
def Request.isVisitorValidation (req : Request) (lp : String) : Prop :=
  req.licensePlate = some lp ∧ lp ≠ "" ∧ req.accessType = some "visitor"

/-- Checks 1 to 5 of the employee branch, in the words of the specification,
for a resolved employee: active, an active vehicle with the plate, a valid and
unexpired licence whose categories cover the type of that vehicle. -/
def specChecksOneToFive (e : Employee) (plate : String) (now : Int) : Prop :=
  e.isActive = true ∧
    ∃ v, specActiveVehicle e plate = some v ∧
      ∃ l, e.license = some l ∧ l.isValid = true ∧ now < l.expiryDate
        ∧ specCovers l.categories v.type.toString = true


/-! ## Specification-side definitions (visitor branch) -/

/-- Visitor branch as claim C5 words it: `now` is past expiry when it is
after `visitDate + expectedDuration` hours, for every duration. -/
def claimedPastExpiry (v : Visitor) (now : Int) : Bool :=
  match v.visitDate with
  | none => false
  | some visitDate => decide (now > visitDate + v.expectedDuration * 3600000)

/-- Visitor branch as the code decides it: a visit without date, with
expected duration 0, or whose visit date plus duration is outside the range
of `Date` has no expiry time and is never past expiry. -/
def specPastExpiry (v : Visitor) (now : Int) : Bool :=
  match v.visitDate with
  | none => false
  | some visitDate =>
    decide (v.expectedDuration ≠ 0)
      && (isValidTime visitDate && isValidTime (visitDate + v.expectedDuration * 3600000))
      && decide (now > visitDate + v.expectedDuration * 3600000)

/-- Decision of the visitor branch for the lookup result `found`, given the
notion `pastExpiry` of being past expiry: no record gives invalid_plate; an
approved visitor without entry time and not past expiry is granted; otherwise
visitor_expired when past expiry and visitor_not_approved in the remaining
cases. -/
def visitorDecisionWith (pastExpiry : Visitor → Int → Bool) (found : Option Visitor)
    (now : Int) : Decision :=
  match found with
  | none => .denied "invalid_plate"
  | some v =>
    if v.status = "approved" ∧ v.entryTime = none ∧ pastExpiry v now = false then .granted
    else if pastExpiry v now = true then .denied "visitor_expired"
    else .denied "visitor_not_approved"

/-! ## Runs of the three operations -/

/-- One call of the access API. -/
inductive Call where
  | validate (req : Request) (now : Clock)
  | entry (req : Request) (now : Clock)
  | exit (req : Request) (now : Clock)
  deriving DecidableEq, Repr

/-- State after one call. -/
def step (st : State) : Call → State
  | .validate req now => (validate st req now).2
  | .entry req now => (entry st req now).2
  | .exit req now => (exit st req now).2

/-- State after a sequential series of calls. -/
def run (st : State) (calls : List Call) : State :=
  calls.foldl step st

/-- Open sessions of `plate`: the events with that plate, `accessType`
entry, `status` successful and no `exitTime`. -/
def openSessions (st : State) (plate : String) : List AccessLog :=
  st.accessLogs.filter (isOpenEntryFor plate)

/-- A call is guarded in `st` when it is no entry call, or an entry call for
a plate that has no open session in `st`. -/
def Call.guarded (st : State) : Call → Bool
  | .entry req _ =>
    match req.licensePlate with
    | none => true
    | some lp => (openSessions st (toUpperCase lp)).isEmpty
  | _ => true

/-- Every call of the series is guarded in the state it is made in. -/
def guardedRun : State → List Call → Bool
  | _, [] => true
  | st, c :: cs => c.guarded st && guardedRun (step st c) cs

/-! ## Specification-side definitions (ledger) -/

/-- Open session of `plate`, in the words of the specification: an event of
that plate with accessType entry, status successful and no exitTime. -/
def OpenSession (plate : String) (l : AccessLog) : Prop :=
  l.licensePlate = plate ∧ l.accessType = "entry" ∧ l.status = "successful"
    ∧ l.exitTime = none

/-- Events that are inside, in the words of the specification: accessType
entry, status successful, exitTime unset; in the order of the ledger. -/
def insideEvents (logs : List AccessLog) : List AccessLog :=
  logs.filter (fun l =>
    decide (l.accessType = "entry" ∧ l.status = "successful" ∧ l.exitTime = none))

/-- Invariant of the ledgers that the operations build: the `_id` of an
event is its position, and every `userType` is employee or visitor. -/
def LedgerInv (logs : List AccessLog) : Prop :=
  logs.map (fun l => l.id) = List.range logs.length
    ∧ ∀ l ∈ logs, l.userType = "employee" ∨ l.userType = "visitor"

/-! ## Specification-side definitions (plate normaliser) -/

/-- The four plate shapes of the specification, on a canonical text: 3
letters + 3 digits, 3 letters + 2 digits + 1 letter, 2 letters + 4 digits,
3 digits + 3 letters (letters are upper-case). -/
def IsPlateShape (s : String) : Prop :=
  ∃ a b c d e f : Char, s.data = [a, b, c, d, e, f] ∧
    ((a.isUpper ∧ b.isUpper ∧ c.isUpper ∧ d.isDigit ∧ e.isDigit ∧ f.isDigit)
      ∨ (a.isUpper ∧ b.isUpper ∧ c.isUpper ∧ d.isDigit ∧ e.isDigit ∧ f.isUpper)
      ∨ (a.isUpper ∧ b.isUpper ∧ c.isDigit ∧ d.isDigit ∧ e.isDigit ∧ f.isDigit)
      ∨ (a.isDigit ∧ b.isDigit ∧ c.isDigit ∧ d.isUpper ∧ e.isUpper ∧ f.isUpper))

/-- How the normaliser finds its candidate. -/
inductive Detection where
  | exact
  | windowed
  | fallback
  | noCandidate
  deriving DecidableEq, Repr

/-- The way the candidate of a canonical text is found: by an exact match of
the whole text; else by a matching window when the text has at least 6
characters; else as the text itself when it has exactly 6 characters; else
there is no candidate. -/
def detectionOf (cleaned : String) : Detection :=
  if matchesPlatePattern cleaned then .exact
  else if cleaned.length ≥ 6 ∧ (substrings cleaned).any matchesPlatePattern = true then .windowed
  else if cleaned.length = 6 then .fallback
  else .noCandidate

/-- Reported confidence by way of detection: `max(c, 75)` for an exact match,
and for a windowed match when `windowedBoost` holds; the rounded
`max(c * 0.8, 50)` for the other candidates; `min(c, 40)` without candidate. -/
def confidenceWith (windowedBoost : Bool) (c : Int) : Detection → Int
  | .exact => max c 75
  | .windowed => if windowedBoost then max c 75 else roundTenths (max (8 * c) 500)
  | .fallback => roundTenths (max (8 * c) 500)
  | .noCandidate => min c 40

/-! ## Specification-side definitions (visitor passes) -/

/-- A QR validation is accepted when it answers 200 with the visitor. -/
def QrResponse.accepted : QrResponse → Bool
  | .ok _ => true
  | _ => false

/-- Position of a status on the chain pending → approved → in_progress →
completed of the specification; rejected and expired are off the chain. -/
def statusRank (status : String) : Option Nat :=
  if status = "pending" then some 0
  else if status = "approved" then some 1
  else if status = "in_progress" then some 2
  else if status = "completed" then some 3
  else none

/-- The terminal statuses of the specification. -/
def isTerminalStatus (status : String) : Bool :=
  status == "completed" || status == "rejected" || status == "expired"

/-- The status changes that the specification allows: no change, a move
forwards along the chain, or a redirection of a non-terminal status to
rejected or expired. -/
def statusAdvances (old new : String) : Bool :=
  old == new
    || (match statusRank old, statusRank new with
        | some i, some j => decide (i < j)
        | _, _ => false)
    || (!isTerminalStatus old && (new == "rejected" || new == "expired"))

/-! ## Specification-side definitions (event well-formedness) -/

/-- Well-formedness of a stored event in the words of the data model:
userType employee or visitor, a user reference, vehicleType car or
motorcycle, accessType entry, exit or denied, status successful, denied or
suspicious, detectionMethod manual, camera_scan, qr_scan or rfid. -/
def AccessLog.wellFormed (l : AccessLog) : Bool :=
  (l.userType == "employee" || l.userType == "visitor")
    && l.userId.isSome
    && (l.vehicleType == "car" || l.vehicleType == "motorcycle")
    && (l.accessType == "entry" || l.accessType == "exit" || l.accessType == "denied")
    && (l.status == "successful" || l.status == "denied" || l.status == "suspicious")
    && ["manual", "camera_scan", "qr_scan", "rfid"].contains l.detectionMethod

/-- The state `st` with the licence and the access level of every employee
replaced by `license e` and `accessLevel e`, everything else as it is. -/
def State.relicensed (st : State) (license : Employee → Option License)
    (accessLevel : Employee → String) : State :=
  { st with
    employees := st.employees.map
      (fun e => { e with license := license e, accessLevel := accessLevel e }) }
/-! ## Sample data -/

/-- An active basic-tier employee with one active car, plate `ABC123`, and a
valid licence of category B1 expiring at time 10000000. -/
def sampleEmployee : Employee :=
  { id := 1, fullName := "Ana Perez", position := "Analyst", workArea := "IT", photo := none
    vehicles := [{ type := .car, licensePlate := "ABC123", isActive := true }]
    license := some { expiryDate := 10000000, categories := ["B1"], isValid := true }
    accessLevel := "basic", isActive := true, lastAccess := none }

/-- A directory with `sampleEmployee`, no visitor and an empty ledger. -/
def sampleState : State :=
  { employees := [sampleEmployee], visitors := [], accessLogs := [] }

/-- An authenticated request for `plate` with default `accessType` and
`entryType` `manual`. -/
def sampleRequest (plate : String) : Request :=
  { licensePlate := some plate, accessType := none, entryType := some "manual"
    user := some 7, ip := none, userAgent := none }

/-- Clock reading on 2023-11-02, a first Thursday. -/
def firstThursdayClock : Clock :=
  { time := 5000, today := { year := 2023, month := 10, date := 2 } }

/-- Clock reading on 2023-11-09, a Thursday that is not the first one. -/
def ordinaryClock : Clock :=
  { time := 5000, today := { year := 2023, month := 10, date := 9 } }


/-- An active supervisor with one active motorcycle, plate `MOT001`, whose
valid licence has the categories B1 and C1 only. -/
def sampleRider : Employee :=
  { id := 2, fullName := "Luis Rojas", position := "Courier", workArea := "Logistics"
    photo := none
    vehicles := [{ type := .motorcycle, licensePlate := "MOT001", isActive := true }]
    license := some { expiryDate := 10000000, categories := ["B1", "C1"], isValid := true }
    accessLevel := "supervisor", isActive := true, lastAccess := none }

/-- A directory with `sampleRider` only. -/
def riderState : State :=
  { employees := [sampleRider], visitors := [], accessLogs := [] }

/-- A visitor request for `plate`. -/
def visitorRequest (plate : String) : Request :=
  { licensePlate := some plate, accessType := some "visitor", entryType := some "manual"
    user := some 7, ip := none, userAgent := none }

/-- An approved visitor, plate `VIS001`, visit date 0, not yet entered, with
the given expected duration in hours. -/
def sampleVisitor (expectedDuration : Int) : Visitor :=
  { id := 10, name := "Eva Soto", documentNumber := "D-1", licensePlate := "VIS001"
    purpose := "Meeting", destinationArea := "Lobby", visitDate := some 0
    expectedDuration := expectedDuration, qrCode := none, status := "approved"
    entryTime := none, exitTime := none }

/-- A directory with one visitor and an empty ledger. -/
def visitorState (expectedDuration : Int) : State :=
  { employees := [], visitors := [sampleVisitor expectedDuration], accessLogs := [] }

/-- Clock reading `hours` hours after time 0, on 2023-11-09. -/
def clockAtHour (hours : Int) : Clock :=
  { time := hours * 3600000, today := { year := 2023, month := 10, date := 9 } }

/-- The sample directory after the entry of ABC123 at `ordinaryClock`: one
open session. -/
def insideState : State :=
  (entry sampleState (sampleRequest "abc123") ordinaryClock).2

/-- Clock reading at time 95000 on 2023-11-09, 90 seconds after
`ordinaryClock`. -/
def laterClock : Clock :=
  { ordinaryClock with time := 95000 }

/-- The QR code of `sampleVisitor 4`. -/
def sampleQr : QRData :=
  { visitorId := 10, documentNumber := "D-1", licensePlate := "VIS001", visitDate := some 0
    expiryTime := some 14400000 }

/-- The approved visitor `sampleVisitor 4` (4 hours from time 0) with its QR
code. -/
def sampleQrVisitor : Visitor :=
  { sampleVisitor 4 with qrCode := some sampleQr }

/-- The visitor `sampleVisitor 4` after a completed visit. -/
def completedVisitor : Visitor :=
  { sampleVisitor 4 with status := "completed", entryTime := some 1000, exitTime := some 2000 }

/-- The visitor `sampleVisitor 4` (4 hours from time 0) after a rejection. -/
def rejectedVisitor : Visitor :=
  { sampleVisitor 4 with status := "rejected" }

/-- Clock reading at time 20000000 on 2023-11-09, after the expiry of the
licence of `sampleEmployee`. -/
def expiredLicenseClock : Clock :=
  { ordinaryClock with time := 20000000 }

/-- The sample employee after deactivation: the car ABC123 is still active. -/
def inactiveEmployee : Employee :=
  { sampleEmployee with isActive := false }

/-- A directory whose only employee is inactive. -/
def inactiveState : State :=
  { employees := [inactiveEmployee], visitors := [], accessLogs := [] }

/-- The sample directory with the licence of the employee marked invalid
(`isValid: false`), not expired. -/
def invalidLicenseState : State :=
  sampleState.relicensed
    (fun _ => some { expiryDate := 10000000, categories := ["B1"], isValid := false })
    (fun e => e.accessLevel)

/-- An approved visitor with its QR code whose expected duration,
-3000000000 hours from time 0, gives a sum outside the range of `Date`. -/
def outOfRangeVisitor : Visitor :=
  { sampleVisitor (-3000000000) with qrCode := some sampleQr }
/-! ## Auxiliary lemmas -/

/-- Every month has at least 28 days. -/
theorem daysInMonth_ge (y : Int) (m : Nat) : 28 ≤ daysInMonth y m := by
  unfold daysInMonth
  split
  · split <;> omega
  · split <;> omega

/-- Within the first 28 days of a month the next day is in the same month. -/
theorem addOneDay_early (y : Int) (m k : Nat) (hk : k + 1 ≤ 28) :
    addOneDay ⟨y, m, k⟩ = ⟨y, m, k + 1⟩ := by
  unfold addOneDay
  have := daysInMonth_ge y m
  simp only []
  rw [if_pos (by omega)]

/-- The weekday advances by one, modulo 7, with the day of the month. -/
theorem getDay_shift (y : Int) (m k : Nat) :
    getDay ⟨y, m, k + 1⟩ = (getDay ⟨y, m, k⟩ + 1) % 7 := by
  unfold getDay dayNumber
  simp only []
  omega

/-- Started on day 1 of a month, the loop of `isFirstThursday` stops within
seven tests of its condition, after at most six increments, on a day of that
month. -/
theorem firstThursdayLoop_stops (y : Int) (m : Nat) :
    ∃ k, k ≤ 6 ∧ firstThursdayLoop 7 ⟨y, m, 1⟩ = some ⟨y, m, 1 + k⟩ := by
  have h1 := getDay_shift y m 1
  have h2 := getDay_shift y m 2
  have h3 := getDay_shift y m 3
  have h4 := getDay_shift y m 4
  have h5 := getDay_shift y m 5
  have h6 := getDay_shift y m 6
  simp only [Nat.reduceAdd] at h1 h2 h3 h4 h5 h6
  have hlt : getDay ⟨y, m, 1⟩ < 7 := by
    unfold getDay; omega
  simp only [firstThursdayLoop, bne_iff_ne, ne_eq, ite_not]
  repeat rw [addOneDay_early _ _ _ (by omega)]
  by_cases c1 : getDay ⟨y, m, 1⟩ = 4
  · exact ⟨0, by omega, by simp [c1]⟩
  by_cases c2 : getDay ⟨y, m, 2⟩ = 4
  · exact ⟨1, by omega, by simp [c1, c2]⟩
  by_cases c3 : getDay ⟨y, m, 3⟩ = 4
  · exact ⟨2, by omega, by simp [c1, c2, c3]⟩
  by_cases c4 : getDay ⟨y, m, 4⟩ = 4
  · exact ⟨3, by omega, by simp [c1, c2, c3, c4]⟩
  by_cases c5 : getDay ⟨y, m, 5⟩ = 4
  · exact ⟨4, by omega, by simp [c1, c2, c3, c4, c5]⟩
  by_cases c6 : getDay ⟨y, m, 6⟩ = 4
  · exact ⟨5, by omega, by simp [c1, c2, c3, c4, c5, c6]⟩
  by_cases c7 : getDay ⟨y, m, 7⟩ = 4
  · exact ⟨6, by omega, by simp [c1, c2, c3, c4, c5, c6, c7]⟩
  exfalso
  omega


theorem char_toUpper_idem (c : Char) : c.toUpper.toUpper = c.toUpper := by
  by_cases h : c.toNat ≥ 97 ∧ c.toNat ≤ 122
  · obtain ⟨h1, h2⟩ := h
    have hc : c = Char.ofNat c.toNat := by simp
    generalize c.toNat = n at *
    subst hc
    interval_cases n <;> rfl
  · have hfix : c.toUpper = c := by
      unfold Char.toUpper
      simp only []
      rw [if_neg h]
    rw [hfix, hfix]

theorem toUpperCase_idem (s : String) : toUpperCase (toUpperCase s) = toUpperCase s := by
  unfold toUpperCase
  simp only [List.map_map]
  congr 1
  apply List.map_congr_left
  intro c _
  exact char_toUpper_idem c

theorem getVehicleByPlate_upper (e : Employee) (lp : String) :
    e.getVehicleByPlate (toUpperCase lp) = specActiveVehicle e (toUpperCase lp) := by
  unfold Employee.getVehicleByPlate specActiveVehicle
  rw [toUpperCase_idem]

theorem validate_employee_eq (st : State) (req : Request) (now : Clock) (lp : String)
    (h : req.isEmployeeValidation lp) :
    validate st req now
      = validateEmployee st req now (toUpperCase lp) (isFirstThursday now.today) := by
  obtain ⟨h1, h2, h3⟩ := h
  simp [validate, h1, h2, h3]

theorem validate_visitor_eq (st : State) (req : Request) (now : Clock) (lp : String)
    (h : req.isVisitorValidation lp) :
    validate st req now
      = validateVisitor st req now (toUpperCase lp) (isFirstThursday now.today) := by
  obtain ⟨h1, h2, h3⟩ := h
  simp [validate, h1, h2, h3]

theorem hasValidLicense_iff (e : Employee) (l : License) (now : Int) (hl : e.license = some l) :
    e.hasValidLicense now = true ↔ ¬ (l.isValid = false ∨ l.expiryDate ≤ now) := by
  simp [Employee.hasValidLicense, hl]

theorem toUpperCase_ne_empty (s : String) (h : s ≠ "") : toUpperCase s ≠ "" := by
  intro hc
  apply h
  have hd : (toUpperCase s).data = [] := by rw [hc]
  unfold toUpperCase at hd
  simp only [List.map_eq_nil_iff] at hd
  exact String.ext hd

/-- The strings of the two vehicle types. -/
theorem vehicleType_toString (t : VehicleType) :
    t.toString = "car" ∨ t.toString = "motorcycle" := by
  cases t
  · exact Or.inl rfl
  · exact Or.inr rfl

/-- The create of a document that the schema accepts. -/
theorem create_of_accepts (logs : List AccessLog) (now : Int) (doc : AccessLogInput)
    (h : AccessLog.schemaAccepts doc = true) :
    AccessLog.create logs now doc
      = some (AccessLog.ofInput logs.length now doc,
          logs ++ [AccessLog.ofInput logs.length now doc]) := by
  simp [AccessLog.create, h]

/-- The create of a document that the schema rejects throws. -/
theorem create_of_rejects (logs : List AccessLog) (now : Int) (doc : AccessLogInput)
    (h : AccessLog.schemaAccepts doc = false) :
    AccessLog.create logs now doc = none := by
  simp [AccessLog.create, h]

/-- A denial whose document the schema accepts: the response is sent and the
document is appended. -/
theorem deny_of_accepts (st : State) (now : Clock) (doc : AccessLogInput)
    (r : ValidateResponse) (h : AccessLog.schemaAccepts doc = true) :
    deny st now doc r
      = (r, { st with accessLogs :=
            st.accessLogs ++ [AccessLog.ofInput st.accessLogs.length now.time doc] }) := by
  simp [deny, State.record, AccessLog.create, h]

/-- A denial whose document the schema rejects: 500, nothing stored. -/
theorem deny_of_rejects (st : State) (now : Clock) (doc : AccessLogInput)
    (r : ValidateResponse) (h : AccessLog.schemaAccepts doc = false) :
    deny st now doc r = (.serverError "Validation failed", st) := by
  simp [deny, State.record, AccessLog.create, h]

/-- The two outcomes of a denial. -/
theorem deny_cases (st : State) (now : Clock) (doc : AccessLogInput) (r : ValidateResponse) :
    (AccessLog.schemaAccepts doc = false
      ∧ deny st now doc r = (.serverError "Validation failed", st))
    ∨ (AccessLog.schemaAccepts doc = true
      ∧ deny st now doc r
        = (r, { st with accessLogs :=
              st.accessLogs ++ [AccessLog.ofInput st.accessLogs.length now.time doc] })) := by
  cases h : AccessLog.schemaAccepts doc with
  | false => exact Or.inl ⟨rfl, deny_of_rejects st now doc r h⟩
  | true => exact Or.inr ⟨rfl, deny_of_accepts st now doc r h⟩

/-- A denial document with vehicleType `unknown` is rejected by the schema. -/
theorem schemaAccepts_unknown (req : Request) (userType : String) (user : Option (Nat × String))
    (plate reason : String) (ft : Bool) :
    AccessLog.schemaAccepts (denialDoc req userType user plate "unknown" reason ft) = false := by
  simp [AccessLog.schemaAccepts, denialDoc]

/-- A denial document of a resolved employee with the type of a stored
vehicle and a reason code of the schema is accepted. -/
theorem schemaAccepts_employee (req : Request) (id : Nat) (plate : String) (t : VehicleType)
    (reason : String) (ft : Bool) (hp : plate ≠ "")
    (hr : reason = "expired_license" ∨ reason = "inactive_employee"
      ∨ reason = "first_thursday_restriction") :
    AccessLog.schemaAccepts
      (denialDoc req "employee" (some (id, "Employee")) plate t.toString reason ft) = true := by
  rcases hr with hr | hr | hr <;> subst hr <;> cases t <;>
    simp [AccessLog.schemaAccepts, denialDoc, VehicleType.toString, hp]

theorem observedDecision_deny (st : State) (now : Clock) (req : Request) (m : String)
    (p : Option Bool) (userType : String) (user : Option (Nat × String))
    (plate vehicleType reason : String) (ft : Bool)
    (h : AccessLog.schemaAccepts (denialDoc req userType user plate vehicleType reason ft)
      = true) :
    observedDecision st
        (deny st now (denialDoc req userType user plate vehicleType reason ft) (.denied m p))
      = some (.denied reason) := by
  rw [deny_of_accepts st now _ _ h]
  simp [observedDecision, AccessLog.ofInput, denialDoc]

theorem observedDecision_serverError (st st1 : State) (m : String) :
    observedDecision st (.serverError m, st1) = none := rfl

/-- Check 5 on a string: a `TypeError` for an inherited property name,
otherwise the coverage of the specification. -/
theorem canDriveVehicleType_eq (e : Employee) (l : License) (t : String) (now : Int)
    (hl : e.license = some l) (hv : e.hasValidLicense now = true) :
    e.canDriveVehicleType t now
      = if objectPrototypeKeys.contains t = true then none
        else some (specCovers l.categories t) := by
  unfold Employee.canDriveVehicleType specCovers requiredCategories
  simp only [hv, hl]
  by_cases h1 : t = "motorcycle"
  · subst h1; simp [objectPrototypeKeys]
  · by_cases h2 : t = "car"
    · subst h2; simp [objectPrototypeKeys]
    · by_cases h3 : t ∈ objectPrototypeKeys
      · simp [h1, h2, h3]
      · simp [h1, h2, h3]

/-- Check 5 on the type of a stored vehicle. -/
theorem canDriveVehicleType_stored (e : Employee) (l : License) (t : VehicleType) (now : Int)
    (hl : e.license = some l) (hv : e.hasValidLicense now = true) :
    e.canDriveVehicleType t.toString now = some (specCovers l.categories t.toString) := by
  rw [canDriveVehicleType_eq e l _ now hl hv]
  cases t <;> rfl

/-- The not-found branch of the employee validation answers 500. -/
theorem validateEmployee_not_found (st : State) (req : Request) (now : Clock) (plate : String)
    (ft : Bool) (h : Employee.findByPlate st.employees plate = none) :
    validateEmployee st req now plate ft = (.serverError "Validation failed", st) := by
  unfold validateEmployee
  simp only [h]
  exact deny_of_rejects _ _ _ _ (schemaAccepts_unknown _ _ _ _ _ _)

/-- Without active vehicle of the plate the employee validation answers 500. -/
theorem validateEmployee_no_vehicle (st : State) (req : Request) (now : Clock) (plate : String)
    (ft : Bool) (e : Employee) (h : Employee.findByPlate st.employees plate = some e)
    (hv : e.getVehicleByPlate plate = none) :
    validateEmployee st req now plate ft = (.serverError "Validation failed", st) := by
  unfold validateEmployee
  simp only [h, hv, typeOrUnknown]
  split
  · exact deny_of_rejects _ _ _ _ (schemaAccepts_unknown _ _ _ _ _ _)
  · exact deny_of_rejects _ _ _ _ (schemaAccepts_unknown _ _ _ _ _ _)

/-- Outcome of the employee branch, case by case: access is granted and the
state is untouched, or the answer is 500 and the state is untouched, or the
response is a denial and exactly the denial document of the branch, which the
schema accepts, is recorded. -/
theorem validateEmployee_cases (st : State) (req : Request) (now : Clock) (plate : String)
    (ft : Bool) :
    (∃ e v, Employee.findByPlate st.employees plate = some e
        ∧ e.getVehicleByPlate plate = some v
        ∧ (ft && e.accessLevel == "basic") = false
        ∧ validateEmployee st req now plate ft =
          (.grantedEmployee
            { userType := "employee", driverName := e.fullName, licensePlate := plate,
              vehicleType := v.type.toString, position := e.position, workArea := e.workArea,
              photo := e.photo, isFirstThursday := ft,
              hasSpecialPermit := e.accessLevel != "basic" }, st))
    ∨ validateEmployee st req now plate ft = (.serverError "Validation failed", st)
    ∨ (∃ m p user vt reason,
        AccessLog.schemaAccepts (denialDoc req "employee" user plate vt reason ft) = true
        ∧ validateEmployee st req now plate ft =
          (.denied m p, { st with accessLogs := st.accessLogs ++
            [AccessLog.ofInput st.accessLogs.length now.time
              (denialDoc req "employee" user plate vt reason ft)] })) := by
  have key : ∀ (user : Option (Nat × String)) (vt reason m : String) (p : Option Bool),
      deny st now (denialDoc req "employee" user plate vt reason ft) (.denied m p)
          = (.serverError "Validation failed", st)
      ∨ (∃ m1 p1 user1 vt1 reason1,
        AccessLog.schemaAccepts (denialDoc req "employee" user1 plate vt1 reason1 ft) = true
        ∧ deny st now (denialDoc req "employee" user plate vt reason ft) (.denied m p) =
          (.denied m1 p1, { st with accessLogs := st.accessLogs ++
            [AccessLog.ofInput st.accessLogs.length now.time
              (denialDoc req "employee" user1 plate vt1 reason1 ft)] })) := by
    intro user vt reason m p
    rcases deny_cases st now (denialDoc req "employee" user plate vt reason ft) (.denied m p)
      with ⟨_, h⟩ | ⟨ha, h⟩
    · exact Or.inl h
    · exact Or.inr ⟨m, p, user, vt, reason, ha, h⟩
  unfold validateEmployee
  cases hf : Employee.findByPlate st.employees plate with
  | none => exact Or.inr (key _ _ _ _ _)
  | some e =>
    simp only []
    split
    · exact Or.inr (key _ _ _ _ _)
    · cases hv : e.getVehicleByPlate plate with
      | none => exact Or.inr (key _ _ _ _ _)
      | some v =>
        simp only []
        split
        · exact Or.inr (key _ _ _ _ _)
        · cases hc : e.canDriveVehicleType v.type.toString now.time with
          | none => exact Or.inr (Or.inl rfl)
          | some b =>
            cases b with
            | false => exact Or.inr (key _ _ _ _ _)
            | true =>
              simp only []
              split
              · exact Or.inr (key _ _ _ _ _)
              · rename_i hb
                refine Or.inl ⟨e, v, rfl, hv, ?_, rfl⟩
                simpa using hb

/-- Outcome of the visitor branch, case by case. -/
theorem validateVisitor_cases (st : State) (req : Request) (now : Clock) (plate : String)
    (ft : Bool) :
    (∃ d, validateVisitor st req now plate ft = (.grantedVisitor d, st))
    ∨ validateVisitor st req now plate ft = (.serverError "Validation failed", st) := by
  unfold validateVisitor
  cases hf : Visitor.findByPlate st.visitors plate now.time with
  | none => exact Or.inr (deny_of_rejects _ _ _ _ (schemaAccepts_unknown _ _ _ _ _ _))
  | some v =>
    simp only []
    split
    · exact Or.inr (deny_of_rejects _ _ _ _ (schemaAccepts_unknown _ _ _ _ _ _))
    · exact Or.inl ⟨_, rfl⟩

/-- Decision observed on the employee branch when the directory resolves the
plate to an employee with an active vehicle of that plate, for the plate as
`validate` passes it (upper-cased, not empty). -/
theorem validateEmployee_observed (st : State) (req : Request) (now : Clock) (lp : String)
    (e : Employee) (v : Vehicle) (hlp : lp ≠ "")
    (hf : Employee.findByPlate st.employees (toUpperCase lp) = some e)
    (hveh : specActiveVehicle e (toUpperCase lp) = some v) :
    observedDecision st
        (validateEmployee st req now (toUpperCase lp) (isFirstThursday now.today))
      = some (specEmployeeDecision (some e) (toUpperCase lp) now) := by
  have hp := toUpperCase_ne_empty lp hlp
  have hacc : ∀ reason, (reason = "expired_license" ∨ reason = "inactive_employee"
      ∨ reason = "first_thursday_restriction") →
      AccessLog.schemaAccepts (denialDoc req "employee" (some (e.id, "Employee"))
        (toUpperCase lp) v.type.toString reason (isFirstThursday now.today)) = true :=
    fun reason hr => schemaAccepts_employee req e.id _ v.type reason _ hp hr
  unfold validateEmployee specEmployeeDecision
  simp only [hf, hveh]
  rw [getVehicleByPlate_upper, hveh]
  simp only [typeOrUnknown]
  cases ha : e.isActive with
  | false =>
    simp only [Bool.not_false, if_true]
    exact observedDecision_deny _ _ _ _ _ _ _ _ _ _ _ (hacc _ (Or.inr (Or.inl rfl)))
  | true =>
    simp only [Bool.not_true, Bool.false_eq_true, if_false]
    cases hl : e.license with
    | none =>
      simp only [Employee.hasValidLicense, hl, Bool.not_false, if_true]
      exact observedDecision_deny _ _ _ _ _ _ _ _ _ _ _ (hacc _ (Or.inl rfl))
    | some l =>
      simp only []
      by_cases hval : e.hasValidLicense now.time = true
      · have hs := (hasValidLicense_iff e l now.time hl).1 hval
        rw [canDriveVehicleType_stored e l v.type now.time hl hval]
        simp only [hval, Bool.not_true, Bool.false_eq_true, if_false, if_neg hs]
        cases hc : specCovers l.categories v.type.toString with
        | false =>
          simp only [if_true]
          exact observedDecision_deny _ _ _ _ _ _ _ _ _ _ _ (hacc _ (Or.inl rfl))
        | true =>
          simp only [Bool.true_eq_false, if_false]
          by_cases hr : isFirstThursday now.today = true ∧ e.accessLevel = "basic"
          · simp only [hr.1, hr.2, beq_self_eq_true, Bool.and_self, if_true, and_self]
            have := observedDecision_deny st now req
              "First Thursday restriction - Special permit required" (some true) "employee"
              (some (e.id, "Employee")) (toUpperCase lp) v.type.toString
              "first_thursday_restriction" (isFirstThursday now.today)
              (hacc _ (Or.inr (Or.inr rfl)))
            rw [hr.1] at this
            exact this
          · have hb : (isFirstThursday now.today && e.accessLevel == "basic") = false := by
              simpa using hr
            simp [hb, hr, observedDecision]
      · have hs : l.isValid = false ∨ l.expiryDate ≤ now.time := by
          by_contra hn
          exact hval ((hasValidLicense_iff e l now.time hl).2 hn)
        have hval2 : e.hasValidLicense now.time = false := by simpa using hval
        simp only [hval2, Bool.not_false, if_true, if_pos hs]
        exact observedDecision_deny _ _ _ _ _ _ _ _ _ _ _ (hacc _ (Or.inl rfl))

/-- Outcome of `validate`, case by case: either the response is no denial and
the state is untouched, or the response is a denial and exactly one denial
document, which the schema accepts, is recorded. -/
theorem validate_cases (st : State) (req : Request) (now : Clock) :
    ((validate st req now).2 = st ∧ ∀ m p, (validate st req now).1 ≠ .denied m p)
    ∨ (∃ m p userType user plate vt reason ft,
        AccessLog.schemaAccepts (denialDoc req userType user plate vt reason ft) = true
        ∧ validate st req now =
          (.denied m p, { st with accessLogs := st.accessLogs ++
            [AccessLog.ofInput st.accessLogs.length now.time
              (denialDoc req userType user plate vt reason ft)] })) := by
  unfold validate
  cases hlp : req.licensePlate with
  | none => exact Or.inl ⟨rfl, by intro m p hc; cases hc⟩
  | some lp =>
    simp only []
    split
    · exact Or.inl ⟨rfl, by intro m p hc; cases hc⟩
    · split
      · rcases validateEmployee_cases st req now (toUpperCase lp) (isFirstThursday now.today)
          with ⟨e, v, _, _, _, heq⟩ | heq | ⟨m, p, user, vt, reason, hacc, heq⟩
        · rw [heq]
          exact Or.inl ⟨rfl, by intro m p hc; cases hc⟩
        · rw [heq]
          exact Or.inl ⟨rfl, by intro m p hc; cases hc⟩
        · exact Or.inr ⟨m, p, _, user, _, vt, reason, _, hacc, heq⟩
      · split
        · rcases validateVisitor_cases st req now (toUpperCase lp) (isFirstThursday now.today)
            with ⟨d, heq⟩ | heq
          · rw [heq]
            exact Or.inl ⟨rfl, by intro m p hc; cases hc⟩
          · rw [heq]
            exact Or.inl ⟨rfl, by intro m p hc; cases hc⟩
        · exact Or.inl ⟨rfl, by intro m p hc; cases hc⟩

/-- Outcome of `entry`, case by case: the state is untouched, or exactly one
entry event for the upper-cased plate, an open session, is appended and the
visitors are those before the call. -/
theorem entry_cases (st : State) (req : Request) (now : Clock) :
    (entry st req now).2 = st
    ∨ ∃ lp ev, req.licensePlate = some lp
        ∧ (entry st req now).2.accessLogs = st.accessLogs ++ [ev]
        ∧ ev.licensePlate = toUpperCase lp
        ∧ (entry st req now).2.visitors = st.visitors := by
  unfold entry
  cases hu : req.user with
  | none => exact Or.inl rfl
  | some u =>
    cases hlp : req.licensePlate with
    | none => exact Or.inl rfl
    | some lp =>
      simp only []
      cases he : Employee.findByPlate st.employees (toUpperCase lp) with
      | some e =>
        simp only []
        cases hc : AccessLog.create st.accessLogs now.time
            (entryDoc req u "employee" (e.id, "Employee") (toUpperCase lp)
              (e.getVehicleByPlate (toUpperCase lp)) (req.entryType.getD "manual_confirmation")
              (isFirstThursday now.today)) with
        | none => exact Or.inl rfl
        | some created =>
          have hacc : AccessLog.schemaAccepts
              (entryDoc req u "employee" (e.id, "Employee") (toUpperCase lp)
                (e.getVehicleByPlate (toUpperCase lp))
                (req.entryType.getD "manual_confirmation") (isFirstThursday now.today))
              = true := by
            by_contra hn
            rw [create_of_rejects _ _ _ (by simpa using hn)] at hc
            cases hc
          rw [create_of_accepts _ _ _ hacc] at hc
          cases hc
          simp only []
          cases hs : Employee.save st.employees now.time { e with lastAccess := some now.time }
            with
          | none =>
            exact Or.inr ⟨lp, _, rfl, rfl,
              by simp [AccessLog.ofInput, entryDoc, toUpperCase_idem], rfl⟩
          | some es =>
            exact Or.inr ⟨lp, _, rfl, rfl,
              by simp [AccessLog.ofInput, entryDoc, toUpperCase_idem], rfl⟩
      | none =>
        simp only []
        cases hv : Visitor.findByPlate st.visitors (toUpperCase lp) now.time with
        | none => exact Or.inl rfl
        | some v =>
          simp only []
          rw [create_of_rejects _ _ _ (by simp [AccessLog.schemaAccepts, entryDoc, typeOrUnknown])]
          exact Or.inl rfl

/-- Replacing documents by closed ones does not create open sessions. -/
theorem filter_map_close_length (plate : String) (closed : AccessLog) (id : Nat)
    (hclosed : isOpenEntryFor plate closed = false) (logs : List AccessLog) :
    ((logs.map (fun x => if x.id = id then closed else x)).filter (isOpenEntryFor plate)).length
      ≤ (logs.filter (isOpenEntryFor plate)).length := by
  induction logs with
  | nil => simp
  | cons x xs ih =>
    simp only [List.map_cons]
    by_cases hx : x.id = id
    · simp only [hx, if_true]
      rw [List.filter_cons_of_neg (by simp [hclosed])]
      by_cases hp : isOpenEntryFor plate x = true
      · rw [List.filter_cons_of_pos hp]
        simp only [List.length_cons]
        omega
      · rw [List.filter_cons_of_neg hp]
        exact ih
    · simp only [hx, if_false]
      by_cases hp : isOpenEntryFor plate x = true
      · rw [List.filter_cons_of_pos hp, List.filter_cons_of_pos hp]
        simp only [List.length_cons]
        omega
      · rw [List.filter_cons_of_neg hp, List.filter_cons_of_neg hp]
        exact ih

/-- The ledger after `exit`: untouched, or one stored event replaced by a
copy with an exit time. -/
theorem exit_logs (st : State) (req : Request) (now : Clock) :
    (exit st req now).2.accessLogs = st.accessLogs
    ∨ ∃ entryLog : AccessLog, (exit st req now).2.accessLogs
        = AccessLog.save st.accessLogs { entryLog with exitTime := some now.time } := by
  unfold exit
  cases hu : req.user with
  | none => exact Or.inl rfl
  | some u =>
    cases hlp : req.licensePlate with
    | none => exact Or.inl rfl
    | some lp =>
      simp only []
      cases hf : findOpenEntry st.accessLogs (toUpperCase lp) with
      | none => exact Or.inl rfl
      | some entryLog => exact Or.inr ⟨entryLog, rfl⟩

/-- No operation other than a successful `entry` adds an open session, and a
successful `entry` adds at most one, for its own plate. -/
theorem step_openSessions (st : State) (c : Call) (plate : String)
    (hg : c.guarded st = true) (hinv : (openSessions st plate).length ≤ 1) :
    (openSessions (step st c) plate).length ≤ 1 := by
  cases c with
  | validate req now =>
    simp only [step]
    rcases validate_cases st req now with
      ⟨hst, _⟩ | ⟨m, p, ut, user, pl, vt, reason, ft, _, heq⟩
    · rw [hst]; exact hinv
    · rw [heq]
      unfold openSessions at hinv ⊢
      have hno : isOpenEntryFor plate
          (AccessLog.ofInput st.accessLogs.length now.time
            (denialDoc req ut user pl vt reason ft)) = false := by
        simp [isOpenEntryFor, AccessLog.ofInput, denialDoc]
      simpa [List.filter_append, hno] using hinv
  | entry req now =>
    simp only [step]
    rcases entry_cases st req now with hst | ⟨lp, ev, hlp, hlogs, hplate, _⟩
    · rw [hst]; exact hinv
    · unfold openSessions at hinv ⊢
      rw [hlogs, List.filter_append]
      by_cases hp : plate = toUpperCase lp
      · subst hp
        have hempty : (st.accessLogs.filter (isOpenEntryFor (toUpperCase lp))) = [] := by
          simpa [Call.guarded, hlp, openSessions] using hg
        rw [hempty]
        simp only [List.nil_append]
        exact (List.length_filter_le _ _).trans (by simp)
      · have hno : isOpenEntryFor plate ev = false := by
          simp only [isOpenEntryFor, hplate]
          have : (toUpperCase lp == plate) = false := by
            simpa using fun h => hp h.symm
          simp [this]
        simpa [hno] using hinv
  | exit req now =>
    simp only [step]
    rcases exit_logs st req now with hst | ⟨entryLog, hlogs⟩
    · unfold openSessions at hinv ⊢
      rw [hst]; exact hinv
    · unfold openSessions at hinv ⊢
      rw [hlogs]
      unfold AccessLog.save
      exact (filter_map_close_length plate _ _ (by simp [isOpenEntryFor]) st.accessLogs).trans hinv

/-- The invariant is kept along a guarded run. -/
theorem guardedRun_openSessions (calls : List Call) :
    ∀ st : State, guardedRun st calls = true →
      (∀ plate, (openSessions st plate).length ≤ 1) →
      ∀ plate, (openSessions (run st calls) plate).length ≤ 1 := by
  induction calls with
  | nil => intro st _ hinv; simpa [run] using hinv
  | cons c cs ih =>
    intro st hg hinv plate
    simp only [guardedRun, Bool.and_eq_true] at hg
    have hstep : ∀ plate, (openSessions (step st c) plate).length ≤ 1 :=
      fun pl => step_openSessions st c pl hg.1 (hinv pl)
    have := ih (step st c) hg.2 hstep plate
    simpa [run] using this

/-- After replacing by key, looking the key up finds the replacement. -/
theorem find_map_replace {α : Type} (key : α → Nat) (s : α) (l : List α)
    (hex : ∃ x ∈ l, key x = key s) :
    (l.map (fun x => if key x = key s then s else x)).find? (fun x => key x == key s)
      = some s := by
  induction l with
  | nil => obtain ⟨x, hx, _⟩ := hex; cases hx
  | cons y ys ih =>
    simp only [List.map_cons]
    by_cases hy : key y = key s
    · simp [hy]
    · simp only [hy, if_false]
      rw [List.find?_cons_of_neg _ (by simpa using hy)]
      apply ih
      obtain ⟨x, hx, hk⟩ := hex
      rcases List.mem_cons.1 hx with rfl | hmem
      · exact absurd hk hy
      · exact ⟨x, hmem, hk⟩

/-- The save hook keeps the `_id`. -/
theorem preSave_id (isNew : Bool) (now : Int) (v : Visitor) :
    (Visitor.preSave isNew now v).id = v.id := by
  unfold Visitor.preSave Visitor.generateQRCode
  simp only []
  split <;> split <;> rfl

/-- A saved visitor is what `findById` returns afterwards. -/
theorem findById_save (visitors : List Visitor) (now : Int) (v : Visitor)
    (hex : ∃ x ∈ visitors, x.id = v.id) :
    Visitor.findById (Visitor.save visitors now v) v.id = some (Visitor.preSave false now v) := by
  unfold Visitor.findById Visitor.save
  have hid := preSave_id false now v
  simp only []
  rw [← hid]
  obtain ⟨x, hx, hk⟩ := hex
  exact find_map_replace (fun x : Visitor => x.id) (Visitor.preSave false now v) visitors
    ⟨x, hx, hk.trans hid.symm⟩

/-- A saved employee is what `findById` returns afterwards. -/
theorem employee_findById_save (employees es : List Employee) (now : Int) (e : Employee)
    (hs : Employee.save employees now e = some es)
    (hex : ∃ x ∈ employees, x.id = e.id) :
    Employee.findById es e.id = some e := by
  unfold Employee.save at hs
  split at hs
  · cases hs
    unfold Employee.findById
    exact find_map_replace (fun x : Employee => x.id) e employees hex
  · cases hs

/-- Expiry as the code computes it and as the specification words it. -/
theorem isExpired_eq_specPastExpiry (v : Visitor) (now : Int) :
    v.isExpired now = specPastExpiry v now := by
  unfold Visitor.isExpired Visitor.expiryTime specPastExpiry
  cases hd : v.visitDate with
  | none => rfl
  | some d =>
    by_cases h0 : v.expectedDuration = 0
    · simp [h0]
    · have hm : d + v.expectedDuration * 60 * 60 * 1000 = d + v.expectedDuration * 3600000 := by
        omega
      simp only [hm, ne_eq, h0, not_false_eq_true, if_true, decide_True, Bool.true_and]
      cases hvalid : (isValidTime d && isValidTime (d + v.expectedDuration * 3600000)) with
      | false => simp
      | true =>
        simp only [if_true, Bool.true_and]

/-- The selection of `findOpenEntry` never loses a candidate. -/
theorem foldl_latest_some (l : List AccessLog) (b : AccessLog) :
    ∃ r, l.foldl
      (fun best x =>
        match best with
        | none => some x
        | some b => if x.accessTime > b.accessTime then some x else some b)
      (some b) = some r := by
  induction l generalizing b with
  | nil => exact ⟨b, rfl⟩
  | cons x xs ih =>
    simp only [List.foldl_cons]
    split
    · exact ih x
    · exact ih b

/-- `findOpenEntry` fails exactly when no stored event is an open entry of
the plate. -/
theorem findOpenEntry_eq_none (logs : List AccessLog) (plate : String) :
    findOpenEntry logs plate = none ↔ ∀ l ∈ logs, isOpenEntryFor plate l = false := by
  unfold findOpenEntry
  cases hfil : logs.filter (isOpenEntryFor plate) with
  | nil =>
    simp only [List.foldl_nil, true_iff]
    intro l hl
    by_contra hc
    have : l ∈ logs.filter (isOpenEntryFor plate) :=
      List.mem_filter.2 ⟨hl, by simpa using hc⟩
    rw [hfil] at this
    cases this
  | cons x xs =>
    simp only [List.foldl_cons]
    obtain ⟨r, hr⟩ := foldl_latest_some xs x
    rw [hr]
    simp only [false_iff, reduceCtorEq]
    intro hall
    have hx : x ∈ logs.filter (isOpenEntryFor plate) := by rw [hfil]; simp
    have := List.mem_filter.1 hx
    rw [hall x this.1] at this
    exact absurd this.2 (by simp)

/-- What the save hook stores for a visitor that `exit` has just marked
`completed`: the document as it is. -/
theorem preSave_completed (v : Visitor) (now : Int) (t : Option Int) :
    Visitor.preSave false now { v with status := "completed", exitTime := t }
      = { v with status := "completed", exitTime := t } := by
  unfold Visitor.preSave
  simp

/-- `Math.round` of a number of tenths, as computed on integers. -/
theorem roundTenths_eq (t : Int) : roundTenths t = mathRound ((t : ℚ) / 10) := by
  unfold roundTenths mathRound
  have : ((t : ℚ) / 10 + 1 / 2) = ((t + 5 : ℤ) : ℚ) / ((10 : ℕ) : ℚ) := by
    push_cast; ring
  rw [this, Rat.floor_intCast_div_natCast]
  rfl

/-- `Math.round(ms / 60000)`, as computed on integers. -/
theorem roundMinutes_eq (ms : Int) : roundMinutes ms = mathRound ((ms : ℚ) / 60000) := by
  unfold roundMinutes mathRound
  have : ((ms : ℚ) / 60000 + 1 / 2) = ((ms + 30000 : ℤ) : ℚ) / ((60000 : ℕ) : ℚ) := by
    push_cast; ring
  rw [this, Rat.floor_intCast_div_natCast]
  rfl

/-- The filter of `exit` and the open sessions of the specification. -/
theorem isOpenEntryFor_iff (plate : String) (l : AccessLog) :
    isOpenEntryFor plate l = true ↔ OpenSession plate l := by
  simp only [isOpenEntryFor, OpenSession, Bool.and_eq_true, beq_iff_eq,
    Option.isNone_iff_eq_none, and_assoc]

/-- The selection of `findOpenEntry` returns a candidate of greatest
`accessTime`. -/
theorem foldl_latest_spec (l : List AccessLog) (b r : AccessLog)
    (h : l.foldl
      (fun best x =>
        match best with
        | none => some x
        | some b => if x.accessTime > b.accessTime then some x else some b)
      (some b) = some r) :
    r ∈ b :: l ∧ ∀ x ∈ b :: l, x.accessTime ≤ r.accessTime := by
  induction l generalizing b with
  | nil =>
    simp only [List.foldl_nil, Option.some.injEq] at h
    subst h
    simp
  | cons y ys ih =>
    simp only [List.foldl_cons] at h
    by_cases hy : y.accessTime > b.accessTime
    · simp only [hy, if_true] at h
      obtain ⟨hmem, hmax⟩ := ih y h
      refine ⟨List.mem_cons_of_mem _ hmem, ?_⟩
      intro x hx
      rcases List.mem_cons.1 hx with rfl | hx
      · have := hmax y (List.mem_cons_self _ _)
        omega
      · exact hmax x hx
    · simp only [hy, if_false] at h
      obtain ⟨hmem, hmax⟩ := ih b h
      refine ⟨?_, ?_⟩
      · rcases List.mem_cons.1 hmem with rfl | hmem
        · exact List.mem_cons_self _ _
        · exact List.mem_cons_of_mem _ (List.mem_cons_of_mem _ hmem)
      · intro x hx
        rcases List.mem_cons.1 hx with rfl | hx
        · exact hmax _ (List.mem_cons_self _ _)
        · rcases List.mem_cons.1 hx with rfl | hx
          · have := hmax b (List.mem_cons_self _ _)
            omega
          · exact hmax x (List.mem_cons_of_mem _ hx)

/-- What `findOpenEntry` returns is a stored open session of the plate with
the greatest `accessTime` among them. -/
theorem findOpenEntry_spec (logs : List AccessLog) (plate : String) (e : AccessLog)
    (h : findOpenEntry logs plate = some e) :
    e ∈ logs ∧ OpenSession plate e
      ∧ ∀ l ∈ logs, OpenSession plate l → l.accessTime ≤ e.accessTime := by
  unfold findOpenEntry at h
  cases hfil : logs.filter (isOpenEntryFor plate) with
  | nil => rw [hfil] at h; cases h
  | cons x xs =>
    rw [hfil] at h
    simp only [List.foldl_cons] at h
    obtain ⟨hmem, hmax⟩ := foldl_latest_spec xs x e h
    rw [← hfil] at hmem hmax
    have he := List.mem_filter.1 hmem
    refine ⟨he.1, (isOpenEntryFor_iff plate e).1 he.2, ?_⟩
    intro l hl hopen
    exact hmax l (List.mem_filter.2 ⟨hl, (isOpenEntryFor_iff plate l).2 hopen⟩)

/-- The run of `exit` when an open session is selected. -/
theorem exit_of_found (st : State) (req : Request) (now : Clock) (u : Nat) (lp : String)
    (e : AccessLog) (hu : req.user = some u) (hlp : req.licensePlate = some lp)
    (hf : findOpenEntry st.accessLogs (toUpperCase lp) = some e) :
    (exit st req now).1 = .ok e.accessTime now.time (roundMinutes (now.time - e.accessTime))
    ∧ (exit st req now).2.accessLogs
        = AccessLog.save st.accessLogs { e with exitTime := some now.time }
    ∧ (exit st req now).2.employees = st.employees
    ∧ (exit st req now).2.visitors =
        (if e.userType = "visitor" then
          match e.userId.bind (Visitor.findById st.visitors) with
          | none => st.visitors
          | some visitor =>
            Visitor.save st.visitors now.time
              { visitor with status := "completed", exitTime := some now.time }
        else st.visitors) := by
  unfold exit
  simp only [hu, hlp, hf]
  simp

/-- The run of `exit` when no open session is found. -/
theorem exit_of_none (st : State) (req : Request) (now : Clock) (u : Nat) (lp : String)
    (hu : req.user = some u) (hlp : req.licensePlate = some lp)
    (hf : findOpenEntry st.accessLogs (toUpperCase lp) = none) :
    exit st req now = (.notFound "No active entry found for this vehicle", st) := by
  unfold exit
  simp only [hu, hlp, hf]

/-- A document found by `findById` is stored and has the id. -/
theorem findById_some (visitors : List Visitor) (id : Nat) (v : Visitor)
    (h : Visitor.findById visitors id = some v) : v ∈ visitors ∧ v.id = id := by
  unfold Visitor.findById at h
  refine ⟨List.mem_of_find?_eq_some h, ?_⟩
  have := List.find?_some h
  simpa using this

/-- When the schema accepts the document of an entry: the plate is not
empty, the employee has an active vehicle of the plate (a visitor has no
vehicle), and the detection method is one of the four of the schema. -/
theorem entryDoc_accepts_iff (req : Request) (u : Nat) (userType : String) (id : Nat)
    (model plate : String) (vehicle : Option Vehicle) (entryType : String) (ft : Bool)
    (hut : userType = "employee" ∨ userType = "visitor")
    (hm : model = "Employee" ∨ model = "Visitor") :
    AccessLog.schemaAccepts (entryDoc req u userType (id, model) plate vehicle entryType ft)
        = true
      ↔ plate ≠ "" ∧ vehicle ≠ none
        ∧ entryType ∈ ["manual", "camera_scan", "qr_scan", "rfid"] := by
  cases vehicle with
  | none =>
    simp [AccessLog.schemaAccepts, entryDoc, typeOrUnknown]
  | some v =>
    have hv := vehicleType_toString v.type
    rcases hut with hut | hut <;> rcases hm with hm | hm <;> rcases hv with hv | hv <;>
      subst hut <;> subst hm <;>
      simp [AccessLog.schemaAccepts, entryDoc, typeOrUnknown, hv]

/-- The run of `entry` for an authenticated request whose plate resolves to
an employee: 500 with nothing stored when the schema rejects the event;
otherwise the event is appended and the answer is a success when the licence
validator lets the employee be saved, 500 with the employee unsaved when it
does not. -/
theorem entry_employee (st : State) (req : Request) (now : Clock) (u : Nat) (lp : String)
    (e : Employee) (hu : req.user = some u) (hlp : req.licensePlate = some lp)
    (he : Employee.findByPlate st.employees (toUpperCase lp) = some e) :
    entry st req now
      = if AccessLog.schemaAccepts
            (entryDoc req u "employee" (e.id, "Employee") (toUpperCase lp)
              (e.getVehicleByPlate (toUpperCase lp)) (req.entryType.getD "manual_confirmation")
              (isFirstThursday now.today)) = true then
          if e.licenseNotExpired now.time = true then
            (.ok st.accessLogs.length now.time e.fullName "employee",
              { st with
                accessLogs := st.accessLogs ++ [AccessLog.ofInput st.accessLogs.length now.time
                  (entryDoc req u "employee" (e.id, "Employee") (toUpperCase lp)
                    (e.getVehicleByPlate (toUpperCase lp))
                    (req.entryType.getD "manual_confirmation") (isFirstThursday now.today))]
                employees := st.employees.map (fun x =>
                  if x.id = e.id then { e with lastAccess := some now.time } else x) })
          else
            (.serverError "Entry registration failed",
              { st with
                accessLogs := st.accessLogs ++ [AccessLog.ofInput st.accessLogs.length now.time
                  (entryDoc req u "employee" (e.id, "Employee") (toUpperCase lp)
                    (e.getVehicleByPlate (toUpperCase lp))
                    (req.entryType.getD "manual_confirmation") (isFirstThursday now.today))] })
        else (.serverError "Entry registration failed", st) := by
  unfold entry
  simp only [hu, hlp, he]
  cases hacc : AccessLog.schemaAccepts
      (entryDoc req u "employee" (e.id, "Employee") (toUpperCase lp)
        (e.getVehicleByPlate (toUpperCase lp)) (req.entryType.getD "manual_confirmation")
        (isFirstThursday now.today)) with
  | false =>
    rw [create_of_rejects _ _ _ hacc]
    simp
  | true =>
    rw [create_of_accepts _ _ _ hacc]
    have hle : Employee.licenseNotExpired { e with lastAccess := some now.time } now.time
        = e.licenseNotExpired now.time := rfl
    simp only [Employee.save, hle, if_true]
    cases hl : e.licenseNotExpired now.time with
    | false => simp [AccessLog.ofInput]
    | true => simp [AccessLog.ofInput]

/-- The run of `entry` for an authenticated request whose plate resolves to
a visitor only: the schema rejects the event (vehicleType `unknown`), the
answer is 500 and nothing is stored. -/
theorem entry_visitor (st : State) (req : Request) (now : Clock) (u : Nat) (lp : String)
    (v : Visitor) (hu : req.user = some u) (hlp : req.licensePlate = some lp)
    (he : Employee.findByPlate st.employees (toUpperCase lp) = none)
    (hv : Visitor.findByPlate st.visitors (toUpperCase lp) now.time = some v) :
    entry st req now = (.serverError "Entry registration failed", st) := by
  unfold entry
  simp only [hu, hlp, he, hv]
  rw [create_of_rejects _ _ _ (by simp [AccessLog.schemaAccepts, entryDoc, typeOrUnknown])]

/-- The run of `entry` for an authenticated request whose plate does not
resolve: 404, nothing stored. -/
theorem entry_unresolved (st : State) (req : Request) (now : Clock) (u : Nat) (lp : String)
    (hu : req.user = some u) (hlp : req.licensePlate = some lp)
    (he : Employee.findByPlate st.employees (toUpperCase lp) = none)
    (hv : Visitor.findByPlate st.visitors (toUpperCase lp) now.time = none) :
    entry st req now = (.notFound "No valid registration found", st) := by
  unfold entry
  simp only [hu, hlp, he, hv]

/-- A successful `entry`: an employee resolves, the schema accepts the event,
the licence validator passes, and the state is the one with the event
appended and the employee saved. -/
theorem entry_ok (st : State) (req : Request) (now : Clock) (id : Nat) (t : Int)
    (name ty : String) (hok : (entry st req now).1 = .ok id t name ty) :
    ∃ u lp e, req.user = some u ∧ req.licensePlate = some lp
      ∧ Employee.findByPlate st.employees (toUpperCase lp) = some e
      ∧ AccessLog.schemaAccepts
          (entryDoc req u "employee" (e.id, "Employee") (toUpperCase lp)
            (e.getVehicleByPlate (toUpperCase lp)) (req.entryType.getD "manual_confirmation")
            (isFirstThursday now.today)) = true
      ∧ e.licenseNotExpired now.time = true
      ∧ id = st.accessLogs.length ∧ t = now.time ∧ name = e.fullName ∧ ty = "employee"
      ∧ (entry st req now).2
        = { st with
            accessLogs := st.accessLogs ++ [AccessLog.ofInput st.accessLogs.length now.time
              (entryDoc req u "employee" (e.id, "Employee") (toUpperCase lp)
                (e.getVehicleByPlate (toUpperCase lp))
                (req.entryType.getD "manual_confirmation") (isFirstThursday now.today))]
            employees := st.employees.map (fun x =>
              if x.id = e.id then { e with lastAccess := some now.time } else x) } := by
  cases hu : req.user with
  | none => simp [entry, hu] at hok
  | some u =>
    cases hlp : req.licensePlate with
    | none => simp [entry, hu, hlp] at hok
    | some lp =>
      cases he : Employee.findByPlate st.employees (toUpperCase lp) with
      | none =>
        cases hv : Visitor.findByPlate st.visitors (toUpperCase lp) now.time with
        | none =>
          rw [entry_unresolved st req now u lp hu hlp he hv] at hok
          cases hok
        | some v =>
          rw [entry_visitor st req now u lp v hu hlp he hv] at hok
          cases hok
      | some e =>
        have heq := entry_employee st req now u lp e hu hlp he
        rw [heq] at hok ⊢
        split at hok
        · rename_i hacc
          split at hok
          · rename_i hl
            simp only [EntryResponse.ok.injEq] at hok
            obtain ⟨h1, h2, h3, h4⟩ := hok
            refine ⟨u, lp, e, rfl, rfl, he, hacc, hl, h1.symm, h2.symm, h3.symm, h4.symm, ?_⟩
            simp [hacc, hl]
          · cases hok
        · cases hok

/-- With no open session of the plate in `logs`, the only open session of
the plate in `logs ++ [ev]` is `ev`. -/
theorem findOpenEntry_append_single (logs : List AccessLog) (plate : String) (ev : AccessLog)
    (hno : ∀ l ∈ logs, ¬ OpenSession plate l) (hev : OpenSession plate ev) :
    findOpenEntry (logs ++ [ev]) plate = some ev := by
  unfold findOpenEntry
  have h1 : logs.filter (isOpenEntryFor plate) = [] := by
    rw [List.filter_eq_nil_iff]
    intro l hl hc
    exact hno l hl ((isOpenEntryFor_iff plate l).1 hc)
  have h2 : isOpenEntryFor plate ev = true := (isOpenEntryFor_iff plate ev).2 hev
  simp [List.filter_append, h1, h2]

/-- After replacing the documents with the id of `ev` by a closed copy, no
open session of the plate is left when `ev` was the only one. -/
theorem findOpenEntry_after_close (logs : List AccessLog) (plate : String) (ev : AccessLog)
    (t : Int) (hno : ∀ l ∈ logs, ¬ OpenSession plate l) :
    findOpenEntry (AccessLog.save (logs ++ [ev]) { ev with exitTime := some t }) plate
      = none := by
  rw [findOpenEntry_eq_none]
  intro l hl
  unfold AccessLog.save at hl
  obtain ⟨x, hx, rfl⟩ := List.mem_map.1 hl
  by_cases hid : x.id = ev.id
  · simp [hid, isOpenEntryFor]
  · simp only [hid, if_false]
    rcases List.mem_append.1 hx with hx | hx
    · have := hno x hx
      rw [← isOpenEntryFor_iff] at this
      simpa using this
    · simp only [List.mem_singleton] at hx
      subst hx
      exact absurd rfl hid

/-- The query of `findCurrentlyInside` selects the inside events. -/
theorem findCurrentlyInside_eq (logs : List AccessLog) :
    AccessLog.findCurrentlyInside logs = insideEvents logs := by
  unfold AccessLog.findCurrentlyInside insideEvents
  congr 1
  funext l
  rw [Bool.eq_iff_iff]
  simp [and_assoc]

/-- A list of employee and visitor events splits into the two kinds. -/
theorem length_eq_employees_add_visitors (logs : List AccessLog)
    (h : ∀ l ∈ logs, l.userType = "employee" ∨ l.userType = "visitor") :
    logs.length = (logs.filter (fun log => log.userType == "employee")).length
      + (logs.filter (fun log => log.userType == "visitor")).length := by
  induction logs with
  | nil => rfl
  | cons x xs ih =>
    have ihx := ih (fun l hl => h l (List.mem_cons_of_mem _ hl))
    rcases h x (List.mem_cons_self _ _) with hx | hx
    · have h1 : (x.userType == "employee") = true := by simp [hx]
      have h2 : (x.userType == "visitor") = false := by rw [hx]; decide
      simp only [List.filter_cons, h1, h2, if_true, Bool.false_eq_true, if_false,
        List.length_cons]
      omega
    · have h1 : (x.userType == "employee") = false := by rw [hx]; decide
      have h2 : (x.userType == "visitor") = true := by simp [hx]
      simp only [List.filter_cons, h1, h2, if_true, Bool.false_eq_true, if_false,
        List.length_cons]
      omega

/-- A document that the schema accepts is the document of an employee or a
visitor. -/
theorem schemaAccepts_userType (doc : AccessLogInput)
    (h : AccessLog.schemaAccepts doc = true) :
    doc.userType = "employee" ∨ doc.userType = "visitor" := by
  unfold AccessLog.schemaAccepts at h
  simp only [Bool.and_eq_true, Bool.or_eq_true, beq_iff_eq] at h
  exact h.1.1.1.1.1.1.1.1

/-- The ledger after `validate`: untouched, or one created document of an
employee or a visitor. -/
theorem validate_logs (st : State) (req : Request) (now : Clock) :
    (validate st req now).2.accessLogs = st.accessLogs
    ∨ ∃ doc : AccessLogInput, (doc.userType = "employee" ∨ doc.userType = "visitor")
        ∧ (validate st req now).2.accessLogs
          = st.accessLogs ++ [AccessLog.ofInput st.accessLogs.length now.time doc] := by
  rcases validate_cases st req now with
    ⟨hst, _⟩ | ⟨m, p, ut, user, pl, vt, reason, ft, hacc, heq⟩
  · rw [hst]; exact Or.inl rfl
  · rw [heq]
    exact Or.inr ⟨_, schemaAccepts_userType _ hacc, rfl⟩

/-- The ledger after `entry`: untouched, or one created document of an
employee or a visitor. -/
theorem entry_logs (st : State) (req : Request) (now : Clock) :
    (entry st req now).2.accessLogs = st.accessLogs
    ∨ ∃ doc : AccessLogInput, (doc.userType = "employee" ∨ doc.userType = "visitor")
        ∧ (entry st req now).2.accessLogs
          = st.accessLogs ++ [AccessLog.ofInput st.accessLogs.length now.time doc] := by
  cases hu : req.user with
  | none => simp [entry, hu]
  | some u =>
    cases hlp : req.licensePlate with
    | none => simp [entry, hu, hlp]
    | some lp =>
      cases he : Employee.findByPlate st.employees (toUpperCase lp) with
      | some e =>
        rw [entry_employee st req now u lp e hu hlp he]
        split
        · split
          · exact Or.inr ⟨_, Or.inl rfl, rfl⟩
          · exact Or.inr ⟨_, Or.inl rfl, rfl⟩
        · exact Or.inl rfl
      | none =>
        cases hv : Visitor.findByPlate st.visitors (toUpperCase lp) now.time with
        | none =>
          rw [entry_unresolved st req now u lp hu hlp he hv]
          exact Or.inl rfl
        | some v =>
          rw [entry_visitor st req now u lp v hu hlp he hv]
          exact Or.inl rfl

/-- The ledger after `exit`: untouched, or a stored event without exit time
replaced by its copy with `exitTime` = now. -/
theorem exit_logs_mem (st : State) (req : Request) (now : Clock) :
    (exit st req now).2.accessLogs = st.accessLogs
    ∨ ∃ e ∈ st.accessLogs, e.exitTime = none
        ∧ (exit st req now).2.accessLogs
          = AccessLog.save st.accessLogs { e with exitTime := some now.time } := by
  unfold exit
  cases hu : req.user with
  | none => exact Or.inl rfl
  | some u =>
    cases hlp : req.licensePlate with
    | none => exact Or.inl rfl
    | some lp =>
      simp only []
      cases hf : findOpenEntry st.accessLogs (toUpperCase lp) with
      | none => exact Or.inl rfl
      | some e =>
        obtain ⟨hmem, hopen, _⟩ := findOpenEntry_spec st.accessLogs (toUpperCase lp) e hf
        exact Or.inr ⟨e, hmem, hopen.2.2.2, rfl⟩

/-- Creating a document of an employee or a visitor keeps the invariant. -/
theorem ledgerInv_create (logs : List AccessLog) (now : Int) (doc : AccessLogInput)
    (hdoc : doc.userType = "employee" ∨ doc.userType = "visitor") (h : LedgerInv logs) :
    LedgerInv (logs ++ [AccessLog.ofInput logs.length now doc]) := by
  obtain ⟨hid, hut⟩ := h
  refine ⟨?_, ?_⟩
  · simp only [List.map_append, List.map_cons, List.map_nil, List.length_append,
      List.length_singleton, List.range_succ, hid]
    rfl
  · intro l hl
    rcases List.mem_append.1 hl with hl | hl
    · exact hut l hl
    · simp only [List.mem_singleton] at hl
      subst hl
      exact hdoc

/-- Storing a copy of a stored event with another exit time keeps the
invariant. -/
theorem ledgerInv_save (logs : List AccessLog) (e : AccessLog) (t : Option Int)
    (he : e ∈ logs) (h : LedgerInv logs) :
    LedgerInv (AccessLog.save logs { e with exitTime := t }) := by
  obtain ⟨hid, hut⟩ := h
  unfold AccessLog.save
  refine ⟨?_, ?_⟩
  · rw [List.length_map, ← hid, List.map_map]
    apply List.map_congr_left
    intro x _
    by_cases hx : x.id = e.id
    · simp [hx]
    · simp [hx]
  · intro l hl
    obtain ⟨x, hx, rfl⟩ := List.mem_map.1 hl
    by_cases hxe : x.id = e.id
    · simp only [hxe, if_true]
      exact hut e he
    · simp only [hxe, if_false]
      exact hut x hx

/-- Every operation keeps the invariant of the ledger. -/
theorem step_ledgerInv (st : State) (c : Call) (h : LedgerInv st.accessLogs) :
    LedgerInv (step st c).accessLogs := by
  cases c with
  | validate req now =>
    simp only [step]
    rcases validate_logs st req now with heq | ⟨doc, hdoc, heq⟩
    · rw [heq]; exact h
    · rw [heq]; exact ledgerInv_create _ _ _ hdoc h
  | entry req now =>
    simp only [step]
    rcases entry_logs st req now with heq | ⟨doc, hdoc, heq⟩
    · rw [heq]; exact h
    · rw [heq]; exact ledgerInv_create _ _ _ hdoc h
  | exit req now =>
    simp only [step]
    rcases exit_logs_mem st req now with heq | ⟨e, he, _, heq⟩
    · rw [heq]; exact h
    · rw [heq]; exact ledgerInv_save _ _ _ he h

/-- Every ledger reached from a ledger with the invariant has it. -/
theorem run_ledgerInv (calls : List Call) :
    ∀ st : State, LedgerInv st.accessLogs → LedgerInv (run st calls).accessLogs := by
  induction calls with
  | nil => intro st h; simpa [run] using h
  | cons c cs ih =>
    intro st h
    have := ih (step st c) (step_ledgerInv st c h)
    simpa [run] using this

/-- The empty ledger has the invariant. -/
theorem ledgerInv_nil : LedgerInv [] := by
  refine ⟨rfl, ?_⟩
  intro l hl
  cases hl

/-- The weekday of a day of the month, from the weekday of day 1. -/
theorem getDay_from_first (y : Int) (m j : Nat) :
    getDay ⟨y, m, 1 + j⟩ = (getDay ⟨y, m, 1⟩ + j) % 7 := by
  unfold getDay dayNumber
  simp only []
  omega

/-- Started on day 1 of a month, the loop of `isFirstThursday` stops on the
first Thursday among the days 1 to 7 of that month. -/
theorem firstThursdayLoop_spec (y : Int) (m : Nat) :
    ∃ k, k ≤ 6 ∧ firstThursdayLoop 7 ⟨y, m, 1⟩ = some ⟨y, m, 1 + k⟩
      ∧ getDay ⟨y, m, 1 + k⟩ = 4 := by
  have h1 := getDay_shift y m 1
  have h2 := getDay_shift y m 2
  have h3 := getDay_shift y m 3
  have h4 := getDay_shift y m 4
  have h5 := getDay_shift y m 5
  have h6 := getDay_shift y m 6
  simp only [Nat.reduceAdd] at h1 h2 h3 h4 h5 h6
  have hlt : getDay ⟨y, m, 1⟩ < 7 := by
    unfold getDay; omega
  simp only [firstThursdayLoop, bne_iff_ne, ne_eq, ite_not]
  repeat rw [addOneDay_early _ _ _ (by omega)]
  by_cases c1 : getDay ⟨y, m, 1⟩ = 4
  · exact ⟨0, by omega, by simp [c1], c1⟩
  by_cases c2 : getDay ⟨y, m, 2⟩ = 4
  · exact ⟨1, by omega, by simp [c1, c2], c2⟩
  by_cases c3 : getDay ⟨y, m, 3⟩ = 4
  · exact ⟨2, by omega, by simp [c1, c2, c3], c3⟩
  by_cases c4 : getDay ⟨y, m, 4⟩ = 4
  · exact ⟨3, by omega, by simp [c1, c2, c3, c4], c4⟩
  by_cases c5 : getDay ⟨y, m, 5⟩ = 4
  · exact ⟨4, by omega, by simp [c1, c2, c3, c4, c5], c5⟩
  by_cases c6 : getDay ⟨y, m, 6⟩ = 4
  · exact ⟨5, by omega, by simp [c1, c2, c3, c4, c5, c6], c6⟩
  by_cases c7 : getDay ⟨y, m, 7⟩ = 4
  · exact ⟨6, by omega, by simp [c1, c2, c3, c4, c5, c6, c7], c7⟩
  exfalso
  omega

/-- The first-Thursday predicate, characterised: a Thursday among the days
1 to 7 of its month. -/
theorem isFirstThursday_iff (d : CalDate) :
    isFirstThursday d = true ↔ getDay d = 4 ∧ 1 ≤ d.date ∧ d.date ≤ 7 := by
  obtain ⟨k, hk, hloop, hthu⟩ := firstThursdayLoop_spec d.year d.month
  unfold isFirstThursday
  simp only [hloop, toDateString, beq_iff_eq, Prod.mk.injEq, true_and, and_true]
  constructor
  · rintro ⟨hday, hdate⟩
    rw [hday]
    exact ⟨hthu, by omega, by omega⟩
  · rintro ⟨hday, hlo, hhi⟩
    have hd : d = ⟨d.year, d.month, 1 + (d.date - 1)⟩ := by
      cases d with
      | mk y m dt =>
        simp only [CalDate.mk.injEq, true_and]
        simp only [] at hlo
        omega
    have h1 := getDay_from_first d.year d.month (d.date - 1)
    have h2 := getDay_from_first d.year d.month k
    rw [← hd] at h1
    have hdate : d.date = 1 + k := by omega
    refine ⟨?_, hdate⟩
    rw [hday, hthu]

/-- An anchored pattern matches only texts of its own length. -/
theorem matchesClasses_length (ps : List (Char → Bool)) (cs : List Char)
    (h : matchesClasses ps cs = true) : cs.length = ps.length := by
  induction ps generalizing cs with
  | nil =>
    cases cs with
    | nil => rfl
    | cons c cs => simp [matchesClasses] at h
  | cons p ps ih =>
    cases cs with
    | nil => simp [matchesClasses] at h
    | cons c cs =>
      simp only [matchesClasses, Bool.and_eq_true] at h
      simp [ih cs h.2]

/-- The four patterns describe texts of 6 characters. -/
theorem matchesPlatePattern_length (s : String) (h : matchesPlatePattern s = true) :
    s.length = 6 := by
  unfold matchesPlatePattern platePatterns at h
  simp only [List.any_cons, List.any_nil, Bool.or_false, Bool.or_eq_true] at h
  rcases h with h | h | h | h <;>
    simpa using matchesClasses_length _ _ h

/-- The loop over `platePatterns` decides the four shapes. -/
theorem matchesPlatePattern_iff (s : String) :
    matchesPlatePattern s = true ↔ IsPlateShape s := by
  constructor
  · intro h
    have hlen := matchesPlatePattern_length s h
    have hdata : s.data.length = 6 := hlen
    match hs : s.data, hdata with
    | [a, b, c, d, e, f], _ =>
      refine ⟨a, b, c, d, e, f, hs, ?_⟩
      unfold matchesPlatePattern platePatterns at h
      simp only [hs, List.any_cons, List.any_nil, Bool.or_false, Bool.or_eq_true,
        matchesClasses, Bool.and_eq_true, Bool.and_true] at h
      tauto
  · rintro ⟨a, b, c, d, e, f, hs, h⟩
    unfold matchesPlatePattern platePatterns
    simp only [hs, List.any_cons, List.any_nil, Bool.or_false, Bool.or_eq_true,
      matchesClasses, Bool.and_eq_true, Bool.and_true]
    tauto

/-- Rounding the boosted confidence. -/
theorem roundTenths_boost (c : Int) : roundTenths (max (10 * c) 750) = max c 75 := by
  unfold roundTenths
  omega

/-- Rounding the lowered confidence. -/
theorem roundTenths_low (c : Int) : roundTenths (min (10 * c) 400) = min c 40 := by
  unfold roundTenths
  omega

/-- Rounding the moderate confidence: `Math.round(Math.max(c * 0.8, 50))`. -/
theorem roundTenths_moderate (c : Int) :
    roundTenths (max (8 * c) 500) = mathRound (max ((c : ℚ) * (8 / 10)) 50) := by
  rw [roundTenths_eq]
  congr 1
  rcases le_total (8 * c) 500 with h | h
  · have hq : (c : ℚ) * (8 / 10) ≤ 50 := by
      have : ((8 * c : Int) : ℚ) ≤ ((500 : Int) : ℚ) := by exact_mod_cast h
      push_cast at this
      linarith
    rw [max_eq_right h, max_eq_right hq]
    norm_num
  · have hq : (50 : ℚ) ≤ (c : ℚ) * (8 / 10) := by
      have : ((500 : Int) : ℚ) ≤ ((8 * c : Int) : ℚ) := by exact_mod_cast h
      push_cast at this
      linarith
    rw [max_eq_left h, max_eq_left hq]
    push_cast
    ring

/-- The candidate and the flag that `detectPlate` computes, by way of
detection. -/
theorem detectPlate_cases (cleaned : String) :
    (detectionOf cleaned = .exact ∧ detectPlate cleaned = (some cleaned, true)
      ∧ cleaned.length = 6)
    ∨ (detectionOf cleaned = .windowed
      ∧ ∃ plate, (substrings cleaned).find? matchesPlatePattern = some plate
        ∧ detectPlate cleaned = (some plate, false) ∧ plate.length = 6)
    ∨ (detectionOf cleaned = .fallback ∧ detectPlate cleaned = (some cleaned, false)
      ∧ cleaned.length = 6)
    ∨ (detectionOf cleaned = .noCandidate ∧ detectPlate cleaned = (none, false)
      ∧ cleaned.length ≠ 6) := by
  unfold detectionOf detectPlate
  by_cases hex : matchesPlatePattern cleaned = true
  · exact Or.inl ⟨by simp [hex], by simp [hex], matchesPlatePattern_length _ hex⟩
  · simp only [hex, Bool.false_eq_true, if_false]
    by_cases hlen : cleaned.length ≥ 6
    · cases hfind : (substrings cleaned).find? matchesPlatePattern with
      | some plate =>
        have hp := List.find?_some hfind
        have hmem := List.mem_of_find?_eq_some hfind
        have hany : (substrings cleaned).any matchesPlatePattern = true :=
          List.any_eq_true.2 ⟨plate, hmem, hp⟩
        refine Or.inr (Or.inl ⟨by simp [hlen, hany], plate, rfl, ?_,
          matchesPlatePattern_length _ hp⟩)
        simp [hlen]
      | none =>
        have hany : (substrings cleaned).any matchesPlatePattern = false := by
          rw [Bool.eq_false_iff]
          intro hc
          obtain ⟨x, hx, hpx⟩ := List.any_eq_true.1 hc
          rw [List.find?_eq_none] at hfind
          exact hfind x hx hpx
        by_cases h6 : cleaned.length = 6
        · exact Or.inr (Or.inr (Or.inl ⟨by simp [hany, h6], by simp [hlen, h6], h6⟩))
        · exact Or.inr (Or.inr (Or.inr ⟨by simp [hany, h6], by simp [hlen, h6], h6⟩))
    · have h6 : cleaned.length ≠ 6 := by omega
      exact Or.inr (Or.inr (Or.inr ⟨by simp [hlen, h6], by simp [hlen, h6], h6⟩))

/-- `find?` returns the only element that satisfies the predicate. -/
theorem find_unique {α : Type} (p : α → Bool) (l : List α) (v : α) (hv : v ∈ l)
    (hp : p v = true) (huniq : ∀ w ∈ l, p w = true → w = v) : l.find? p = some v := by
  cases hf : l.find? p with
  | none =>
    rw [List.find?_eq_none] at hf
    exact absurd hp (hf v hv)
  | some w =>
    have := huniq w (List.mem_of_find?_eq_some hf) (List.find?_some hf)
    rw [this]

/-- A visitor that `findByPlate` returns is approved or in progress. -/
theorem findByPlate_status (visitors : List Visitor) (plate : String) (now : Int) (v : Visitor)
    (h : Visitor.findByPlate visitors plate now = some v) :
    v.status = "approved" ∨ v.status = "in_progress" := by
  have := List.find?_some h
  unfold Visitor.matchesPlate at this
  simp only [Bool.and_eq_true, Bool.or_eq_true, beq_iff_eq] at this
  exact this.1.2

/-- The save hook either keeps the status or turns it into expired, and it
keeps completed and expired. -/
theorem preSave_status (isNew : Bool) (now : Int) (v : Visitor) :
    (Visitor.preSave isNew now v).status = v.status
    ∨ ((Visitor.preSave isNew now v).status = "expired"
        ∧ v.status ≠ "completed" ∧ v.status ≠ "expired") := by
  unfold Visitor.preSave Visitor.generateQRCode
  simp only []
  split
  · split
    · rename_i h
      simp only [Bool.and_eq_true, bne_iff_ne, ne_eq] at h
      exact Or.inr ⟨rfl, h.1.2, h.2⟩
    · exact Or.inl rfl
  · split
    · rename_i h
      simp only [Bool.and_eq_true, bne_iff_ne, ne_eq] at h
      exact Or.inr ⟨rfl, h.1.2, h.2⟩
    · exact Or.inl rfl

/-- In a ledger whose ids are the positions, the event at position `j` has
id `j`. -/
theorem ledgerInv_id (logs : List AccessLog) (h : LedgerInv logs) (j : Nat) (x : AccessLog)
    (hx : logs[j]? = some x) : x.id = j := by
  have hj : j < logs.length := by
    by_contra hc
    rw [List.getElem?_eq_none (by omega)] at hx
    cases hx
  have h1 := congrArg (fun l : List Nat => l[j]?) h.1
  simp only [List.getElem?_map, hx, Option.map_some', List.getElem?_range hj,
    Option.some.injEq] at h1
  exact h1

/-- In a ledger whose ids are the positions, a stored event is at the
position of its id. -/
theorem ledgerInv_index (logs : List AccessLog) (h : LedgerInv logs) (e : AccessLog)
    (he : e ∈ logs) : logs[e.id]? = some e := by
  obtain ⟨i, hi⟩ := List.getElem?_of_mem he
  have := ledgerInv_id logs h i e hi
  rw [this]
  exact hi

/-- In a ledger whose ids are the positions, saving a copy of a stored event
changes the event at the position of its id and nothing else. -/
theorem save_eq_set (logs : List AccessLog) (h : LedgerInv logs) (e : AccessLog)
    (t : Option Int) :
    AccessLog.save logs { e with exitTime := t } = logs.set e.id { e with exitTime := t } := by
  unfold AccessLog.save
  apply List.ext_getElem?
  intro j
  rw [List.getElem?_map, List.getElem?_set]
  cases hx : logs[j]? with
  | none =>
    have hj : ¬ j < logs.length := by
      intro hc
      rw [List.getElem?_eq_getElem hc] at hx
      cases hx
    by_cases hje : e.id = j
    · subst hje
      simp [hj]
    · simp [hje]
  | some x =>
    have hid := ledgerInv_id logs h j x hx
    have hj : j < logs.length := by
      by_contra hc
      rw [List.getElem?_eq_none (by omega)] at hx
      cases hx
    by_cases hje : e.id = j
    · subst hje
      simp [hid, hj]
    · have : ¬ x.id = e.id := by rw [hid]; exact fun hc => hje hc.symm
      simp [hje, this]

/-- Outcome of `exit`, case by case: no success and an untouched state, or a
success and one stored event without exit time saved with `exitTime` = now. -/
theorem exit_cases (st : State) (req : Request) (now : Clock) :
    ((exit st req now).2 = st ∧ ∀ a b d, (exit st req now).1 ≠ .ok a b d)
    ∨ ∃ e ∈ st.accessLogs, e.exitTime = none
        ∧ (exit st req now).1
          = .ok e.accessTime now.time (roundMinutes (now.time - e.accessTime))
        ∧ (exit st req now).2.accessLogs
          = AccessLog.save st.accessLogs { e with exitTime := some now.time } := by
  unfold exit
  cases hu : req.user with
  | none => exact Or.inl ⟨rfl, by intro a b d hc; cases hc⟩
  | some u =>
    cases hlp : req.licensePlate with
    | none => exact Or.inl ⟨rfl, by intro a b d hc; cases hc⟩
    | some lp =>
      simp only []
      cases hf : findOpenEntry st.accessLogs (toUpperCase lp) with
      | none => exact Or.inl ⟨rfl, by intro a b d hc; cases hc⟩
      | some e =>
        obtain ⟨hmem, hopen, _⟩ := findOpenEntry_spec st.accessLogs (toUpperCase lp) e hf
        exact Or.inr ⟨e, hmem, hopen.2.2.2, rfl, rfl⟩

/-- The visitor that `exit` stores when the closed event is a visitor event
whose visitor exists. -/
theorem exit_visitor_stored (st : State) (req : Request) (now : Clock) (u : Nat) (lp : String)
    (e : AccessLog) (uid : Nat) (v : Visitor)
    (hu : req.user = some u) (hlp : req.licensePlate = some lp)
    (hf : findOpenEntry st.accessLogs (toUpperCase lp) = some e)
    (hty : e.userType = "visitor") (huid : e.userId = some uid)
    (hfind : Visitor.findById st.visitors uid = some v) :
    Visitor.findById (exit st req now).2.visitors v.id
      = some { v with status := "completed", exitTime := some now.time } := by
  obtain ⟨_, _, _, hvis⟩ := exit_of_found st req now u lp e hu hlp hf
  rw [hvis]
  simp only [hty, if_true, huid, Option.some_bind, hfind]
  obtain ⟨hvmem, _⟩ := findById_some st.visitors uid v hfind
  have := findById_save st.visitors now.time
    { v with status := "completed", exitTime := some now.time } ⟨v, hvmem, rfl⟩
  rw [preSave_completed] at this
  exact this

/-- The visitor that the status update stores: the requested status, or
expired when the save hook redirects it. -/
theorem updateStatus_stored (visitors : List Visitor) (u id : Nat) (status : String)
    (notes : Option String) (now : Int) (v : Visitor)
    (hvalid : validStatuses.contains status = true)
    (hfind : Visitor.findById visitors id = some v) :
    ∃ v', Visitor.findById (updateStatus visitors (some u) id (some status) notes now).2 v.id
        = some v'
      ∧ (v'.status = status ∨ v'.status = "expired") := by
  obtain ⟨hvmem, _⟩ := findById_some visitors id v hfind
  unfold updateStatus
  simp only [hvalid, Bool.not_true, Bool.false_eq_true, if_false, hfind]
  generalize hv3 :
    (if status = "approved" then
      { (match notes with
          | none => { v with status := status }
          | some n => if n = "" then { v with status := status }
            else { { v with status := status } with notes := some n }) with
        approvedBy := some u }
    else if status = "rejected" then
      { (match notes with
          | none => { v with status := status }
          | some n => if n = "" then { v with status := status }
            else { { v with status := status } with notes := some n }) with
        authorizedBy := some u }
    else
      (match notes with
        | none => { v with status := status }
        | some n => if n = "" then { v with status := status }
          else { { v with status := status } with notes := some n })) = v3
  have hid : v3.id = v.id ∧ v3.status = status := by
    rw [← hv3]
    cases notes with
    | none => split <;> [skip; split] <;> exact ⟨rfl, rfl⟩
    | some n =>
      by_cases hn : n = ""
      · simp only [hn, if_true]
        split <;> [skip; split] <;> exact ⟨rfl, rfl⟩
      · simp only [hn, if_false]
        split <;> [skip; split] <;> exact ⟨rfl, rfl⟩
  have hsave := findById_save visitors now v3 ⟨v, hvmem, hid.1.symm⟩
  rw [hid.1] at hsave
  refine ⟨_, hsave, ?_⟩
  rcases preSave_status false now v3 with h | ⟨h, _, _⟩
  · exact Or.inl (h.trans hid.2)
  · exact Or.inr h

/-- Letters and digits of a plate are not lower-case letters: upper-casing
keeps them. -/
theorem toUpper_of_isPlateChar (c : Char) (h : isPlateChar c = true) : c.toUpper = c := by
  have hn : ¬ (c.toNat ≥ 97 ∧ c.toNat ≤ 122) := by
    unfold isPlateChar Char.isUpper Char.isDigit at h
    simp only [Bool.or_eq_true, Bool.and_eq_true, decide_eq_true_eq, UInt32.le_def,
      ge_iff_le] at h
    unfold Char.toNat
    rcases h with ⟨h1, h2⟩ | ⟨h1, h2⟩
    · intro hc
      have := hc.1
      have h2' : c.val.toNat ≤ 90 := h2
      omega
    · intro hc
      have := hc.1
      have h2' : c.val.toNat ≤ 57 := h2
      omega
  unfold Char.toUpper
  simp only []
  rw [if_neg hn]

/-- Letters and digits of a plate are not whitespace. -/
theorem not_whitespace_of_isPlateChar (c : Char) (h : isPlateChar c = true) :
    isJsWhitespace c = false := by
  unfold isPlateChar Char.isUpper Char.isDigit at h
  simp only [Bool.or_eq_true, Bool.and_eq_true, decide_eq_true_eq, UInt32.le_def,
    ge_iff_le] at h
  have hr : (48 ≤ c.toNat ∧ c.toNat ≤ 57) ∨ (65 ≤ c.toNat ∧ c.toNat ≤ 90) := by
    unfold Char.toNat
    rcases h with ⟨h1, h2⟩ | ⟨h1, h2⟩
    · exact Or.inr ⟨h1, h2⟩
    · exact Or.inl ⟨h1, h2⟩
  unfold isJsWhitespace
  simp only [Bool.or_eq_false_iff, beq_eq_false_iff_ne, ne_eq, Bool.and_eq_false_iff,
    decide_eq_false_iff_not]
  omega

/-- The canonical text is what the second filter leaves: upper-casing
changes nothing any more. -/
theorem cleanText_data (text : String) :
    (cleanText text).data
      = (text.data.filter (fun c => !isJsWhitespace c)).filter isPlateChar := by
  unfold cleanText toUpperCase
  simp only []
  rw [List.map_congr_left (g := id)]
  · simp
  · intro c hc
    exact toUpper_of_isPlateChar c (List.mem_filter.1 hc).2

/-- Every character of the canonical text is an upper-case letter or a
digit. -/
theorem cleanText_chars (text : String) :
    ∀ c ∈ (cleanText text).data, isPlateChar c = true := by
  intro c hc
  rw [cleanText_data] at hc
  exact (List.mem_filter.1 hc).2

/-- A text of upper-case letters and digits is its own canonical text. -/
theorem cleanText_of_plateChars (s : String) (h : ∀ c ∈ s.data, isPlateChar c = true) :
    cleanText s = s := by
  have hd : (cleanText s).data = s.data := by
    rw [cleanText_data]
    have h1 : s.data.filter (fun c => !isJsWhitespace c) = s.data :=
      List.filter_eq_self.2 (fun c hc => by simp [not_whitespace_of_isPlateChar c (h c hc)])
    rw [h1, List.filter_eq_self.2 h]
  cases hs : cleanText s with
  | mk d =>
    rw [hs] at hd
    cases s with
    | mk d2 => simp only at hd; rw [hd]

/-- Length of a window that fits. -/
theorem substring_length (s : String) (i n : Nat) (h : i + n ≤ s.length) :
    (substring s i (i + n)).length = n := by
  unfold substring
  have hl : s.length = s.data.length := rfl
  simp only [String.length, List.length_take, List.length_drop]
  omega

/-- The window at offset 0 of the length of the text is the text. -/
theorem substring_full (s : String) : substring s 0 (0 + s.length) = s := by
  unfold substring
  cases s with
  | mk d => simp [String.length]

/-- The characters of a window are characters of the text. -/
theorem substring_chars (s : String) (i j : Nat) : ∀ c ∈ (substring s i j).data, c ∈ s.data := by
  intro c hc
  unfold substring at hc
  exact List.mem_of_mem_drop (List.mem_of_mem_take hc)

/-- A search through groups whose tails never match is a search through the
heads. -/
theorem find_flatMap_heads {α : Type} (p : α → Bool) (a : Nat → α) (r : Nat → List α)
    (hr : ∀ i, ∀ x ∈ r i, p x = false) (l : List Nat) :
    (l.flatMap (fun i => a i :: r i)).find? p = (l.map a).find? p := by
  induction l with
  | nil => rfl
  | cons i is ih =>
    simp only [List.flatMap_cons, List.map_cons, List.cons_append, List.find?_cons]
    cases hp : p (a i) with
    | true => rfl
    | false =>
      simp only []
      rw [List.find?_append, ← ih]
      have : (r i).find? p = none := by
        rw [List.find?_eq_none]
        intro x hx
        simp [hr i x hx]
      rw [this]
      rfl

/-- The first match among `g 0, g 1, ...`: the least index that matches. -/
theorem find_range_map {α : Type} (p : α → Bool) (k : Nat) :
    ∀ (g : Nat → α) (w : α),
      ((List.range k).map g).find? p = some w ↔
        ∃ i, i < k ∧ g i = w ∧ p w = true ∧ ∀ j, j < i → p (g j) = false := by
  induction k with
  | zero =>
    intro g w
    simp
  | succ k ih =>
    intro g w
    rw [List.range_succ_eq_map, List.map_cons, List.map_map, List.find?_cons]
    cases hp : p (g 0) with
    | true =>
      simp only []
      constructor
      · intro h
        cases h
        exact ⟨0, by omega, rfl, hp, by intro j hj; omega⟩
      · rintro ⟨i, _, hgi, _, hall⟩
        cases i with
        | zero => rw [hgi]
        | succ i =>
          have := hall 0 (by omega)
          rw [hp] at this
          cases this
    | false =>
      simp only []
      rw [ih (g ∘ Nat.succ) w]
      constructor
      · rintro ⟨i, hi, hgi, hpw, hall⟩
        refine ⟨i + 1, by omega, hgi, hpw, ?_⟩
        intro j hj
        cases j with
        | zero => exact hp
        | succ j => exact hall j (by omega)
      · rintro ⟨i, hi, hgi, hpw, hall⟩
        cases i with
        | zero =>
          rw [← hgi, hp] at hpw
          cases hpw
        | succ i =>
          exact ⟨i, by omega, hgi, hpw, fun j hj => hall (j + 1) (by omega)⟩

/-- The windowed search of the normaliser returns the leftmost window of 6
characters that has a plate shape. -/
theorem windowed_search_spec (cleaned : String) (h6 : cleaned.length ≥ 6) (w : String) :
    (substrings cleaned).find? matchesPlatePattern = some w ↔
      ∃ i, i + 6 ≤ cleaned.length ∧ w = substring cleaned i (i + 6) ∧ IsPlateShape w
        ∧ ∀ j, j < i → ¬ IsPlateShape (substring cleaned j (j + 6)) := by
  unfold substrings
  rw [find_flatMap_heads matchesPlatePattern (fun i => substring cleaned i (i + 6))
    (fun i => if i + 7 ≤ cleaned.length then [substring cleaned i (i + 7)] else [])]
  · rw [find_range_map]
    constructor
    · rintro ⟨i, hi, hgi, hpw, hall⟩
      refine ⟨i, by omega, hgi.symm, (matchesPlatePattern_iff w).1 hpw, ?_⟩
      intro j hj hc
      have := hall j hj
      rw [(matchesPlatePattern_iff _).2 hc] at this
      cases this
    · rintro ⟨i, hi, hgi, hpw, hall⟩
      refine ⟨i, by omega, hgi.symm, (matchesPlatePattern_iff w).2 hpw, ?_⟩
      intro j hj
      rw [Bool.eq_false_iff]
      intro hc
      exact hall j hj ((matchesPlatePattern_iff _).1 hc)
  · intro i x hx
    split at hx
    · rename_i h7
      simp only [List.mem_singleton] at hx
      subst hx
      rw [Bool.eq_false_iff]
      intro hc
      have h1 := matchesPlatePattern_length _ hc
      have h2 := substring_length cleaned i 7 h7
      omega
    · cases hx

/-- The windowed search finds nothing exactly when no window of 6 characters
has a plate shape. -/
theorem windowed_search_none (cleaned : String) (h6 : cleaned.length ≥ 6) :
    (substrings cleaned).find? matchesPlatePattern = none ↔
      ∀ i, i + 6 ≤ cleaned.length → ¬ IsPlateShape (substring cleaned i (i + 6)) := by
  constructor
  · intro hnone i hi hshape
    by_contra _
    -- a matching window exists, so a leftmost one exists and the search finds it
    have hex : ∃ n, n + 6 ≤ cleaned.length ∧ IsPlateShape (substring cleaned n (n + 6)) :=
      ⟨i, hi, hshape⟩
    classical
    let n := Nat.find hex
    have hn := Nat.find_spec hex
    have hmin : ∀ j, j < n → ¬ IsPlateShape (substring cleaned j (j + 6)) := by
      intro j hj hc
      exact Nat.find_min hex hj ⟨by omega, hc⟩
    have := (windowed_search_spec cleaned h6 (substring cleaned n (n + 6))).2
      ⟨n, hn.1, rfl, hn.2, hmin⟩
    rw [hnone] at this
    cases this
  · intro hall
    cases hf : (substrings cleaned).find? matchesPlatePattern with
    | none => rfl
    | some w =>
      obtain ⟨i, hi, hw, hshape, _⟩ := (windowed_search_spec cleaned h6 w).1 hf
      rw [hw] at hshape
      exact absurd hshape (hall i hi)

/-- A windowed detection needs at least 6 characters and no exact match. -/
theorem detectionOf_windowed (cleaned : String) (h : detectionOf cleaned = .windowed) :
    cleaned.length ≥ 6 ∧ matchesPlatePattern cleaned = false := by
  unfold detectionOf at h
  by_cases hm : matchesPlatePattern cleaned = true
  · simp [hm] at h
  · by_cases h6 : cleaned.length ≥ 6
    · exact ⟨h6, by simpa using hm⟩
    · exfalso
      simp only [hm, Bool.false_eq_true, if_false, h6, false_and] at h
      split at h <;> cases h

/-- The candidate of the normaliser is a window of 6 characters of the
canonical text. -/
theorem detectPlate_window (cleaned : String) (p : String)
    (h : (detectPlate cleaned).1 = some p) :
    p.length = 6 ∧ ∃ i, i + 6 ≤ cleaned.length ∧ p = substring cleaned i (i + 6) := by
  rcases detectPlate_cases cleaned with
    ⟨_, hd, hlen⟩ | ⟨hdet, plate, hfind, hd, hlen⟩ | ⟨_, hd, hlen⟩ | ⟨_, hd, _⟩
  · rw [hd] at h
    simp only [Option.some.injEq] at h
    subst h
    refine ⟨hlen, 0, by omega, ?_⟩
    have := substring_full cleaned
    rw [hlen] at this
    exact this.symm
  · rw [hd] at h
    simp only [Option.some.injEq] at h
    subst h
    obtain ⟨h6, _⟩ := detectionOf_windowed cleaned hdet
    obtain ⟨i, hi, hw, _, _⟩ := (windowed_search_spec cleaned h6 plate).1 hfind
    exact ⟨hlen, i, hi, hw⟩
  · rw [hd] at h
    simp only [Option.some.injEq] at h
    subst h
    refine ⟨hlen, 0, by omega, ?_⟩
    have := substring_full cleaned
    rw [hlen] at this
    exact this.symm
  · rw [hd] at h
    cases h

/-- Without exact match and with at least 6 characters, the detection is
windowed with candidate `w` exactly when the windowed search returns `w`. -/
theorem windowed_iff_find (cleaned : String) (hm : matchesPlatePattern cleaned = false)
    (h6 : cleaned.length ≥ 6) (w : String) :
    (detectionOf cleaned = .windowed ∧ (detectPlate cleaned).1 = some w) ↔
      (substrings cleaned).find? matchesPlatePattern = some w := by
  rcases detectPlate_cases cleaned with
    ⟨hdet, _, _⟩ | ⟨hdet, plate, hfind, hd, _⟩ | ⟨hdet, hd, _⟩ | ⟨hdet, hd, _⟩
  · exfalso
    unfold detectionOf at hdet
    simp only [hm, Bool.false_eq_true, if_false] at hdet
    split at hdet <;> cases hdet
  · rw [hdet, hd, hfind]
    simp
  · have hnone : (substrings cleaned).find? matchesPlatePattern = none := by
      cases hf : (substrings cleaned).find? matchesPlatePattern with
      | none => rfl
      | some x =>
        exfalso
        have hany : (substrings cleaned).any matchesPlatePattern = true :=
          List.any_eq_true.2 ⟨x, List.mem_of_find?_eq_some hf, List.find?_some hf⟩
        unfold detectionOf at hdet
        simp [hm, h6, hany] at hdet
    rw [hdet, hnone]
    simp
  · have hnone : (substrings cleaned).find? matchesPlatePattern = none := by
      cases hf : (substrings cleaned).find? matchesPlatePattern with
      | none => rfl
      | some x =>
        exfalso
        have hany : (substrings cleaned).any matchesPlatePattern = true :=
          List.any_eq_true.2 ⟨x, List.mem_of_find?_eq_some hf, List.find?_some hf⟩
        unfold detectionOf at hdet
        simp [hm, h6, hany] at hdet
    rw [hdet, hnone]
    simp

/-- Status that the save hook stores: expired when the document is expired
and its status is neither completed nor expired, the status as it is
otherwise. -/
theorem preSave_status_eq (isNew : Bool) (now : Int) (v : Visitor) :
    (Visitor.preSave isNew now v).status
      = if (v.isExpired now && v.status != "completed" && v.status != "expired") = true
        then "expired" else v.status := by
  have h1 : v.generateQRCode.isExpired now = v.isExpired now := rfl
  have h2 : v.generateQRCode.status = v.status := rfl
  unfold Visitor.preSave
  simp only []
  split
  · rw [h1, h2]
    split <;> rfl
  · split <;> rfl

/-- The directory lookup does not read the licence or the access level. -/
theorem findByPlate_relicensed (st : State) (lic : Employee → Option License)
    (lvl : Employee → String) (plate : String) :
    Employee.findByPlate (st.relicensed lic lvl).employees plate
      = (Employee.findByPlate st.employees plate).map
          (fun e => { e with license := lic e, accessLevel := lvl e }) := by
  unfold Employee.findByPlate State.relicensed
  simp only []
  rw [List.find?_map]
  rfl

/-- An employee that the directory lookup returns is active. -/
theorem findByPlate_isActive (employees : List Employee) (plate : String) (e : Employee)
    (h : Employee.findByPlate employees plate = some e) : e.isActive = true := by
  have := List.find?_some h
  unfold Employee.matchesPlate at this
  simp only [Bool.and_eq_true] at this
  exact this.2

/-- Outcome of the visitor branch: the visitor found can enter and access is
granted, or the answer is 500 and nothing is stored. -/
theorem validateVisitor_outcome (st : State) (req : Request) (now : Clock)
    (plate : String) (ft : Bool) :
    (∃ v, Visitor.findByPlate st.visitors plate now.time = some v
        ∧ v.canEnter now.time = true
        ∧ validateVisitor st req now plate ft =
          (.grantedVisitor
            { userType := "visitor", driverName := v.name, licensePlate := plate,
              vehicleType := "unknown", purpose := v.purpose,
              destinationArea := v.destinationArea, expiryTime := v.expiryTime,
              qrCode := v.qrCode }, st))
    ∨ ((∀ v, Visitor.findByPlate st.visitors plate now.time = some v →
          v.canEnter now.time = false)
        ∧ validateVisitor st req now plate ft = (.serverError "Validation failed", st)) := by
  unfold validateVisitor
  cases hf : Visitor.findByPlate st.visitors plate now.time with
  | none =>
    have h1 : ∀ v : Visitor, (none : Option Visitor) = some v → v.canEnter now.time = false := by
      intro v hv
      cases hv
    exact Or.inr ⟨h1, deny_of_rejects _ _ _ _ (schemaAccepts_unknown _ _ _ _ _ _)⟩
  | some v =>
    simp only []
    cases hc : v.canEnter now.time with
    | false =>
      have h1 : ∀ w : Visitor, some v = some w → w.canEnter now.time = false := by
        intro w hw
        cases hw
        exact hc
      refine Or.inr ⟨h1, ?_⟩
      simp only [Bool.not_false, if_true]
      exact deny_of_rejects _ _ _ _ (schemaAccepts_unknown _ _ _ _ _ _)
    | true =>
      exact Or.inl ⟨v, rfl, hc, by simp⟩

/-- The loop of `isFirstThursday` passes over days that are no Thursday:
`n` such days from day `j` of a month cost `n` tests of the condition. -/
theorem firstThursdayLoop_skip (y : Int) (m : Nat) :
    ∀ n j f, j + n ≤ 28 → (∀ i, i < n → getDay ⟨y, m, j + i⟩ ≠ 4) →
      firstThursdayLoop (n + f) ⟨y, m, j⟩ = firstThursdayLoop f ⟨y, m, j + n⟩ := by
  intro n
  induction n with
  | zero => intro j f _ _; simp
  | succ n ih =>
    intro j f hj hall
    have h0 : getDay ⟨y, m, j⟩ ≠ 4 := hall 0 (by omega)
    have hstep : n + 1 + f = (n + f) + 1 := by omega
    rw [hstep]
    simp only [firstThursdayLoop, bne_iff_ne, ne_eq, h0, not_false_eq_true, if_true]
    rw [addOneDay_early y m j (by omega), ih (j + 1) f (by omega)]
    · have : j + 1 + n = j + (n + 1) := by omega
      rw [this]
    · intro i hi
      have := hall (i + 1) (by omega)
      have he : j + 1 + i = j + (i + 1) := by omega
      rw [he]
      exact this

/-- With no more tests of the condition than days that are no Thursday, the
loop of `isFirstThursday` does not stop. -/
theorem firstThursdayLoop_none (y : Int) (m : Nat) :
    ∀ fuel n j, fuel ≤ n → j + n ≤ 28 → (∀ i, i < n → getDay ⟨y, m, j + i⟩ ≠ 4) →
      firstThursdayLoop fuel ⟨y, m, j⟩ = none := by
  intro fuel
  induction fuel with
  | zero => intro n j _ _ _; rfl
  | succ fuel ih =>
    intro n j hf hj hall
    have h0 : getDay ⟨y, m, j⟩ ≠ 4 := hall 0 (by omega)
    simp only [firstThursdayLoop, bne_iff_ne, ne_eq, h0, not_false_eq_true, if_true]
    rw [addOneDay_early y m j (by omega)]
    apply ih (n - 1) (j + 1) (by omega) (by omega)
    intro i hi
    have := hall (i + 1) (by omega)
    have he : j + 1 + i = j + (i + 1) := by omega
    rw [he]
    exact this

/-- The loop of the client is the loop of the server. -/
theorem checkFirstThursdayLoop_eq (fuel : Nat) (d : CalDate) :
    checkFirstThursdayLoop fuel d = firstThursdayLoop fuel d := by
  induction fuel generalizing d with
  | zero => rfl
  | succ fuel ih =>
    simp only [checkFirstThursdayLoop, firstThursdayLoop]
    rw [ih]
/-- A run observed as granted answered with the data of a grant. -/
theorem observedDecision_granted (st : State) (r : ValidateResponse × State)
    (h : observedDecision st r = some .granted) :
    (∃ d, r.1 = .grantedEmployee d) ∨ (∃ d, r.1 = .grantedVisitor d) := by
  unfold observedDecision at h
  cases hr : r.1 with
  | grantedEmployee d => exact Or.inl ⟨d, rfl⟩
  | grantedVisitor d => exact Or.inr ⟨d, rfl⟩
  | denied m p =>
    rw [hr] at h
    simp only [] at h
    split at h
    · rename_i ev _
      cases hd : ev.denialReason with
      | none => rw [hd] at h; cases h
      | some c => rw [hd] at h; cases h
    · cases h
  | badRequest m => rw [hr] at h; cases h
  | serverError m => rw [hr] at h; cases h
  | noResponse => rw [hr] at h; cases h

/-- Decision observed on a denial whose document was recorded. -/
theorem observedDecision_recorded (st : State) (now : Clock) (req : Request) (m : String)
    (p : Option Bool) (userType : String) (user : Option (Nat × String))
    (plate vehicleType reason : String) (ft : Bool) :
    observedDecision st
        (.denied m p, { st with accessLogs := st.accessLogs ++
          [AccessLog.ofInput st.accessLogs.length now.time
            (denialDoc req userType user plate vehicleType reason ft)] })
      = some (.denied reason) := by
  simp [observedDecision, AccessLog.ofInput, denialDoc]

/-- Being past expiry, spelled out: there are a visit date and an expected
duration other than 0, their sum is a date in the range of `Date`, and now
is after it. -/
theorem specPastExpiry_iff (v : Visitor) (now : Int) :
    specPastExpiry v now = true ↔
      ∃ d, v.visitDate = some d ∧ v.expectedDuration ≠ 0
        ∧ isValidTime d = true ∧ isValidTime (d + v.expectedDuration * 3600000) = true
        ∧ d + v.expectedDuration * 3600000 < now := by
  unfold specPastExpiry
  cases hd : v.visitDate with
  | none => simp
  | some d =>
    simp only [Bool.and_eq_true, decide_eq_true_eq, Option.some.injEq, exists_eq_left', gt_iff_lt]
    constructor
    · rintro ⟨⟨h1, h2, h3⟩, h4⟩
      exact ⟨h1, h2, h3, h4⟩
    · rintro ⟨h1, h2, h3, h4⟩
      exact ⟨⟨h1, h2, h3⟩, h4⟩
/-! ## Claims -/

/-- C1, on the code. Employee branch of `validate`, for every state, request
routed to the employee branch and clock reading. When the directory resolves
the plate to an employee with an active vehicle of that plate, the decision
observed on the run is the one the specification gives: Granted iff the
remaining checks pass and otherwise Denied with the reason code of the first
failing check (inactive_employee, expired_license, expired_license,
first_thursday_restriction). When the plate is not found, or the employee
found has no active vehicle of the plate, the specification gives
Denied(invalid_plate) and Denied(unauthorized_vehicle), while the run answers
500 `Validation failed` and stores nothing: the denial document of these two
branches has vehicleType `unknown` (and, for invalid_plate, no user), which
the access-log schema rejects. -/
theorem validate_employee_decision (st : State) (req : Request) (now : Clock) (lp : String)
    (h : req.isEmployeeValidation lp) :
    (∀ e v, Employee.findByPlate st.employees (toUpperCase lp) = some e →
        specActiveVehicle e (toUpperCase lp) = some v →
        observedDecision st (validate st req now)
          = some (specEmployeeDecision (some e) (toUpperCase lp) now))
    ∧ (Employee.findByPlate st.employees (toUpperCase lp) = none →
        specEmployeeDecision none (toUpperCase lp) now = .denied "invalid_plate"
        ∧ validate st req now
          = deny st now
              (denialDoc req "employee" none (toUpperCase lp) "unknown" "invalid_plate"
                (isFirstThursday now.today))
              (.denied "License plate not found in employee records"
                (some (isFirstThursday now.today)))
        ∧ validate st req now = (.serverError "Validation failed", st))
    ∧ (∀ e, Employee.findByPlate st.employees (toUpperCase lp) = some e →
        specActiveVehicle e (toUpperCase lp) = none →
        specEmployeeDecision (some e) (toUpperCase lp) now = .denied "unauthorized_vehicle"
        ∧ validate st req now
          = deny st now
              (denialDoc req "employee" (some (e.id, "Employee")) (toUpperCase lp) "unknown"
                "unauthorized_vehicle" (isFirstThursday now.today))
              (.denied "Vehicle not authorized for this employee" none)
        ∧ validate st req now = (.serverError "Validation failed", st)) := by
  rw [validate_employee_eq st req now lp h]
  refine ⟨?_, ?_, ?_⟩
  · intro e v hf hv
    exact validateEmployee_observed st req now lp e v h.2.1 hf hv
  · intro hf
    refine ⟨rfl, ?_, validateEmployee_not_found st req now _ _ hf⟩
    unfold validateEmployee
    simp only [hf]
  · intro e hf hv
    have ha := findByPlate_isActive _ _ e hf
    have hveh : e.getVehicleByPlate (toUpperCase lp) = none := by
      rw [getVehicleByPlate_upper]
      exact hv
    refine ⟨?_, ?_, validateEmployee_no_vehicle st req now _ _ e hf hveh⟩
    · simp [specEmployeeDecision, ha, hv]
    · unfold validateEmployee
      simp [hf, ha, hveh]

/-- Evaluation of C1 at the failing input: the employee validation of the
plate ZZZ999, which the sample directory does not hold, should be
Denied(invalid_plate); the run answers 500 and leaves the state as it is. -/
theorem validate_employee_decision_witness :
    (sampleRequest "ZZZ999").isEmployeeValidation "ZZZ999"
    ∧ Employee.findByPlate sampleState.employees (toUpperCase "ZZZ999") = none
    ∧ specEmployeeDecision none (toUpperCase "ZZZ999") ordinaryClock = .denied "invalid_plate"
    ∧ validate sampleState (sampleRequest "ZZZ999") ordinaryClock
        = (.serverError "Validation failed", sampleState) :=
  have h := (validate_employee_decision sampleState (sampleRequest "ZZZ999") ordinaryClock
    "ZZZ999" ⟨rfl, by decide, rfl⟩).2.1 (by decide)
  ⟨⟨rfl, by decide, rfl⟩, by decide, h.1, h.2.2⟩

/-- C2. First-Thursday restriction. For every employee validation: a granted
response carries hasSpecialPermit = (accessLevel ≠ basic) of the resolved
employee and isFirstThursday = the restricted-day flag; and on a restricted
day, a basic-tier employee is never granted, is denied with
first_thursday_restriction when checks 1 to 5 pass, and every granted
response has isFirstThursday = true and hasSpecialPermit = true. -/
theorem validate_first_thursday_restriction (st : State) (req : Request) (now : Clock)
    (lp : String) (h : req.isEmployeeValidation lp) :
    (∀ d, (validate st req now).1 = .grantedEmployee d →
        ∃ e, Employee.findByPlate st.employees (toUpperCase lp) = some e
          ∧ d.hasSpecialPermit = (e.accessLevel != "basic")
          ∧ d.isFirstThursday = isFirstThursday now.today)
    ∧ (isFirstThursday now.today = true →
        (∀ e, Employee.findByPlate st.employees (toUpperCase lp) = some e →
            e.accessLevel = "basic" →
            observedDecision st (validate st req now) ≠ some .granted
            ∧ (∀ d, (validate st req now).1 ≠ .grantedEmployee d)
            ∧ (specChecksOneToFive e (toUpperCase lp) now.time →
                observedDecision st (validate st req now)
                  = some (.denied "first_thursday_restriction")))
        ∧ (∀ d, (validate st req now).1 = .grantedEmployee d →
            d.isFirstThursday = true ∧ d.hasSpecialPermit = true)) := by
  rw [validate_employee_eq st req now lp h]
  have hcases := validateEmployee_cases st req now (toUpperCase lp) (isFirstThursday now.today)
  have key : ∀ d, (validateEmployee st req now (toUpperCase lp) (isFirstThursday now.today)).1
      = .grantedEmployee d →
      ∃ e, Employee.findByPlate st.employees (toUpperCase lp) = some e
        ∧ d.hasSpecialPermit = (e.accessLevel != "basic")
        ∧ d.isFirstThursday = isFirstThursday now.today
        ∧ (isFirstThursday now.today && e.accessLevel == "basic") = false := by
    intro d hd
    rcases hcases with ⟨e, v, hf, _, hb, heq⟩ | heq | ⟨m, p, user, vt, reason, _, heq⟩
    · rw [heq] at hd
      simp only [ValidateResponse.grantedEmployee.injEq] at hd
      subst hd
      exact ⟨e, hf, rfl, rfl, hb⟩
    · rw [heq] at hd
      simp at hd
    · rw [heq] at hd
      simp at hd
  refine ⟨?_, ?_⟩
  · intro d hd
    obtain ⟨e, hf, h1, h2, _⟩ := key d hd
    exact ⟨e, hf, h1, h2⟩
  · intro hday
    refine ⟨?_, ?_⟩
    · intro e hf hbasic
      have hnot : ∀ d, (validateEmployee st req now (toUpperCase lp)
          (isFirstThursday now.today)).1 ≠ .grantedEmployee d := by
        intro d hd
        obtain ⟨e2, hf2, _, _, hb⟩ := key d hd
        rw [hf] at hf2
        cases hf2
        simp [hday, hbasic] at hb
      refine ⟨?_, hnot, ?_⟩
      · intro hg
        rcases observedDecision_granted st _ hg with ⟨d, hd⟩ | ⟨d, hd⟩
        · exact hnot d hd
        · rcases hcases with ⟨e2, v, _, _, _, heq⟩ | heq | ⟨m, p, user, vt, reason, _, heq⟩
          · rw [heq] at hd; cases hd
          · rw [heq] at hd; cases hd
          · rw [heq] at hd; cases hd
      · rintro ⟨ha, v, hv, l, hl, hvalid, hexp, hcov⟩
        rw [validateEmployee_observed st req now lp e v h.2.1 hf hv]
        have hnexp : ¬ (l.isValid = false ∨ l.expiryDate ≤ now.time) := by
          simp [hvalid, hexp]
        simp [specEmployeeDecision, ha, hv, hl, hnexp, hcov, hday, hbasic]
    · intro d hd
      obtain ⟨e, hf, h1, h2, hb⟩ := key d hd
      rw [hday] at h2 hb
      refine ⟨h2, ?_⟩
      rw [h1]
      simpa using hb

/-- Witness of C2 on the first Thursday 2023-11-02: the basic-tier sample
employee passes checks 1 to 5 and is denied with first_thursday_restriction. -/
theorem validate_first_thursday_restriction_witness :
    (sampleRequest "abc123").isEmployeeValidation "abc123"
    ∧ isFirstThursday firstThursdayClock.today = true
    ∧ specChecksOneToFive sampleEmployee (toUpperCase "abc123") firstThursdayClock.time
    ∧ observedDecision sampleState
        (validate sampleState (sampleRequest "abc123") firstThursdayClock)
      = some (.denied "first_thursday_restriction") :=
  have hchecks : specChecksOneToFive sampleEmployee (toUpperCase "abc123")
      firstThursdayClock.time :=
    ⟨rfl, { type := .car, licensePlate := "ABC123", isActive := true }, by decide,
      { expiryDate := 10000000, categories := ["B1"], isValid := true }, rfl, rfl,
      by decide, by decide⟩
  ⟨⟨rfl, by decide, rfl⟩, by decide, hchecks,
    ((((validate_first_thursday_restriction sampleState (sampleRequest "abc123")
      firstThursdayClock "abc123" ⟨rfl, by decide, rfl⟩).2 (by decide)).1
      sampleEmployee (by decide) (by decide)).2.2) hchecks⟩

/-- C3. Expired or invalid licence. For every active employee resolved for
the plate with an active vehicle matching it: if the licence is missing, or
isValid is false, or expiryDate ≤ now (equality included), validate answers
the licence denial and the decision is Denied(expired_license), whatever the
categories, the vehicle type, the access level and the day. -/
theorem validate_expired_license (st : State) (req : Request) (now : Clock) (lp : String)
    (e : Employee) (h : req.isEmployeeValidation lp)
    (hf : Employee.findByPlate st.employees (toUpperCase lp) = some e)
    (ha : e.isActive = true)
    (hv : ∃ v ∈ e.vehicles, v.licensePlate = toUpperCase lp ∧ v.isActive = true)
    (hl : e.license = none
      ∨ ∃ l, e.license = some l ∧ (l.isValid = false ∨ l.expiryDate ≤ now.time)) :
    observedDecision st (validate st req now) = some (.denied "expired_license")
    ∧ (validate st req now).1 = .denied "Driver license is expired or invalid" none := by
  rw [validate_employee_eq st req now lp h]
  have hinval : e.hasValidLicense now.time = false := by
    rcases hl with hnone | ⟨l, hsome, hbad⟩
    · simp [Employee.hasValidLicense, hnone]
    · have := (hasValidLicense_iff e l now.time hsome).not.2 (not_not.2 hbad)
      simpa using this
  obtain ⟨v0, hmem, hplate, hact⟩ := hv
  cases hveh : e.getVehicleByPlate (toUpperCase lp) with
  | none =>
    exfalso
    rw [getVehicleByPlate_upper] at hveh
    unfold specActiveVehicle at hveh
    rw [List.find?_eq_none] at hveh
    have := hveh v0 hmem
    simp [hplate, hact] at this
  | some v =>
    have hp := toUpperCase_ne_empty lp h.2.1
    have hacc := schemaAccepts_employee req e.id (toUpperCase lp) v.type "expired_license"
      (isFirstThursday now.today) hp (Or.inl rfl)
    have heq : validateEmployee st req now (toUpperCase lp) (isFirstThursday now.today)
        = deny st now
            (denialDoc req "employee" (some (e.id, "Employee")) (toUpperCase lp)
              v.type.toString "expired_license" (isFirstThursday now.today))
            (.denied "Driver license is expired or invalid" none) := by
      unfold validateEmployee
      simp [hf, ha, hveh, hinval]
    rw [heq]
    refine ⟨observedDecision_deny _ _ _ _ _ _ _ _ _ _ _ hacc, ?_⟩
    rw [deny_of_accepts _ _ _ _ hacc]

/-- Witness of C3: the licence of the sample employee expires exactly at the
clock reading. -/
theorem validate_expired_license_witness :
    observedDecision sampleState
        (validate sampleState (sampleRequest "abc123") { ordinaryClock with time := 10000000 })
      = some (.denied "expired_license")
    ∧ (validate sampleState (sampleRequest "abc123")
        { ordinaryClock with time := 10000000 }).1
      = .denied "Driver license is expired or invalid" none :=
  validate_expired_license sampleState (sampleRequest "abc123")
    { ordinaryClock with time := 10000000 } "abc123" sampleEmployee
    ⟨rfl, by decide, rfl⟩ (by decide) rfl
    ⟨{ type := .car, licensePlate := "ABC123", isActive := true }, by decide, by decide, rfl⟩
    (Or.inr ⟨{ expiryDate := 10000000, categories := ["B1"], isValid := true }, rfl,
      Or.inr (by decide)⟩)

/-- C4. Licence categories. For every employee that passes checks 1 to 4
(resolved, active, active vehicle `v` with the plate, licence `l` valid and
unexpired): check 5 (`canDriveVehicleType`) passes for a vehicle type iff the
type is motorcycle and the categories contain A1 or A2, or the type is car and
they contain B1 or B2; for any other type it never passes (it returns false,
or throws a `TypeError` when the type is the name of a property that objects
inherit); the type of the stored vehicle is car or motorcycle, and when
check 5 fails on it the decision is Denied(expired_license). -/
theorem validate_license_categories (st : State) (req : Request) (now : Clock) (lp : String)
    (e : Employee) (v : Vehicle) (l : License) (h : req.isEmployeeValidation lp)
    (hf : Employee.findByPlate st.employees (toUpperCase lp) = some e)
    (ha : e.isActive = true)
    (hv : specActiveVehicle e (toUpperCase lp) = some v)
    (hl : e.license = some l) (hvalid : l.isValid = true) (hexp : now.time < l.expiryDate) :
    (∀ t : String, e.canDriveVehicleType t now.time = some true ↔
        (t = "motorcycle" ∧ ("A1" ∈ l.categories ∨ "A2" ∈ l.categories))
        ∨ (t = "car" ∧ ("B1" ∈ l.categories ∨ "B2" ∈ l.categories)))
    ∧ (∀ t : String, t ≠ "motorcycle" → t ≠ "car" →
        e.canDriveVehicleType t now.time
          = if objectPrototypeKeys.contains t = true then none else some false)
    ∧ (v.type.toString = "motorcycle" ∨ v.type.toString = "car")
    ∧ (e.canDriveVehicleType v.type.toString now.time = some true
        ∨ e.canDriveVehicleType v.type.toString now.time = some false)
    ∧ (e.canDriveVehicleType v.type.toString now.time = some false →
        observedDecision st (validate st req now) = some (.denied "expired_license")) := by
  have hval : e.hasValidLicense now.time = true := by
    rw [hasValidLicense_iff e l now.time hl]
    simp [hvalid, hexp]
  have hstored := canDriveVehicleType_stored e l v.type now.time hl hval
  refine ⟨?_, ?_, ?_, ?_, ?_⟩
  · intro t
    rw [canDriveVehicleType_eq e l t now.time hl hval]
    by_cases hk : t ∈ objectPrototypeKeys
    · have h1 : t ≠ "motorcycle" := by
        intro hc; subst hc; revert hk; decide
      have h2 : t ≠ "car" := by
        intro hc; subst hc; revert hk; decide
      simp [hk, h1, h2]
    · simp [hk, specCovers]
  · intro t h1 h2
    rw [canDriveVehicleType_eq e l t now.time hl hval]
    by_cases hk : t ∈ objectPrototypeKeys
    · simp [hk]
    · simp [hk, specCovers, h1, h2]
  · rcases vehicleType_toString v.type with hc | hc
    · exact Or.inr hc
    · exact Or.inl hc
  · rw [hstored]
    cases specCovers l.categories v.type.toString
    · exact Or.inr rfl
    · exact Or.inl rfl
  · intro hc
    rw [validate_employee_eq st req now lp h,
      validateEmployee_observed st req now lp e v h.2.1 hf hv]
    rw [hstored] at hc
    have hcov : specCovers l.categories v.type.toString = false := by
      simpa using hc
    have hnexp : ¬ (l.isValid = false ∨ l.expiryDate ≤ now.time) := by
      simp [hvalid, hexp]
    simp [specEmployeeDecision, ha, hv, hl, hnexp, hcov]

/-- Witness of C4: the motorcycle of `sampleRider` is not covered by the
categories B1 and C1, so check 5 fails with Denied(expired_license). -/
theorem validate_license_categories_witness :
    (sampleRequest "mot001").isEmployeeValidation "mot001"
    ∧ sampleRider.canDriveVehicleType "motorcycle" ordinaryClock.time = some false
    ∧ sampleRider.canDriveVehicleType "toString" ordinaryClock.time = none
    ∧ observedDecision riderState (validate riderState (sampleRequest "mot001") ordinaryClock)
      = some (.denied "expired_license") :=
  ⟨⟨rfl, by decide, rfl⟩, by decide, by decide,
    (validate_license_categories riderState (sampleRequest "mot001") ordinaryClock "mot001"
      sampleRider { type := .motorcycle, licensePlate := "MOT001", isActive := true }
      { expiryDate := 10000000, categories := ["B1", "C1"], isValid := true }
      ⟨rfl, by decide, rfl⟩ (by decide) rfl (by decide) rfl rfl (by decide)).2.2.2.2
      (by decide)⟩

/-- C5, counterexample. An approved visitor with expected duration 0 who has
not entered is validated one hour after the visit date: the claim gives
Denied(visitor_expired), the run grants access. -/
theorem validate_visitor_zero_duration_granted :
    (visitorRequest "vis001").isVisitorValidation "vis001"
    ∧ visitorDecisionWith claimedPastExpiry
        (Visitor.findByPlate (visitorState 0).visitors (toUpperCase "vis001") (clockAtHour 1).time)
        (clockAtHour 1).time = .denied "visitor_expired"
    ∧ observedDecision (visitorState 0)
        (validate (visitorState 0) (visitorRequest "vis001") (clockAtHour 1))
      = some .granted := by
  refine ⟨⟨rfl, by decide, rfl⟩, by decide, by decide⟩

/-- C5, amended. For every state, request routed to the visitor branch and
clock reading: access is granted iff the lookup finds a record with
status = approved, entryTime unset and now not past expiry, where now is past
expiry iff expectedDuration ≠ 0, visitDate + expectedDuration hours is a
date in the range of `Date` and now is after it; in every other case the run
answers 500 `Validation failed` and stores nothing: it submits the denial
with the reason code invalid_plate when there is no record, visitor_expired
when now is past expiry and visitor_not_approved in the remaining cases, but
the denial document of the visitor branch has vehicleType `unknown`, which
the access-log schema rejects. -/
theorem validate_visitor_decision (st : State) (req : Request) (now : Clock) (lp : String)
    (h : req.isVisitorValidation lp) :
    (observedDecision st (validate st req now) = some .granted ↔
        ∃ v, Visitor.findByPlate st.visitors (toUpperCase lp) now.time = some v
          ∧ v.status = "approved" ∧ v.entryTime = none ∧ specPastExpiry v now.time = false)
    ∧ (observedDecision st (validate st req now) = some .granted →
        (validate st req now).2 = st ∧ ∃ d, (validate st req now).1 = .grantedVisitor d)
    ∧ (observedDecision st (validate st req now) ≠ some .granted →
        validate st req now = (.serverError "Validation failed", st))
    ∧ (observedDecision st (validate st req now) ≠ some .granted →
        ∃ code user m,
          visitorDecisionWith specPastExpiry
              (Visitor.findByPlate st.visitors (toUpperCase lp) now.time) now.time
            = .denied code
          ∧ validate st req now
            = deny st now
                (denialDoc req "visitor" user (toUpperCase lp) "unknown" code
                  (isFirstThursday now.today))
                (.denied m none)) := by
  rw [validate_visitor_eq st req now lp h]
  have hattempt : ∀ v : Visitor, v.canEnter now.time = false →
      Visitor.findByPlate st.visitors (toUpperCase lp) now.time = some v →
      validateVisitor st req now (toUpperCase lp) (isFirstThursday now.today)
        = deny st now
            (denialDoc req "visitor" (some (v.id, "Visitor")) (toUpperCase lp) "unknown"
              (if specPastExpiry v now.time = true then "visitor_expired"
               else "visitor_not_approved") (isFirstThursday now.today))
            (.denied
              (if specPastExpiry v now.time = true then "Visitor pass has expired"
               else "Visitor not approved or already inside") none) := by
    intro v hc hf
    unfold validateVisitor
    simp only [hf, hc, Bool.not_false, if_true, isExpired_eq_specPastExpiry]
  have hcan : ∀ v : Visitor, v.canEnter now.time = true ↔
      v.status = "approved" ∧ v.entryTime = none ∧ specPastExpiry v now.time = false := by
    intro v
    unfold Visitor.canEnter
    rw [isExpired_eq_specPastExpiry]
    simp only [Bool.and_eq_true, beq_iff_eq, Bool.not_eq_true', Option.isNone_iff_eq_none]
    constructor
    · rintro ⟨⟨h1, h2⟩, h3⟩
      exact ⟨h1, h3, h2⟩
    · rintro ⟨h1, h3, h2⟩
      exact ⟨⟨h1, h2⟩, h3⟩
  rcases validateVisitor_outcome st req now (toUpperCase lp) (isFirstThursday now.today) with
    ⟨v, hf, hc, heq⟩ | ⟨hall, heq⟩
  · rw [heq]
    have hg : observedDecision st
        (ValidateResponse.grantedVisitor
          { userType := "visitor", driverName := v.name, licensePlate := toUpperCase lp,
            vehicleType := "unknown", purpose := v.purpose,
            destinationArea := v.destinationArea, expiryTime := v.expiryTime,
            qrCode := v.qrCode }, st) = some .granted := rfl
    refine ⟨⟨fun _ => ⟨v, hf, (hcan v).1 hc⟩, fun _ => hg⟩, fun _ => ⟨rfl, _, rfl⟩,
      fun hn => absurd hg hn, fun hn => absurd hg hn⟩
  · rw [heq]
    have hng : observedDecision st
        (ValidateResponse.serverError "Validation failed", st) ≠ some .granted := by
      intro hc
      cases hc
    refine ⟨⟨fun hc => absurd hc hng, ?_⟩, fun hc => absurd hc hng, fun _ => rfl, fun _ => ?_⟩
    · rintro ⟨v, hf, hv⟩
      have := hall v hf
      rw [(hcan v).2 hv] at this
      cases this
    · rw [← heq]
      unfold visitorDecisionWith
      cases hf : Visitor.findByPlate st.visitors (toUpperCase lp) now.time with
      | none =>
        refine ⟨"invalid_plate", none, "No visitor registration found for this plate", rfl, ?_⟩
        unfold validateVisitor
        simp only [hf]
      | some v =>
        have hne : ¬ (v.status = "approved" ∧ v.entryTime = none
            ∧ specPastExpiry v now.time = false) := by
          intro hv
          have := hall v hf
          rw [(hcan v).2 hv] at this
          cases this
        simp only [if_neg hne]
        refine ⟨if specPastExpiry v now.time = true then "visitor_expired"
            else "visitor_not_approved", some (v.id, "Visitor"),
          if specPastExpiry v now.time = true then "Visitor pass has expired"
            else "Visitor not approved or already inside", ?_, hattempt v (hall v hf) hf⟩
        split <;> rfl

/-- Witness of the amended C5: with an expected duration of 4 hours the
visitor is past expiry five hours after the visit date; the run answers 500
and stores nothing. -/
theorem validate_visitor_decision_witness :
    (visitorRequest "vis001").isVisitorValidation "vis001"
    ∧ observedDecision (visitorState 4)
        (validate (visitorState 4) (visitorRequest "vis001") (clockAtHour 5)) ≠ some .granted
    ∧ validate (visitorState 4) (visitorRequest "vis001") (clockAtHour 5)
        = (.serverError "Validation failed", visitorState 4)
    ∧ specPastExpiry (sampleVisitor 4) (clockAtHour 5).time = true :=
  ⟨⟨rfl, by decide, rfl⟩, by decide,
    (validate_visitor_decision (visitorState 4) (visitorRequest "vis001") (clockAtHour 5)
      "vis001" ⟨rfl, by decide, rfl⟩).2.2.1 (by decide),
    by decide⟩

/-- C6, on the code. Audit record of `validate`. For every call: if the
decision is Denied(code), exactly one event is appended, with
accessType = denied, status = denied and denialReason = code, and every
denial response has such a code; if the decision is Granted, or the answer is
500, the state is unchanged; in every case the credentials are unchanged and
what is appended is at most one event, never an entry event nor an open
session. The particular case of the claim fails: an employee validation of a
plate that the directory does not resolve should be Denied(invalid_plate)
with one recorded event, but the run answers 500 `Validation failed`, has no
decision and records nothing, because the schema rejects the denial document
of that branch (no user, vehicleType `unknown`). -/
theorem validate_records_denial (st : State) (req : Request) (now : Clock) :
    (∀ code, observedDecision st (validate st req now) = some (.denied code) →
        ∃ ev, (validate st req now).2.accessLogs = st.accessLogs ++ [ev]
          ∧ ev.accessType = "denied" ∧ ev.status = "denied"
          ∧ ev.denialReason = some code)
    ∧ (∀ m p, (validate st req now).1 = .denied m p →
        ∃ code, observedDecision st (validate st req now) = some (.denied code))
    ∧ (observedDecision st (validate st req now) = some .granted →
        (validate st req now).2 = st)
    ∧ (∀ m, (validate st req now).1 = .serverError m → (validate st req now).2 = st)
    ∧ (validate st req now).2.employees = st.employees
    ∧ (validate st req now).2.visitors = st.visitors
    ∧ (∃ evs, (validate st req now).2.accessLogs = st.accessLogs ++ evs ∧ evs.length ≤ 1
        ∧ ∀ ev ∈ evs, ev.accessType ≠ "entry" ∧ ev.isInside = false)
    ∧ (∀ lp, req.isEmployeeValidation lp →
        Employee.findByPlate st.employees (toUpperCase lp) = none →
        AccessLog.schemaAccepts
            (denialDoc req "employee" none (toUpperCase lp) "unknown" "invalid_plate"
              (isFirstThursday now.today)) = false
        ∧ validate st req now = (.serverError "Validation failed", st)
        ∧ observedDecision st (validate st req now) = none) := by
  refine ⟨?_, ?_, ?_, ?_, ?_, ?_, ?_, ?_⟩
  · intro code hobs
    rcases validate_cases st req now with
      ⟨_, hnd⟩ | ⟨m, p, ut, user, plate, vt, reason, ft, _, heq⟩
    · exfalso
      unfold observedDecision at hobs
      cases hr : (validate st req now).1 with
      | denied m p => exact hnd m p hr
      | badRequest m => simp [hr] at hobs
      | grantedEmployee d => simp [hr] at hobs
      | grantedVisitor d => simp [hr] at hobs
      | serverError m => simp [hr] at hobs
      | noResponse => simp [hr] at hobs
    · rw [heq] at hobs ⊢
      rw [observedDecision_recorded] at hobs
      simp only [Option.some.injEq, Decision.denied.injEq] at hobs
      subst hobs
      exact ⟨_, rfl, rfl, rfl, rfl⟩
  · intro m p hr
    rcases validate_cases st req now with
      ⟨_, hnd⟩ | ⟨m2, p2, ut, user, plate, vt, reason, ft, _, heq⟩
    · exact absurd hr (hnd m p)
    · exact ⟨reason, by rw [heq, observedDecision_recorded]⟩
  · intro hobs
    rcases validate_cases st req now with
      ⟨hst, _⟩ | ⟨m, p, ut, user, plate, vt, reason, ft, _, heq⟩
    · exact hst
    · rw [heq, observedDecision_recorded] at hobs
      simp at hobs
  · intro m hm
    rcases validate_cases st req now with
      ⟨hst, _⟩ | ⟨m2, p, ut, user, plate, vt, reason, ft, _, heq⟩
    · exact hst
    · rw [heq] at hm
      cases hm
  · rcases validate_cases st req now with
      ⟨hst, _⟩ | ⟨m, p, ut, user, plate, vt, reason, ft, _, heq⟩
    · rw [hst]
    · rw [heq]
  · rcases validate_cases st req now with
      ⟨hst, _⟩ | ⟨m, p, ut, user, plate, vt, reason, ft, _, heq⟩
    · rw [hst]
    · rw [heq]
  · rcases validate_cases st req now with
      ⟨hst, _⟩ | ⟨m, p, ut, user, plate, vt, reason, ft, _, heq⟩
    · exact ⟨[], by rw [hst]; simp, by simp, by simp⟩
    · refine ⟨[_], by rw [heq], by simp, ?_⟩
      intro ev2 hmem
      simp only [List.mem_singleton] at hmem
      subst hmem
      refine ⟨by simp [AccessLog.ofInput, denialDoc], ?_⟩
      simp [AccessLog.isInside, AccessLog.ofInput, denialDoc]
  · intro lp h hnone
    rw [validate_employee_eq st req now lp h,
      validateEmployee_not_found st req now _ _ hnone]
    exact ⟨schemaAccepts_unknown _ _ _ _ _ _, rfl, rfl⟩

/-- Evaluation of C6 at the failing input: validating the unknown plate
ZZZ999 against the sample directory answers 500, yields no decision and
records no event. -/
theorem validate_records_denial_witness :
    (sampleRequest "ZZZ999").isEmployeeValidation "ZZZ999"
    ∧ Employee.findByPlate sampleState.employees (toUpperCase "ZZZ999") = none
    ∧ (AccessLog.schemaAccepts
          (denialDoc (sampleRequest "ZZZ999") "employee" none (toUpperCase "ZZZ999") "unknown"
            "invalid_plate" (isFirstThursday ordinaryClock.today)) = false
      ∧ validate sampleState (sampleRequest "ZZZ999") ordinaryClock
          = (.serverError "Validation failed", sampleState)
      ∧ observedDecision sampleState
          (validate sampleState (sampleRequest "ZZZ999") ordinaryClock) = none) :=
  ⟨⟨rfl, by decide, rfl⟩, by decide,
    (validate_records_denial sampleState (sampleRequest "ZZZ999") ordinaryClock).2.2.2.2.2.2.2
      "ZZZ999" ⟨rfl, by decide, rfl⟩ (by decide)⟩

/-- C7, counterexample. Two consecutive entries of the plate ABC123 from the
empty ledger both succeed and leave two open sessions for that plate. -/
theorem entry_twice_two_open_sessions :
    (openSessions
      (run sampleState
        [.entry (sampleRequest "abc123") ordinaryClock,
         .entry (sampleRequest "abc123") ordinaryClock])
      "ABC123").length = 2 := by
  decide

/-- C7, amended. In every state reached from an empty ledger by a sequential
series of validate, entry and exit calls in which entry is only called for a
plate without open session, each plate has at most one open session. -/
theorem guarded_run_at_most_one_open_session (employees : List Employee)
    (visitors : List Visitor) (calls : List Call) (plate : String)
    (hg : guardedRun { employees := employees, visitors := visitors, accessLogs := [] } calls
      = true) :
    (openSessions
      (run { employees := employees, visitors := visitors, accessLogs := [] } calls)
      plate).length ≤ 1 :=
  guardedRun_openSessions calls _ hg (by intro pl; simp [openSessions]) plate

/-- Witness of the amended C7: entry, exit, entry of ABC123 is a guarded run
and ends with exactly one open session. -/
theorem guarded_run_at_most_one_open_session_witness :
    guardedRun { employees := [sampleEmployee], visitors := [], accessLogs := [] }
        [.entry (sampleRequest "abc123") ordinaryClock,
         .exit (sampleRequest "abc123") ordinaryClock,
         .entry (sampleRequest "abc123") ordinaryClock] = true
    ∧ (openSessions
        (run { employees := [sampleEmployee], visitors := [], accessLogs := [] }
          [.entry (sampleRequest "abc123") ordinaryClock,
           .exit (sampleRequest "abc123") ordinaryClock,
           .entry (sampleRequest "abc123") ordinaryClock])
        "ABC123").length ≤ 1 :=
  ⟨by decide,
    guarded_run_at_most_one_open_session [sampleEmployee] [] _ "ABC123" (by decide)⟩

/-- C8. `entry` and the directory lookup. For every authenticated entry
request with a plate: the response is 404 `No valid registration found` iff
neither the employee lookup nor the visitor lookup resolves the upper-cased
plate, and then the state (ledger and credentials) is unchanged; when an
employee resolves, that employee is used whatever the visitor collection
holds: no visitor is touched, the ledger gains at most one event, which has
userType employee and that employee as user, and a success names that
employee. (Such an entry succeeds iff the employee has an active vehicle of
the plate, the detection method is one of the schema, and the licence
validator lets the employee be saved.) -/
theorem entry_not_found_iff (st : State) (req : Request) (now : Clock) (u : Nat) (lp : String)
    (hu : req.user = some u) (hlp : req.licensePlate = some lp) :
    ((entry st req now).1 = .notFound "No valid registration found" ↔
        Employee.findByPlate st.employees (toUpperCase lp) = none
        ∧ Visitor.findByPlate st.visitors (toUpperCase lp) now.time = none)
    ∧ (∀ m, (entry st req now).1 = .notFound m → (entry st req now).2 = st)
    ∧ (∀ e, Employee.findByPlate st.employees (toUpperCase lp) = some e →
        (entry st req now).2.visitors = st.visitors
        ∧ ((entry st req now).2.accessLogs = st.accessLogs
          ∨ ∃ ev, (entry st req now).2.accessLogs = st.accessLogs ++ [ev]
              ∧ ev.userType = "employee" ∧ ev.userId = some e.id)
        ∧ (∀ id t name ty, (entry st req now).1 = .ok id t name ty →
            name = e.fullName ∧ ty = "employee"
            ∧ ∃ ev, (entry st req now).2.accessLogs = st.accessLogs ++ [ev]
                ∧ ev.id = id ∧ ev.accessTime = t
                ∧ ev.userType = "employee" ∧ ev.userId = some e.id)
        ∧ ((∃ id t name ty, (entry st req now).1 = .ok id t name ty) ↔
            toUpperCase lp ≠ ""
            ∧ e.getVehicleByPlate (toUpperCase lp) ≠ none
            ∧ req.entryType.getD "manual_confirmation"
                ∈ ["manual", "camera_scan", "qr_scan", "rfid"]
            ∧ e.licenseNotExpired now.time = true)) := by
  cases he : Employee.findByPlate st.employees (toUpperCase lp) with
  | none =>
    cases hv : Visitor.findByPlate st.visitors (toUpperCase lp) now.time with
    | none =>
      rw [entry_unresolved st req now u lp hu hlp he hv]
      exact ⟨by simp, fun _ _ => rfl, (by intro e hc; cases hc)⟩
    | some v =>
      rw [entry_visitor st req now u lp v hu hlp he hv]
      refine ⟨by simp, ?_, (by intro e hc; cases hc)⟩
      intro m hc
      cases hc
  | some e =>
    have heq := entry_employee st req now u lp e hu hlp he
    have hiff := entryDoc_accepts_iff req u "employee" e.id "Employee" (toUpperCase lp)
      (e.getVehicleByPlate (toUpperCase lp)) (req.entryType.getD "manual_confirmation")
      (isFirstThursday now.today) (Or.inl rfl) (Or.inl rfl)
    by_cases hacc : AccessLog.schemaAccepts
        (entryDoc req u "employee" (e.id, "Employee") (toUpperCase lp)
          (e.getVehicleByPlate (toUpperCase lp)) (req.entryType.getD "manual_confirmation")
          (isFirstThursday now.today)) = true
    · by_cases hl : e.licenseNotExpired now.time = true
      · rw [if_pos hacc, if_pos hl] at heq
        rw [heq]
        refine ⟨by simp, (by intro m hc; cases hc), ?_⟩
        intro e2 he2
        cases he2
        refine ⟨rfl, Or.inr ⟨_, rfl, rfl, rfl⟩, ?_, ?_⟩
        · intro id t name ty hok
          simp only [EntryResponse.ok.injEq] at hok
          obtain ⟨h1, h2, h3, h4⟩ := hok
          exact ⟨h3.symm, h4.symm, _, rfl, h1, h2, rfl, rfl⟩
        · constructor
          · intro _
            obtain ⟨h1, h2, h3⟩ := hiff.1 hacc
            exact ⟨h1, h2, h3, hl⟩
          · intro _
            exact ⟨_, _, _, _, rfl⟩
      · rw [if_pos hacc, if_neg hl] at heq
        rw [heq]
        refine ⟨by simp, (by intro m hc; cases hc), ?_⟩
        intro e2 he2
        cases he2
        refine ⟨rfl, Or.inr ⟨_, rfl, rfl, rfl⟩, ?_, ?_⟩
        · intro id t name ty hok
          cases hok
        · constructor
          · rintro ⟨id, t, name, ty, hok⟩
            cases hok
          · rintro ⟨_, _, _, h4⟩
            exact absurd h4 hl
    · rw [if_neg hacc] at heq
      rw [heq]
      refine ⟨by simp, (by intro m hc; cases hc), ?_⟩
      intro e2 he2
      cases he2
      refine ⟨rfl, Or.inl rfl, ?_, ?_⟩
      · intro id t name ty hok
        cases hok
      · constructor
        · rintro ⟨id, t, name, ty, hok⟩
          cases hok
        · rintro ⟨h1, h2, h3, _⟩
          exact absurd (hiff.2 ⟨h1, h2, h3⟩) hacc

/-- Witness of C8: the sample employee resolves ABC123 although a visitor
record with the same plate exists; the entry succeeds, the appended event is
an employee event and the visitor is untouched. -/
theorem entry_not_found_iff_witness :
    (entry { sampleState with visitors := [{ sampleVisitor 4 with licensePlate := "ABC123" }] }
        (sampleRequest "abc123") (clockAtHour 1)).2.visitors
      = [{ sampleVisitor 4 with licensePlate := "ABC123" }]
    ∧ (entry { sampleState with visitors := [{ sampleVisitor 4 with licensePlate := "ABC123" }] }
        (sampleRequest "abc123") (clockAtHour 1)).1
      = .ok 0 (clockAtHour 1).time "Ana Perez" "employee"
    ∧ (entry { sampleState with visitors := [{ sampleVisitor 4 with licensePlate := "ABC123" }] }
        (sampleRequest "abc123") (clockAtHour 1)).2.accessLogs.map
          (fun l => (l.userType, l.userId)) = [("employee", some 1)] :=
  ⟨((entry_not_found_iff
      { sampleState with visitors := [{ sampleVisitor 4 with licensePlate := "ABC123" }] }
      (sampleRequest "abc123") (clockAtHour 1) 7 "abc123" rfl rfl).2.2
      sampleEmployee (by decide)).1,
    by decide, by decide⟩

/-- C9. Effect of a successful `entry`. For every successful `entry` of a
plate at clock reading `now`: exactly one event is appended, with accessType
entry, status successful, the upper-cased plate, accessTime = now, no
exitTime and isFirstThursday = isFirstThursday(now); the resolved credential
is an employee, who is afterwards stored with lastAccess = now, and no
visitor is changed. The clause of the claim on visitors (status in_progress
and entryTime = now afterwards) holds of every successful entry as well, but
for want of cases: no entry whose plate resolves to a visitor succeeds,
since the schema rejects its event (vehicleType `unknown`) and the run
answers 500 before the visitor is saved. -/
theorem entry_effect (st : State) (req : Request) (now : Clock) (lp : String) (id : Nat)
    (t : Int) (name ty : String) (hlp : req.licensePlate = some lp)
    (hok : (entry st req now).1 = .ok id t name ty) :
    (∃ ev, (entry st req now).2.accessLogs = st.accessLogs ++ [ev]
        ∧ ev.id = id ∧ ev.accessTime = now.time ∧ t = now.time
        ∧ ev.accessType = "entry" ∧ ev.status = "successful"
        ∧ ev.licensePlate = toUpperCase lp ∧ ev.exitTime = none
        ∧ ev.isFirstThursday = isFirstThursday now.today)
    ∧ (∃ e, Employee.findByPlate st.employees (toUpperCase lp) = some e
        ∧ ty = "employee" ∧ name = e.fullName
        ∧ Employee.findById (entry st req now).2.employees e.id
          = some { e with lastAccess := some now.time }
        ∧ (entry st req now).2.visitors = st.visitors)
    ∧ (∀ v, Employee.findByPlate st.employees (toUpperCase lp) = none →
        Visitor.findByPlate st.visitors (toUpperCase lp) now.time = some v →
        ty = "visitor"
        ∧ Visitor.findById (entry st req now).2.visitors v.id
          = some { v with status := "in_progress", entryTime := some now.time })
    ∧ (∀ (st2 : State) (req2 : Request) (now2 : Clock) (u2 : Nat) (lp2 : String) (v : Visitor),
        req2.user = some u2 → req2.licensePlate = some lp2 →
        Employee.findByPlate st2.employees (toUpperCase lp2) = none →
        Visitor.findByPlate st2.visitors (toUpperCase lp2) now2.time = some v →
        entry st2 req2 now2 = (.serverError "Entry registration failed", st2)) := by
  obtain ⟨u, lp1, e, hu, hlp1, he, hacc, hl, hid, ht, hname, hty, hst⟩ :=
    entry_ok st req now id t name ty hok
  rw [hlp] at hlp1
  cases hlp1
  refine ⟨?_, ?_, ?_, ?_⟩
  · rw [hst]
    refine ⟨_, rfl, hid.symm, rfl, ht, rfl, rfl, ?_, rfl, rfl⟩
    simp [AccessLog.ofInput, entryDoc, toUpperCase_idem]
  · refine ⟨e, he, hty, hname, ?_, ?_⟩
    · rw [hst]
      have hmem : e ∈ st.employees := List.mem_of_find?_eq_some he
      unfold Employee.findById
      exact find_map_replace (fun x : Employee => x.id) { e with lastAccess := some now.time }
        st.employees ⟨e, hmem, rfl⟩
    · rw [hst]
  · intro v hnone
    rw [he] at hnone
    cases hnone
  · intro st2 req2 now2 u2 lp2 v hu2 hlp2 he2 hv2
    exact entry_visitor st2 req2 now2 u2 lp2 v hu2 hlp2 he2 hv2

/-- Witness of C9: the entry of the sample employee's plate at time 5000
succeeds; one open entry event is appended and the employee is stored with
lastAccess = 5000. The entry of the approved sample visitor answers 500 and
stores nothing. -/
theorem entry_effect_witness :
    (sampleRequest "abc123").licensePlate = some "abc123"
    ∧ (entry sampleState (sampleRequest "abc123") ordinaryClock).1
        = .ok 0 5000 "Ana Perez" "employee"
    ∧ (∃ e, Employee.findByPlate sampleState.employees (toUpperCase "abc123") = some e
        ∧ "employee" = "employee" ∧ "Ana Perez" = e.fullName
        ∧ Employee.findById (entry sampleState (sampleRequest "abc123") ordinaryClock).2.employees
            e.id = some { e with lastAccess := some ordinaryClock.time }
        ∧ (entry sampleState (sampleRequest "abc123") ordinaryClock).2.visitors
            = sampleState.visitors)
    ∧ entry (visitorState 4) (visitorRequest "vis001") (clockAtHour 1)
        = (.serverError "Entry registration failed", visitorState 4) :=
  ⟨rfl, by decide,
    (entry_effect sampleState (sampleRequest "abc123") ordinaryClock "abc123" 0 5000
      "Ana Perez" "employee" rfl (by decide)).2.1,
    by decide⟩

/-- C10. `exit` without open session. For every authenticated exit request
with a plate: the response is 404 `No active entry found for this vehicle`
iff the ledger holds no event of the upper-cased plate with accessType entry,
status successful and no exitTime; and on a 404 the state (ledger and
credentials) is unchanged. -/
theorem exit_no_open_session_iff (st : State) (req : Request) (now : Clock) (u : Nat)
    (lp : String) (hu : req.user = some u) (hlp : req.licensePlate = some lp) :
    ((exit st req now).1 = .notFound "No active entry found for this vehicle" ↔
        ∀ l ∈ st.accessLogs, ¬ (l.licensePlate = toUpperCase lp ∧ l.accessType = "entry"
          ∧ l.status = "successful" ∧ l.exitTime = none))
    ∧ (∀ m, (exit st req now).1 = .notFound m → (exit st req now).2 = st) := by
  have hopen : ∀ l : AccessLog, isOpenEntryFor (toUpperCase lp) l = false ↔
      ¬ (l.licensePlate = toUpperCase lp ∧ l.accessType = "entry"
        ∧ l.status = "successful" ∧ l.exitTime = none) := by
    intro l
    rw [← Bool.not_eq_true]
    simp only [isOpenEntryFor, Bool.and_eq_true, beq_iff_eq, Option.isNone_iff_eq_none,
      and_assoc]
  unfold exit
  simp only [hu, hlp]
  cases hf : findOpenEntry st.accessLogs (toUpperCase lp) with
  | none =>
    have := (findOpenEntry_eq_none st.accessLogs (toUpperCase lp)).1 hf
    refine ⟨⟨fun _ l hl => (hopen l).1 (this l hl), fun _ => rfl⟩, fun m _ => rfl⟩
  | some entryLog =>
    refine ⟨⟨(by intro hc; cases hc), ?_⟩, (by intro m hm; cases hm)⟩
    intro hall
    exfalso
    have hnone := (findOpenEntry_eq_none st.accessLogs (toUpperCase lp)).2
      (fun l hl => (hopen l).2 (hall l hl))
    rw [hnone] at hf
    cases hf

/-- Witness of C10: an exit of ABC123 on the empty ledger is answered 404 and
changes nothing. -/
theorem exit_no_open_session_iff_witness :
    (exit sampleState (sampleRequest "abc123") ordinaryClock).1
        = .notFound "No active entry found for this vehicle"
    ∧ (exit sampleState (sampleRequest "abc123") ordinaryClock).2 = sampleState :=
  have h := exit_no_open_session_iff sampleState (sampleRequest "abc123") ordinaryClock 7
    "abc123" rfl rfl
  have h1 := h.1.2 (by intro l hl; cases hl)
  ⟨h1, h.2 _ h1⟩

/-- C11. `exit` with an open session. For every authenticated exit request
of a plate that has at least one open session: the run selects a stored open
session of the plate of greatest accessTime, stores it with exitTime = now,
and answers entryTime = its accessTime, exitTime = now and
duration = round((exitTime − entryTime) / 60000), which is not negative when
now ≥ accessTime; if the selected event is a visitor event whose visitor
record exists, that visitor is afterwards stored with status completed and
exitTime = now. -/
theorem exit_closes_latest_open_session (st : State) (req : Request) (now : Clock) (u : Nat)
    (lp : String) (hu : req.user = some u) (hlp : req.licensePlate = some lp)
    (hopen : ∃ l ∈ st.accessLogs, OpenSession (toUpperCase lp) l) :
    ∃ entryLog ∈ st.accessLogs,
      OpenSession (toUpperCase lp) entryLog
      ∧ (∀ l ∈ st.accessLogs, OpenSession (toUpperCase lp) l →
          l.accessTime ≤ entryLog.accessTime)
      ∧ (exit st req now).2.accessLogs = st.accessLogs.map (fun x =>
          if x.id = entryLog.id then { entryLog with exitTime := some now.time } else x)
      ∧ { entryLog with exitTime := some now.time } ∈ (exit st req now).2.accessLogs
      ∧ (exit st req now).1
          = .ok entryLog.accessTime now.time (roundMinutes (now.time - entryLog.accessTime))
      ∧ roundMinutes (now.time - entryLog.accessTime)
          = mathRound (((now.time - entryLog.accessTime : Int) : ℚ) / 60000)
      ∧ (entryLog.accessTime ≤ now.time →
          0 ≤ roundMinutes (now.time - entryLog.accessTime))
      ∧ (∀ uid v, entryLog.userType = "visitor" → entryLog.userId = some uid →
          Visitor.findById st.visitors uid = some v →
          Visitor.findById (exit st req now).2.visitors v.id
            = some { v with status := "completed", exitTime := some now.time }) := by
  cases hf : findOpenEntry st.accessLogs (toUpperCase lp) with
  | none =>
    exfalso
    obtain ⟨l, hl, hol⟩ := hopen
    have := (findOpenEntry_eq_none st.accessLogs (toUpperCase lp)).1 hf l hl
    rw [(isOpenEntryFor_iff _ l).2 hol] at this
    cases this
  | some e =>
    obtain ⟨hmem, hopen_e, hmax⟩ := findOpenEntry_spec st.accessLogs (toUpperCase lp) e hf
    obtain ⟨hresp, hlogs, _, hvis⟩ := exit_of_found st req now u lp e hu hlp hf
    refine ⟨e, hmem, hopen_e, hmax, ?_, ?_, hresp, roundMinutes_eq _, ?_, ?_⟩
    · rw [hlogs]; rfl
    · rw [hlogs]
      unfold AccessLog.save
      exact List.mem_map.2 ⟨e, hmem, by simp⟩
    · intro hle
      unfold roundMinutes
      omega
    · intro uid v hty huid hfind
      rw [hvis]
      simp only [hty, if_true, huid, Option.some_bind, hfind]
      obtain ⟨hvmem, _⟩ := findById_some st.visitors uid v hfind
      have := findById_save st.visitors now.time
        { v with status := "completed", exitTime := some now.time } ⟨v, hvmem, rfl⟩
      rw [preSave_completed] at this
      exact this

/-- Witness of C11: the open session of ABC123 created at time 5000 is
closed at time 95000. -/
theorem exit_closes_latest_open_session_witness :
    ∃ entryLog ∈ insideState.accessLogs,
      OpenSession (toUpperCase "abc123") entryLog
      ∧ (exit insideState (sampleRequest "abc123") laterClock).1
          = .ok entryLog.accessTime laterClock.time
              (roundMinutes (laterClock.time - entryLog.accessTime)) :=
  let ⟨e, hm, ho, _, _, _, hr, _⟩ :=
    exit_closes_latest_open_session insideState (sampleRequest "abc123") laterClock 7 "abc123"
      rfl rfl
      ⟨AccessLog.ofInput 0 5000
          { userType := "employee", userId := some 1, userModel := some "Employee"
            licensePlate := "ABC123", vehicleType := "car", accessType := "entry"
            status := "successful", denialReason := none, isFirstThursday := false
            detectionMethod := some "manual", processedBy := some 7, ipAddress := none
            userAgent := none },
        by decide, by decide, rfl, rfl, rfl⟩
  ⟨e, hm, ho, hr⟩

/-- C12, on the code. Entry then exit. For every plate and every ledger
without open session of that plate: when the authenticated entry succeeds, it
appends one event with accessTime = now, the following exit succeeds and
reports entryTime = that accessTime, exitTime = its own now and
duration = round((exitTime − entryTime) / 60000), and a second exit right
after is answered 404 `No active entry found for this vehicle`. The entry
does not succeed for every plate that resolves to a credential, as the claim
has it: for a plate that resolves to a visitor the run answers 500
`Entry registration failed`, stores nothing, and the following exit is
answered 404; the same holds for an employee's plate when the request names
no detection method of the schema (the default is `manual_confirmation`). -/
theorem entry_exit_exit (st : State) (req1 req2 req3 : Request) (now1 now2 now3 : Clock)
    (u1 u2 u3 : Nat) (lp : String)
    (hu1 : req1.user = some u1) (hlp1 : req1.licensePlate = some lp)
    (hu2 : req2.user = some u2) (hlp2 : req2.licensePlate = some lp)
    (hu3 : req3.user = some u3) (hlp3 : req3.licensePlate = some lp)
    (hno : ∀ l ∈ st.accessLogs, ¬ OpenSession (toUpperCase lp) l) :
    (∀ id t name ty, (entry st req1 now1).1 = .ok id t name ty →
      ∃ ev, ev.id = id ∧ t = now1.time
        ∧ (entry st req1 now1).2.accessLogs = st.accessLogs ++ [ev]
        ∧ ev.accessTime = now1.time
        ∧ (exit (entry st req1 now1).2 req2 now2).1
            = .ok ev.accessTime now2.time (roundMinutes (now2.time - ev.accessTime))
        ∧ roundMinutes (now2.time - ev.accessTime)
            = mathRound (((now2.time - ev.accessTime : Int) : ℚ) / 60000)
        ∧ (exit (exit (entry st req1 now1).2 req2 now2).2 req3 now3).1
            = .notFound "No active entry found for this vehicle")
    ∧ (∀ v, Employee.findByPlate st.employees (toUpperCase lp) = none →
        Visitor.findByPlate st.visitors (toUpperCase lp) now1.time = some v →
        entry st req1 now1 = (.serverError "Entry registration failed", st)
        ∧ (exit (entry st req1 now1).2 req2 now2).1
            = .notFound "No active entry found for this vehicle")
    ∧ (∀ e, Employee.findByPlate st.employees (toUpperCase lp) = some e →
        req1.entryType.getD "manual_confirmation"
            ∉ ["manual", "camera_scan", "qr_scan", "rfid"] →
        entry st req1 now1 = (.serverError "Entry registration failed", st)
        ∧ (exit (entry st req1 now1).2 req2 now2).1
            = .notFound "No active entry found for this vehicle") := by
  have hnone : findOpenEntry st.accessLogs (toUpperCase lp) = none := by
    rw [findOpenEntry_eq_none]
    intro l hl
    cases hc : isOpenEntryFor (toUpperCase lp) l with
    | false => rfl
    | true => exact absurd ((isOpenEntryFor_iff _ l).1 hc) (hno l hl)
  refine ⟨?_, ?_, ?_⟩
  · intro id t name ty hok
    obtain ⟨u, lp1, e, hu, hlpe, he, hacc, hl, hid, ht, hname, hty, hst⟩ :=
      entry_ok st req1 now1 id t name ty hok
    rw [hlp1] at hlpe
    cases hlpe
    have hlogs : (entry st req1 now1).2.accessLogs
        = st.accessLogs ++ [AccessLog.ofInput st.accessLogs.length now1.time
            (entryDoc req1 u "employee" (e.id, "Employee") (toUpperCase lp)
              (e.getVehicleByPlate (toUpperCase lp))
              (req1.entryType.getD "manual_confirmation") (isFirstThursday now1.today))] := by
      rw [hst]
    have hopen : OpenSession (toUpperCase lp)
        (AccessLog.ofInput st.accessLogs.length now1.time
          (entryDoc req1 u "employee" (e.id, "Employee") (toUpperCase lp)
            (e.getVehicleByPlate (toUpperCase lp))
            (req1.entryType.getD "manual_confirmation") (isFirstThursday now1.today))) := by
      simp [OpenSession, AccessLog.ofInput, entryDoc, toUpperCase_idem]
    have hfind : findOpenEntry (entry st req1 now1).2.accessLogs (toUpperCase lp)
        = some (AccessLog.ofInput st.accessLogs.length now1.time
            (entryDoc req1 u "employee" (e.id, "Employee") (toUpperCase lp)
              (e.getVehicleByPlate (toUpperCase lp))
              (req1.entryType.getD "manual_confirmation") (isFirstThursday now1.today))) := by
      rw [hlogs]
      exact findOpenEntry_append_single st.accessLogs (toUpperCase lp) _ hno hopen
    obtain ⟨hresp2, hlogs2, _, _⟩ :=
      exit_of_found (entry st req1 now1).2 req2 now2 u2 lp _ hu2 hlp2 hfind
    have hfind3 : findOpenEntry (exit (entry st req1 now1).2 req2 now2).2.accessLogs
        (toUpperCase lp) = none := by
      rw [hlogs2, hlogs]
      exact findOpenEntry_after_close st.accessLogs (toUpperCase lp) _ now2.time hno
    refine ⟨_, hid.symm, ht, hlogs, rfl, hresp2, roundMinutes_eq _, ?_⟩
    rw [exit_of_none _ req3 now3 u3 lp hu3 hlp3 hfind3]
  · intro v he hv
    have heq := entry_visitor st req1 now1 u1 lp v hu1 hlp1 he hv
    refine ⟨heq, ?_⟩
    rw [heq, exit_of_none st req2 now2 u2 lp hu2 hlp2 hnone]
  · intro e he hty
    have heq := entry_employee st req1 now1 u1 lp e hu1 hlp1 he
    have hiff := entryDoc_accepts_iff req1 u1 "employee" e.id "Employee" (toUpperCase lp)
      (e.getVehicleByPlate (toUpperCase lp)) (req1.entryType.getD "manual_confirmation")
      (isFirstThursday now1.today) (Or.inl rfl) (Or.inl rfl)
    have hacc : ¬ AccessLog.schemaAccepts
        (entryDoc req1 u1 "employee" (e.id, "Employee") (toUpperCase lp)
          (e.getVehicleByPlate (toUpperCase lp)) (req1.entryType.getD "manual_confirmation")
          (isFirstThursday now1.today)) = true := by
      intro hc
      exact hty (hiff.1 hc).2.2
    rw [if_neg hacc] at heq
    refine ⟨heq, ?_⟩
    rw [heq, exit_of_none st req2 now2 u2 lp hu2 hlp2 hnone]

/-- Evaluation of C12 at the failing input: VIS001 resolves to the approved
sample visitor and the ledger is empty; the entry answers 500 and stores
nothing, and the exit that follows is answered 404. On the sample directory
the entry of ABC123 at time 5000 succeeds, the exit at time 95000 reports 2
minutes and the second exit is answered 404. -/
theorem entry_exit_exit_witness :
    (∀ l ∈ (visitorState 4).accessLogs, ¬ OpenSession (toUpperCase "vis001") l)
    ∧ Employee.findByPlate (visitorState 4).employees (toUpperCase "vis001") = none
    ∧ Visitor.findByPlate (visitorState 4).visitors (toUpperCase "vis001") (clockAtHour 1).time
        = some (sampleVisitor 4)
    ∧ (entry (visitorState 4) (visitorRequest "vis001") (clockAtHour 1)
          = (.serverError "Entry registration failed", visitorState 4)
        ∧ (exit (entry (visitorState 4) (visitorRequest "vis001") (clockAtHour 1)).2
            (visitorRequest "vis001") (clockAtHour 2)).1
          = .notFound "No active entry found for this vehicle")
    ∧ (entry sampleState (sampleRequest "abc123") ordinaryClock).1
        = .ok 0 5000 "Ana Perez" "employee"
    ∧ (exit (entry sampleState (sampleRequest "abc123") ordinaryClock).2
          (sampleRequest "abc123") laterClock).1 = .ok 5000 95000 2
    ∧ (exit (exit (entry sampleState (sampleRequest "abc123") ordinaryClock).2
          (sampleRequest "abc123") laterClock).2 (sampleRequest "abc123") laterClock).1
        = .notFound "No active entry found for this vehicle" :=
  have hno : ∀ l ∈ (visitorState 4).accessLogs, ¬ OpenSession (toUpperCase "vis001") l := by
    intro l hl
    cases hl
  ⟨hno, by decide, by decide,
    (entry_exit_exit (visitorState 4) (visitorRequest "vis001") (visitorRequest "vis001")
      (visitorRequest "vis001") (clockAtHour 1) (clockAtHour 2) (clockAtHour 2) 7 7 7 "vis001"
      rfl rfl rfl rfl rfl rfl hno).2.1 (sampleVisitor 4) (by decide) (by decide),
    by decide, by decide, by decide⟩

/-- C13. Occupancy. For every state, `occupancy` lists exactly the events
with accessType entry, status successful and no exitTime, one element per
event in ledger order, each with the plate, the userType and
entryTime = accessTime of its event; total is their number, employees and
visitors the numbers of those with userType employee and visitor; and
total = employees + visitors whenever every stored userType is employee or
visitor, in particular in every ledger reached from the empty ledger by
validate, entry and exit calls. -/
theorem occupancy_lists_inside_events (st : State) :
    (occupancy st).vehicles.map (fun v => (v.licensePlate, v.userType, v.entryTime))
        = (insideEvents st.accessLogs).map (fun l => (l.licensePlate, l.userType, l.accessTime))
    ∧ (occupancy st).total = (insideEvents st.accessLogs).length
    ∧ (occupancy st).employees
        = ((insideEvents st.accessLogs).filter (fun l => decide (l.userType = "employee"))).length
    ∧ (occupancy st).visitors
        = ((insideEvents st.accessLogs).filter (fun l => decide (l.userType = "visitor"))).length
    ∧ ((∀ l ∈ st.accessLogs, l.userType = "employee" ∨ l.userType = "visitor") →
        (occupancy st).total = (occupancy st).employees + (occupancy st).visitors)
    ∧ (∀ (employees : List Employee) (visitors : List Visitor) (calls : List Call),
        (occupancy (run { employees := employees, visitors := visitors, accessLogs := [] }
          calls)).total
        = (occupancy (run { employees := employees, visitors := visitors, accessLogs := [] }
            calls)).employees
          + (occupancy (run { employees := employees, visitors := visitors, accessLogs := [] }
            calls)).visitors) := by
  have key : ∀ s : State, (∀ l ∈ s.accessLogs, l.userType = "employee" ∨ l.userType = "visitor") →
      (occupancy s).total = (occupancy s).employees + (occupancy s).visitors := by
    intro s hs
    unfold occupancy
    simp only []
    apply length_eq_employees_add_visitors
    intro l hl
    unfold AccessLog.findCurrentlyInside at hl
    exact hs l (List.mem_filter.1 hl).1
  refine ⟨?_, ?_, ?_, ?_, key st, ?_⟩
  · unfold occupancy
    simp only [findCurrentlyInside_eq, List.map_map]
    rfl
  · unfold occupancy
    simp only [findCurrentlyInside_eq]
  · unfold occupancy
    simp only [findCurrentlyInside_eq]
    congr 2
  · unfold occupancy
    simp only [findCurrentlyInside_eq]
    congr 2
  · intro employees visitors calls
    apply key
    exact (run_ledgerInv calls _ ledgerInv_nil).2

/-- Witness of C13: after the entry of ABC123 the occupancy is one employee
and no visitor. -/
theorem occupancy_lists_inside_events_witness :
    (∀ l ∈ insideState.accessLogs, l.userType = "employee" ∨ l.userType = "visitor")
    ∧ (occupancy insideState).total
        = (occupancy insideState).employees + (occupancy insideState).visitors
    ∧ (occupancy insideState).total = 1 :=
  have h : ∀ l ∈ insideState.accessLogs, l.userType = "employee" ∨ l.userType = "visitor" := by
    decide
  ⟨h, (occupancy_lists_inside_events insideState).2.2.2.2.1 h, by decide⟩

/-- C14. First Thursday. For every calendar date d, `isFirstThursday` with
today = d is true iff d is a Thursday with day of month between 1 and 7; the
result depends on the date of the clock reading only; it is true for
2023-11-02 and false for 2023-11-09. -/
theorem isFirstThursday_characterisation :
    (∀ d : CalDate, isFirstThursday d = true ↔ getDay d = 4 ∧ 1 ≤ d.date ∧ d.date ≤ 7)
    ∧ (∀ c1 c2 : Clock, c1.today = c2.today →
        isFirstThursday c1.today = isFirstThursday c2.today)
    ∧ isFirstThursday { year := 2023, month := 10, date := 2 } = true
    ∧ isFirstThursday { year := 2023, month := 10, date := 9 } = false := by
  refine ⟨isFirstThursday_iff, ?_, by decide, by decide⟩
  intro c1 c2 h
  rw [h]

/-- C15. Exact pattern match. For every raw text whose canonical form has one
of the four plate shapes, and every raw confidence c, the normaliser returns
success = true, plate = the canonical text, patternMatch = true and
confidence = max(c, 75). -/
theorem ocrPlate_exact_match (text : String) (c now : Int)
    (h : IsPlateShape (cleanText text)) :
    (ocrPlate text c now).success = true
    ∧ (ocrPlate text c now).plate = some (cleanText text)
    ∧ (ocrPlate text c now).patternMatch = true
    ∧ (ocrPlate text c now).confidence = max c 75 := by
  have hm := (matchesPlatePattern_iff (cleanText text)).2 h
  have hd : detectPlate (cleanText text) = (some (cleanText text), true) := by
    unfold detectPlate
    simp [hm]
  unfold ocrPlate
  simp only [hd, Option.isSome_some, finalConfidence, if_true, true_and]
  exact roundTenths_boost c

/-- Witness of C15: the text `A B C-1 2 3` with confidence 60 gives plate
ABC123, patternMatch true and confidence 75. -/
theorem ocrPlate_exact_match_witness :
    cleanText "A B C-1 2 3" = "ABC123"
    ∧ IsPlateShape (cleanText "A B C-1 2 3")
    ∧ ((ocrPlate "A B C-1 2 3" 60 0).success = true
      ∧ (ocrPlate "A B C-1 2 3" 60 0).plate = some (cleanText "A B C-1 2 3")
      ∧ (ocrPlate "A B C-1 2 3" 60 0).patternMatch = true
      ∧ (ocrPlate "A B C-1 2 3" 60 0).confidence = max 60 75)
    ∧ max (60 : Int) 75 = 75 :=
  ⟨by decide, (matchesPlatePattern_iff _).1 (by decide),
    ocrPlate_exact_match "A B C-1 2 3" 60 0 ((matchesPlatePattern_iff _).1 (by decide)),
    by decide⟩

/-- C16, counterexample. The canonical text XABC123 matches no pattern as a
whole, its window ABC123 does; with raw confidence 90 the claim gives
max(90, 75) = 90, the normaliser reports round(max(72, 50)) = 72 and
patternMatch = false. -/
theorem ocrPlate_windowed_match_not_boosted :
    detectionOf (cleanText "XABC123") = .windowed
    ∧ (ocrPlate "XABC123" 90 0).plate = some "ABC123"
    ∧ (ocrPlate "XABC123" 90 0).patternMatch = false
    ∧ (ocrPlate "XABC123" 90 0).confidence = 72
    ∧ confidenceWith true 90 (detectionOf (cleanText "XABC123")) = 90 := by
  decide

/-- C16, amended. For every raw text and raw confidence c, the reported
confidence is: max(c, 75) if the canonical text matches a pattern as a whole;
otherwise the rounded max(c * 0.8, 50) if a candidate was found by a sliding
window or accepted as fallback; otherwise min(c, 40). -/
theorem ocrPlate_confidence (text : String) (c now : Int) :
    (ocrPlate text c now).confidence = confidenceWith false c (detectionOf (cleanText text))
    ∧ roundTenths (max (8 * c) 500) = mathRound (max ((c : ℚ) * (8 / 10)) 50) := by
  refine ⟨?_, roundTenths_moderate c⟩
  unfold ocrPlate
  simp only []
  rcases detectPlate_cases (cleanText text) with
    ⟨hdet, hd, _⟩ | ⟨hdet, plate, _, hd, hlen⟩ | ⟨hdet, hd, hlen⟩ | ⟨hdet, hd, _⟩
  · rw [hd, hdet]
    simp only [finalConfidence, if_true, confidenceWith]
    exact roundTenths_boost c
  · rw [hd, hdet]
    simp [finalConfidence, confidenceWith, hlen]
  · rw [hd, hdet]
    simp [finalConfidence, confidenceWith, hlen]
  · rw [hd, hdet]
    simp only [finalConfidence, Bool.false_eq_true, if_false, confidenceWith]
    exact roundTenths_low c

/-- C17. The normaliser always returns a result. For every raw text and raw
confidence c: success is true iff a plate is returned; the result carries the
canonical and the trimmed raw text; when no candidate is found (which is the
case whenever the canonical text has fewer than 6 characters) success is
false, plate is absent, patternMatch is false and confidence = min(c, 40),
at most 40. -/
theorem ocrPlate_total (text : String) (c now : Int) :
    ((ocrPlate text c now).success = true ↔ (ocrPlate text c now).plate ≠ none)
    ∧ (ocrPlate text c now).cleanedText = cleanText text
    ∧ (ocrPlate text c now).rawText = jsTrim text
    ∧ ((ocrPlate text c now).plate = none ↔ detectionOf (cleanText text) = .noCandidate)
    ∧ ((ocrPlate text c now).plate = none →
        (ocrPlate text c now).success = false
        ∧ (ocrPlate text c now).patternMatch = false
        ∧ (ocrPlate text c now).confidence = min c 40
        ∧ (ocrPlate text c now).confidence ≤ 40)
    ∧ ((cleanText text).length < 6 → (ocrPlate text c now).plate = none) := by
  have hplate : (ocrPlate text c now).plate = (detectPlate (cleanText text)).1 := rfl
  have hnone : (ocrPlate text c now).plate = none ↔
      detectionOf (cleanText text) = .noCandidate := by
    rw [hplate]
    rcases detectPlate_cases (cleanText text) with
      ⟨hdet, hd, _⟩ | ⟨hdet, plate, _, hd, _⟩ | ⟨hdet, hd, _⟩ | ⟨hdet, hd, _⟩ <;>
      simp [hd, hdet]
  refine ⟨?_, rfl, rfl, hnone, ?_, ?_⟩
  · unfold ocrPlate
    simp only []
    cases (detectPlate (cleanText text)).1 <;> simp
  · intro hp
    have hdet := hnone.1 hp
    rcases detectPlate_cases (cleanText text) with
      ⟨hdet2, _, _⟩ | ⟨hdet2, _, _, _, _⟩ | ⟨hdet2, _, _⟩ | ⟨_, hd, _⟩
    · rw [hdet] at hdet2; cases hdet2
    · rw [hdet] at hdet2; cases hdet2
    · rw [hdet] at hdet2; cases hdet2
    · have hconf : (ocrPlate text c now).confidence = min c 40 := by
        unfold ocrPlate
        simp only [hd, finalConfidence, Bool.false_eq_true, if_false]
        exact roundTenths_low c
      refine ⟨?_, ?_, hconf, ?_⟩
      · unfold ocrPlate; simp [hd]
      · unfold ocrPlate; simp [hd]
      · rw [hconf]; omega
  · intro hlt
    rw [hnone]
    rcases detectPlate_cases (cleanText text) with
      ⟨_, _, hlen⟩ | ⟨_, plate, hfind, _, hlen⟩ | ⟨_, _, hlen⟩ | ⟨hdet, _, _⟩
    · omega
    · exfalso
      have hex : ¬ matchesPlatePattern (cleanText text) = true := by
        intro hm
        have := matchesPlatePattern_length _ hm
        omega
      have hdp : detectPlate (cleanText text) = (none, false) := by
        unfold detectPlate
        have h6 : ¬ (cleanText text).length ≥ 6 := by omega
        have h6' : ¬ (cleanText text).length = 6 := by omega
        simp [hex, h6, h6']
      rename_i hdp2
      rw [hdp] at hdp2
      cases hdp2
    · omega
    · exact hdet

/-- Witness of C17: the text `x7#9q` with confidence 30 has the canonical
text 79 and yields no plate, confidence 30. -/
theorem ocrPlate_total_witness :
    (cleanText "x7#9q").length < 6
    ∧ (ocrPlate "x7#9q" 30 0).plate = none
    ∧ ((ocrPlate "x7#9q" 30 0).success = false
      ∧ (ocrPlate "x7#9q" 30 0).patternMatch = false
      ∧ (ocrPlate "x7#9q" 30 0).confidence = min 30 40
      ∧ (ocrPlate "x7#9q" 30 0).confidence ≤ 40) :=
  have h := (ocrPlate_total "x7#9q" 30 0).2.2.2.2.2 (by decide)
  ⟨by decide, h, (ocrPlate_total "x7#9q" 30 0).2.2.2.2.1 h⟩

/-- C18, counterexample. The approved visitor whose pass runs 4 hours from
time 0 presents the QR code at time 4 h exactly, that is at
now = expiryTime: the validation is accepted. -/
theorem validateQr_accepted_at_expiry :
    sampleQrVisitor.expiryTime = some (clockAtHour 4).time
    ∧ (clockAtHour 4).time ≥ 14400000
    ∧ (validateQr [sampleQrVisitor] (some sampleQr) (clockAtHour 4).time).accepted = true := by
  decide

/-- C18, amended. For every stored visitor, the only one with its QR code,
and every time now: the validation of that code is accepted iff the status is
approved, entryTime is unset and now is not past expiry, where now is past
expiry iff expectedDuration ≠ 0, visitDate + expectedDuration hours is a date
in the range of `Date` and now is after it; so it is rejected whenever the
status is completed (404 for every status other than approved and
in_progress) or now > expiryTime, and accepted only with a status in
approved, in_progress and now ≤ expiryTime when there is an expiry time. -/
theorem validateQr_accepted_iff (visitors : List Visitor) (v : Visitor) (qr : QRData)
    (now : Int) (hv : v ∈ visitors) (hqr : v.qrCode = some qr)
    (huniq : ∀ w ∈ visitors, w.qrCode = some qr → w = v) :
    ((validateQr visitors (some qr) now).accepted = true ↔
        v.status = "approved" ∧ v.entryTime = none ∧ specPastExpiry v now = false)
    ∧ (v.status ≠ "approved" → v.status ≠ "in_progress" →
        validateQr visitors (some qr) now = .notFound "Invalid or expired QR code")
    ∧ (v.status = "completed" → (validateQr visitors (some qr) now).accepted = false)
    ∧ (specPastExpiry v now = true → (validateQr visitors (some qr) now).accepted = false)
    ∧ ((validateQr visitors (some qr) now).accepted = true →
        (v.status = "approved" ∨ v.status = "in_progress")
        ∧ ∀ expiry, v.expiryTime = some expiry → now ≤ expiry)
    ∧ (specPastExpiry v now = true ↔
        ∃ d, v.visitDate = some d ∧ v.expectedDuration ≠ 0
          ∧ isValidTime d = true ∧ isValidTime (d + v.expectedDuration * 3600000) = true
          ∧ d + v.expectedDuration * 3600000 < now) := by
  have hfound : v.status = "approved" ∨ v.status = "in_progress" →
      Visitor.findByQRCode visitors qr = some v := by
    intro hs
    unfold Visitor.findByQRCode
    apply find_unique _ _ _ hv
    · simp only [hqr, beq_self_eq_true, Bool.true_and, Bool.or_eq_true, beq_iff_eq]
      exact hs
    · intro w hw hpw
      simp only [Bool.and_eq_true, beq_iff_eq] at hpw
      exact huniq w hw hpw.1
  have hmissing : v.status ≠ "approved" → v.status ≠ "in_progress" →
      Visitor.findByQRCode visitors qr = none := by
    intro h1 h2
    unfold Visitor.findByQRCode
    rw [List.find?_eq_none]
    intro w hw hpw
    simp only [Bool.and_eq_true, beq_iff_eq, Bool.or_eq_true] at hpw
    have := huniq w hw hpw.1
    subst this
    rcases hpw.2 with h | h
    · exact h1 h
    · exact h2 h
  have hiff : (validateQr visitors (some qr) now).accepted = true ↔
      v.status = "approved" ∧ v.entryTime = none ∧ specPastExpiry v now = false := by
    by_cases hs : v.status = "approved" ∨ v.status = "in_progress"
    · unfold validateQr
      simp only [hfound hs]
      by_cases hcan : v.canEnter now = true
      · simp only [hcan, Bool.not_true, Bool.false_eq_true, if_false, QrResponse.accepted,
          true_iff]
        unfold Visitor.canEnter at hcan
        simp only [Bool.and_eq_true, beq_iff_eq, Bool.not_eq_true',
          Option.isNone_iff_eq_none] at hcan
        rw [isExpired_eq_specPastExpiry] at hcan
        exact ⟨hcan.1.1, hcan.2, hcan.1.2⟩
      · have hcan2 : v.canEnter now = false := by simpa using hcan
        simp only [hcan2, Bool.not_false, if_true, QrResponse.accepted, Bool.false_eq_true,
          false_iff]
        rintro ⟨h1, h2, h3⟩
        apply hcan
        unfold Visitor.canEnter
        rw [isExpired_eq_specPastExpiry]
        simp [h1, h2, h3]
    · have h1 : v.status ≠ "approved" := fun h => hs (Or.inl h)
      have h2 : v.status ≠ "in_progress" := fun h => hs (Or.inr h)
      unfold validateQr
      simp only [hmissing h1 h2, QrResponse.accepted, Bool.false_eq_true, false_iff]
      rintro ⟨h, _, _⟩
      exact h1 h
  refine ⟨hiff, ?_, ?_, ?_, ?_, specPastExpiry_iff v now⟩
  · intro h1 h2
    unfold validateQr
    simp only [hmissing h1 h2]
  · intro hc
    rw [Bool.eq_false_iff]
    intro hacc
    have := (hiff.1 hacc).1
    rw [hc] at this
    exact absurd this (by decide)
  · intro hp
    rw [Bool.eq_false_iff]
    intro hacc
    have := (hiff.1 hacc).2.2
    rw [hp] at this
    cases this
  · intro hacc
    obtain ⟨h1, _, h3⟩ := hiff.1 hacc
    refine ⟨Or.inl h1, ?_⟩
    intro expiry hexp
    rw [← isExpired_eq_specPastExpiry] at h3
    unfold Visitor.isExpired at h3
    rw [hexp] at h3
    simpa using h3

/-- Witness of the amended C18: the sample visitor's code is accepted one
hour into the visit and rejected after five hours; the code of the visitor
whose expiry is outside the range of `Date` is accepted at that time. -/
theorem validateQr_accepted_iff_witness :
    (validateQr [sampleQrVisitor] (some sampleQr) (clockAtHour 1).time).accepted = true
    ∧ (validateQr [sampleQrVisitor] (some sampleQr) (clockAtHour 5).time).accepted = false
    ∧ outOfRangeVisitor.expiryTime = none
    ∧ (validateQr [outOfRangeVisitor] (some sampleQr) (clockAtHour 5).time).accepted = true :=
  have hu : ∀ w ∈ [sampleQrVisitor], w.qrCode = some sampleQr → w = sampleQrVisitor := by
    intro w hw _
    simpa using hw
  ⟨(validateQr_accepted_iff [sampleQrVisitor] sampleQrVisitor sampleQr (clockAtHour 1).time
      (by simp) rfl hu).1.2 (by decide),
    (validateQr_accepted_iff [sampleQrVisitor] sampleQrVisitor sampleQr (clockAtHour 5).time
      (by simp) rfl hu).2.2.2.1 (by decide),
    by decide, by decide⟩

/-- C19. Append-only ledger. In every ledger reached from the empty ledger
by validate, entry and exit calls, each further call behaves as follows:
validate and entry keep all stored events and add at most one; an exit that
does not succeed leaves the state as it is; a successful exit changes exactly
one stored event, whose exitTime was unset, into its copy with
exitTime = now; every exit keeps the number of events and every event that
already has an exitTime. No call removes an event. -/
theorem ledger_append_only (employees : List Employee) (visitors : List Visitor)
    (calls : List Call) (req : Request) (now : Clock) :
    (∃ evs, (validate (run { employees := employees, visitors := visitors, accessLogs := [] }
          calls) req now).2.accessLogs
        = (run { employees := employees, visitors := visitors, accessLogs := [] }
            calls).accessLogs ++ evs ∧ evs.length ≤ 1)
    ∧ (∃ evs, (entry (run { employees := employees, visitors := visitors, accessLogs := [] }
          calls) req now).2.accessLogs
        = (run { employees := employees, visitors := visitors, accessLogs := [] }
            calls).accessLogs ++ evs ∧ evs.length ≤ 1)
    ∧ ((∀ a b d, (exit (run { employees := employees, visitors := visitors, accessLogs := [] }
          calls) req now).1 ≠ .ok a b d) →
        (exit (run { employees := employees, visitors := visitors, accessLogs := [] }
          calls) req now).2
        = run { employees := employees, visitors := visitors, accessLogs := [] } calls)
    ∧ (∀ a b d, (exit (run { employees := employees, visitors := visitors, accessLogs := [] }
          calls) req now).1 = .ok a b d →
        ∃ (i : Nat) (e : AccessLog),
          (run { employees := employees, visitors := visitors, accessLogs := [] }
            calls).accessLogs[i]? = some e
          ∧ e.exitTime = none
          ∧ (exit (run { employees := employees, visitors := visitors, accessLogs := [] }
              calls) req now).2.accessLogs
            = (run { employees := employees, visitors := visitors, accessLogs := [] }
                calls).accessLogs.set i { e with exitTime := some now.time })
    ∧ (exit (run { employees := employees, visitors := visitors, accessLogs := [] }
          calls) req now).2.accessLogs.length
        = (run { employees := employees, visitors := visitors, accessLogs := [] }
            calls).accessLogs.length
    ∧ (∀ (j : Nat) (l : AccessLog),
        (run { employees := employees, visitors := visitors, accessLogs := [] }
          calls).accessLogs[j]? = some l →
        l.exitTime ≠ none →
        (exit (run { employees := employees, visitors := visitors, accessLogs := [] }
          calls) req now).2.accessLogs[j]? = some l) := by
  generalize hst : run { employees := employees, visitors := visitors, accessLogs := [] }
    calls = st
  have hinv : LedgerInv st.accessLogs := by
    rw [← hst]
    exact run_ledgerInv calls _ ledgerInv_nil
  have hexit : ((exit st req now).2 = st ∧ ∀ a b d, (exit st req now).1 ≠ .ok a b d)
      ∨ ∃ (i : Nat) (e : AccessLog), st.accessLogs[i]? = some e ∧ e.exitTime = none
        ∧ (∃ a b d, (exit st req now).1 = .ok a b d)
        ∧ (exit st req now).2.accessLogs
          = st.accessLogs.set i { e with exitTime := some now.time } := by
    rcases exit_cases st req now with h | ⟨e, he, hnone, hresp, heq⟩
    · exact Or.inl h
    · refine Or.inr ⟨e.id, e, ledgerInv_index st.accessLogs hinv e he, hnone,
        ⟨_, _, _, hresp⟩, ?_⟩
      rw [heq]
      exact save_eq_set st.accessLogs hinv e (some now.time)
  refine ⟨?_, ?_, ?_, ?_, ?_, ?_⟩
  · rcases validate_cases st req now with
      ⟨h, _⟩ | ⟨m, p, ut, user, plate, vt, reason, ft, _, heq⟩
    · exact ⟨[], by rw [h]; simp, by simp⟩
    · exact ⟨[_], by rw [heq], by simp⟩
  · rcases entry_cases st req now with h | ⟨lp, ev, _, hlogs, _, _⟩
    · exact ⟨[], by rw [h]; simp, by simp⟩
    · exact ⟨[ev], hlogs, by simp⟩
  · intro hno
    rcases hexit with ⟨h, _⟩ | ⟨_, _, _, _, ⟨a, b, d, hok⟩, _⟩
    · exact h
    · exact absurd hok (hno a b d)
  · intro a b d hok
    rcases hexit with ⟨_, hno⟩ | ⟨i, e, hi, hnone, _, heq⟩
    · exact absurd hok (hno a b d)
    · exact ⟨i, e, hi, hnone, heq⟩
  · rcases hexit with ⟨h, _⟩ | ⟨i, e, _, _, _, heq⟩
    · rw [h]
    · rw [heq]; simp
  · intro j l hj hl
    rcases hexit with ⟨h, _⟩ | ⟨i, e, hi, hnone, _, heq⟩
    · rw [h]; exact hj
    · rw [heq]
      by_cases hij : i = j
      · subst hij
        rw [hi] at hj
        cases hj
        exact absurd hnone hl
      · rw [List.getElem?_set_ne hij]
        exact hj

/-- Witness of C19: from the ledger reached by the entry of ABC123, the exit
of ABC123 succeeds and changes one stored event, the one at some position
whose exitTime was unset. -/
theorem ledger_append_only_witness :
    (exit (run { employees := [sampleEmployee], visitors := [], accessLogs := [] }
          [.entry (sampleRequest "abc123") ordinaryClock])
        (sampleRequest "abc123") laterClock).1 = .ok 5000 95000 2
    ∧ ∃ (i : Nat) (e : AccessLog),
        (run { employees := [sampleEmployee], visitors := [], accessLogs := [] }
          [.entry (sampleRequest "abc123") ordinaryClock]).accessLogs[i]? = some e
        ∧ e.exitTime = none
        ∧ (exit (run { employees := [sampleEmployee], visitors := [], accessLogs := [] }
              [.entry (sampleRequest "abc123") ordinaryClock])
            (sampleRequest "abc123") laterClock).2.accessLogs
          = (run { employees := [sampleEmployee], visitors := [], accessLogs := [] }
              [.entry (sampleRequest "abc123") ordinaryClock]).accessLogs.set i
              { e with exitTime := some laterClock.time } :=
  ⟨by decide,
    (ledger_append_only [sampleEmployee] [] [.entry (sampleRequest "abc123") ordinaryClock]
      (sampleRequest "abc123") laterClock).2.2.2.1 5000 95000 2 (by decide)⟩

/-- C20, counterexample. The status-update operation applied to a completed
visitor with the request `pending` stores the status pending: a move
backwards, out of a terminal status. -/
theorem updateStatus_completed_to_pending :
    completedVisitor.status = "completed"
    ∧ (Visitor.findById
        (updateStatus [completedVisitor] (some 7) 10 (some "pending") none
          (clockAtHour 1).time).2 10).map (fun v => v.status) = some "pending"
    ∧ statusAdvances "completed" "pending" = false := by
  decide

/-- C20, amended. Of the operations that write a visitor's status: ledger
entry changes no visitor at all (for a visitor's plate the schema rejects the
event and the run answers 500 before the visitor is saved). The save hook
changes a status only into expired and never changes completed or expired.
Ledger exit stores completed, and the status-update operation stores the
requested one of the six statuses, or expired through the save hook, whatever
the current status is. -/
theorem visitor_status_writes :
    (∀ (st : State) (req : Request) (now : Clock),
        (entry st req now).2.visitors = st.visitors)
    ∧ (∀ (isNew : Bool) (now : Int) (v : Visitor),
        (Visitor.preSave isNew now v).status = v.status
        ∨ ((Visitor.preSave isNew now v).status = "expired"
            ∧ v.status ≠ "completed" ∧ v.status ≠ "expired"))
    ∧ (∀ (st : State) (req : Request) (now : Clock) (u : Nat) (lp : String) (e : AccessLog)
        (uid : Nat) (v : Visitor),
        req.user = some u → req.licensePlate = some lp →
        findOpenEntry st.accessLogs (toUpperCase lp) = some e →
        e.userType = "visitor" → e.userId = some uid →
        Visitor.findById st.visitors uid = some v →
        Visitor.findById (exit st req now).2.visitors v.id
          = some { v with status := "completed", exitTime := some now.time })
    ∧ (∀ (visitors : List Visitor) (u id : Nat) (status : String) (notes : Option String)
        (now : Int) (v : Visitor),
        validStatuses.contains status = true →
        Visitor.findById visitors id = some v →
        ∃ v', Visitor.findById
            (updateStatus visitors (some u) id (some status) notes now).2 v.id = some v'
          ∧ (v'.status = status ∨ v'.status = "expired")) := by
  refine ⟨?_, preSave_status, ?_, ?_⟩
  · intro st req now
    rcases entry_cases st req now with h | ⟨_, _, _, _, _, h⟩
    · rw [h]
    · exact h
  · intro st req now u lp e uid v hu hlp hf hty huid hfind
    exact exit_visitor_stored st req now u lp e uid v hu hlp hf hty huid hfind
  · intro visitors u id status notes now v hvalid hfind
    exact updateStatus_stored visitors u id status notes now v hvalid hfind

/-- Witness of the amended C20: the status update of the completed sample
visitor with the request `pending` stores pending or expired (here pending),
and the entry of the approved sample visitor leaves the visitor approved. -/
theorem visitor_status_writes_witness :
    validStatuses.contains "pending" = true
    ∧ Visitor.findById [completedVisitor] 10 = some completedVisitor
    ∧ (∃ v', Visitor.findById
          (updateStatus [completedVisitor] (some 7) 10 (some "pending") none
            (clockAtHour 1).time).2 completedVisitor.id = some v'
        ∧ (v'.status = "pending" ∨ v'.status = "expired"))
    ∧ (entry (visitorState 4) (visitorRequest "vis001") (clockAtHour 1)).2.visitors
        = [sampleVisitor 4] :=
  ⟨by decide, by decide,
    visitor_status_writes.2.2.2 [completedVisitor] 7 10 "pending" none (clockAtHour 1).time
      completedVisitor (by decide) (by decide),
    by decide⟩

/-- C21, evaluation at the failing inputs. (1) The validation of the unknown
plate ZZZ999 submits a denial document without user reference and with
vehicleType `unknown`; (2) the entry of the sample employee's plate without
`entryType` submits detectionMethod `manual_confirmation`; (3) the entry of a
visitor submits vehicleType `unknown`. None of the three documents passes the
validators of the access-log schema, none would be a well-formed event, and
each run answers 500 and stores nothing. -/
theorem submitted_events_not_well_formed :
    (validate sampleState (sampleRequest "ZZZ999") ordinaryClock
        = deny sampleState ordinaryClock
            (denialDoc (sampleRequest "ZZZ999") "employee" none "ZZZ999" "unknown"
              "invalid_plate" false)
            (.denied "License plate not found in employee records" (some false))
      ∧ AccessLog.schemaAccepts
          (denialDoc (sampleRequest "ZZZ999") "employee" none "ZZZ999" "unknown"
            "invalid_plate" false) = false
      ∧ (fun l : AccessLog => (l.userId, l.vehicleType, l.wellFormed))
          (AccessLog.ofInput 0 5000
            (denialDoc (sampleRequest "ZZZ999") "employee" none "ZZZ999" "unknown"
              "invalid_plate" false)) = (none, "unknown", false)
      ∧ validate sampleState (sampleRequest "ZZZ999") ordinaryClock
          = (.serverError "Validation failed", sampleState))
    ∧ (AccessLog.schemaAccepts
          (entryDoc { sampleRequest "abc123" with entryType := none } 7 "employee"
            (1, "Employee") "ABC123" (sampleEmployee.getVehicleByPlate "ABC123")
            "manual_confirmation" false) = false
      ∧ (fun l : AccessLog => (l.detectionMethod, l.wellFormed))
          (AccessLog.ofInput 0 5000
            (entryDoc { sampleRequest "abc123" with entryType := none } 7 "employee"
              (1, "Employee") "ABC123" (sampleEmployee.getVehicleByPlate "ABC123")
              "manual_confirmation" false)) = ("manual_confirmation", false)
      ∧ entry sampleState { sampleRequest "abc123" with entryType := none } ordinaryClock
          = (.serverError "Entry registration failed", sampleState))
    ∧ (AccessLog.schemaAccepts
          (entryDoc (visitorRequest "vis001") 7 "visitor" (10, "Visitor") "VIS001" none
            "manual" false) = false
      ∧ (fun l : AccessLog => (l.userType, l.vehicleType, l.wellFormed))
          (AccessLog.ofInput 0 3600000
            (entryDoc (visitorRequest "vis001") 7 "visitor" (10, "Visitor") "VIS001" none
              "manual" false)) = ("visitor", "unknown", false)
      ∧ entry (visitorState 4) (visitorRequest "vis001") (clockAtHour 1)
          = (.serverError "Entry registration failed", visitorState 4)) := by
  decide

/-- C22, evaluation at the failing input. The raw text `abc 123` is
canonicalised to `123`: the lower-case letters are removed before the
upper-casing runs. -/
theorem cleanText_drops_lower_case :
    cleanText "abc 123" = "123" ∧ cleanText "abc 123" ≠ "ABC123"
    ∧ (ocrPlate "abc 123" 90 0).plate = none := by
  decide

/-- C23. Windowed search. For every raw text whose canonical text has at
least 6 characters and no plate shape itself: the normaliser's candidate is
found by the windowed search as `w` exactly when `w` is the leftmost window
of 6 characters of the canonical text that has a plate shape; such a `w` is
the first window with a plate shape in the enumeration by start offset, at
each offset length 6 before length 7; and there is no windowed candidate iff
no window of the enumeration, equivalently no window of 6 characters, has a
plate shape. -/
theorem windowed_candidate_is_leftmost (text : String) (c now : Int)
    (h6 : (cleanText text).length ≥ 6) (hne : ¬ IsPlateShape (cleanText text)) :
    (∀ w, (detectionOf (cleanText text) = .windowed ∧ (ocrPlate text c now).plate = some w) ↔
        ∃ i, i + 6 ≤ (cleanText text).length ∧ w = substring (cleanText text) i (i + 6)
          ∧ IsPlateShape w
          ∧ ∀ j, j < i → ¬ IsPlateShape (substring (cleanText text) j (j + 6)))
    ∧ (∀ w, detectionOf (cleanText text) = .windowed → (ocrPlate text c now).plate = some w →
        ∃ before after, substrings (cleanText text) = before ++ w :: after
          ∧ ∀ x ∈ before, ¬ IsPlateShape x)
    ∧ (detectionOf (cleanText text) ≠ .windowed ↔
        ∀ x ∈ substrings (cleanText text), ¬ IsPlateShape x)
    ∧ (detectionOf (cleanText text) ≠ .windowed ↔
        ∀ i, i + 6 ≤ (cleanText text).length →
          ¬ IsPlateShape (substring (cleanText text) i (i + 6))) := by
  have hm : matchesPlatePattern (cleanText text) = false := by
    rw [Bool.eq_false_iff]
    exact fun h => hne ((matchesPlatePattern_iff _).1 h)
  have hplate : (ocrPlate text c now).plate = (detectPlate (cleanText text)).1 := rfl
  have hwin : detectionOf (cleanText text) ≠ .windowed ↔
      (substrings (cleanText text)).find? matchesPlatePattern = none := by
    constructor
    · intro hnw
      cases hf : (substrings (cleanText text)).find? matchesPlatePattern with
      | none => rfl
      | some w => exact absurd ((windowed_iff_find _ hm h6 w).2 hf).1 hnw
    · intro hnone hw
      rcases detectPlate_cases (cleanText text) with
        ⟨hdet, _, _⟩ | ⟨_, plate, hfind, _, _⟩ | ⟨hdet, _, _⟩ | ⟨hdet, _, _⟩
      · rw [hw] at hdet; cases hdet
      · rw [hnone] at hfind; cases hfind
      · rw [hw] at hdet; cases hdet
      · rw [hw] at hdet; cases hdet
  refine ⟨?_, ?_, ?_, ?_⟩
  · intro w
    rw [hplate, windowed_iff_find _ hm h6 w]
    exact windowed_search_spec _ h6 w
  · intro w hdet hw
    rw [hplate] at hw
    have hfind := (windowed_iff_find _ hm h6 w).1 ⟨hdet, hw⟩
    obtain ⟨_, before, after, hsplit, hall⟩ := List.find?_eq_some.1 hfind
    refine ⟨before, after, hsplit, ?_⟩
    intro x hx hshape
    have := hall x hx
    rw [(matchesPlatePattern_iff x).2 hshape] at this
    cases this
  · rw [hwin, List.find?_eq_none]
    constructor
    · intro h x hx hshape
      exact h x hx ((matchesPlatePattern_iff x).2 hshape)
    · intro h x hx hmatch
      exact h x hx ((matchesPlatePattern_iff x).1 hmatch)
  · rw [hwin]
    exact windowed_search_none _ h6

/-- Witness of C23: in XABC123 the window at offset 0 has no plate shape and
the window ABC123 at offset 1 is the candidate. -/
theorem windowed_candidate_is_leftmost_witness :
    (cleanText "XABC123").length ≥ 6
    ∧ (detectionOf (cleanText "XABC123") = .windowed
        ∧ (ocrPlate "XABC123" 90 0).plate = some "ABC123")
    ∧ ∃ i, i + 6 ≤ (cleanText "XABC123").length
        ∧ "ABC123" = substring (cleanText "XABC123") i (i + 6)
        ∧ IsPlateShape "ABC123"
        ∧ ∀ j, j < i → ¬ IsPlateShape (substring (cleanText "XABC123") j (j + 6)) :=
  ⟨by decide, by decide,
    ((windowed_candidate_is_leftmost "XABC123" 90 0 (by decide)
      (fun h => absurd ((matchesPlatePattern_iff _).2 h) (by decide))).1 "ABC123").1
      (by decide)⟩

/-- C24. Fallback. For every raw text and raw confidence: a canonical text of
exactly 6 characters without plate shape is accepted as it is (success,
plate = canonical text, patternMatch false); a canonical text of another
length in which no window of 6 characters has a plate shape yields no plate;
and success holds iff the canonical text has exactly 6 characters or contains
a window of 6 characters with a plate shape. -/
theorem ocrPlate_fallback (text : String) (c now : Int) :
    ((cleanText text).length = 6 → ¬ IsPlateShape (cleanText text) →
        (ocrPlate text c now).success = true
        ∧ (ocrPlate text c now).plate = some (cleanText text)
        ∧ (ocrPlate text c now).patternMatch = false)
    ∧ ((cleanText text).length ≠ 6 →
        (∀ i, i + 6 ≤ (cleanText text).length →
          ¬ IsPlateShape (substring (cleanText text) i (i + 6))) →
        (ocrPlate text c now).plate = none ∧ (ocrPlate text c now).success = false)
    ∧ ((ocrPlate text c now).success = true ↔
        (cleanText text).length = 6
        ∨ ∃ i, i + 6 ≤ (cleanText text).length
            ∧ IsPlateShape (substring (cleanText text) i (i + 6))) := by
  have hplate : (ocrPlate text c now).plate = (detectPlate (cleanText text)).1 := rfl
  have hsucc : (ocrPlate text c now).success = (detectPlate (cleanText text)).1.isSome := rfl
  have hpm : (ocrPlate text c now).patternMatch = (detectPlate (cleanText text)).2 := rfl
  refine ⟨?_, ?_, ?_⟩
  · intro hlen hne
    have hm : matchesPlatePattern (cleanText text) = false := by
      rw [Bool.eq_false_iff]
      exact fun h => hne ((matchesPlatePattern_iff _).1 h)
    have hnone : (substrings (cleanText text)).find? matchesPlatePattern = none := by
      rw [windowed_search_none _ (by omega)]
      intro i hi
      have hi0 : i = 0 := by omega
      subst hi0
      have := substring_full (cleanText text)
      rw [hlen] at this
      rw [this]
      exact hne
    have hd : detectPlate (cleanText text) = (some (cleanText text), false) := by
      unfold detectPlate
      simp [hm, hnone, hlen]
    rw [hsucc, hplate, hpm, hd]
    exact ⟨rfl, rfl, rfl⟩
  · intro hlen hall
    have hnone : (detectPlate (cleanText text)).1 = none := by
      cases hp : (detectPlate (cleanText text)).1 with
      | none => rfl
      | some p =>
        exfalso
        rcases detectPlate_cases (cleanText text) with
          ⟨_, _, h6⟩ | ⟨hdet, plate, hfind, _, _⟩ | ⟨_, _, h6⟩ | ⟨_, hd, _⟩
        · exact hlen h6
        · obtain ⟨h6, _⟩ := detectionOf_windowed _ hdet
          rw [(windowed_search_none _ h6).2 hall] at hfind
          cases hfind
        · exact hlen h6
        · rw [hd] at hp
          cases hp
    rw [hsucc, hplate, hnone]
    exact ⟨rfl, rfl⟩
  · rw [hsucc]
    constructor
    · intro hs
      cases hp : (detectPlate (cleanText text)).1 with
      | none => rw [hp] at hs; cases hs
      | some p =>
        rcases detectPlate_cases (cleanText text) with
          ⟨_, _, h6⟩ | ⟨hdet, plate, hfind, _, _⟩ | ⟨_, _, h6⟩ | ⟨_, hd, _⟩
        · exact Or.inl h6
        · obtain ⟨h6, _⟩ := detectionOf_windowed _ hdet
          obtain ⟨i, hi, hw, hshape, _⟩ := (windowed_search_spec _ h6 plate).1 hfind
          rw [hw] at hshape
          exact Or.inr ⟨i, hi, hshape⟩
        · exact Or.inl h6
        · rw [hd] at hp
          cases hp
    · intro h
      rcases detectPlate_cases (cleanText text) with
        ⟨_, hd, _⟩ | ⟨_, plate, _, hd, _⟩ | ⟨_, hd, _⟩ | ⟨hdet, hd, hlen⟩
      · rw [hd]; rfl
      · rw [hd]; rfl
      · rw [hd]; rfl
      · exfalso
        rcases h with h6 | ⟨i, hi, hshape⟩
        · exact hlen h6
        · have h6 : (cleanText text).length ≥ 6 := by omega
          by_cases hm : matchesPlatePattern (cleanText text) = true
          · exact hlen (matchesPlatePattern_length _ hm)
          · have hm' : matchesPlatePattern (cleanText text) = false := by simpa using hm
            have hfind : (substrings (cleanText text)).find? matchesPlatePattern ≠ none := by
              intro hnone
              exact (windowed_search_none _ h6).1 hnone i hi hshape
            cases hf : (substrings (cleanText text)).find? matchesPlatePattern with
            | none => exact hfind hf
            | some w =>
              have := ((windowed_iff_find _ hm' h6 w).2 hf).1
              rw [hdet] at this
              cases this

/-- Witness of C24: the canonical text 1A2B3C has 6 characters and no plate
shape; it is returned as it is with patternMatch false. -/
theorem ocrPlate_fallback_witness :
    (cleanText "1A2B3C").length = 6
    ∧ ¬ IsPlateShape (cleanText "1A2B3C")
    ∧ ((ocrPlate "1A2B3C" 90 0).success = true
      ∧ (ocrPlate "1A2B3C" 90 0).plate = some (cleanText "1A2B3C")
      ∧ (ocrPlate "1A2B3C" 90 0).patternMatch = false) :=
  have hne : ¬ IsPlateShape (cleanText "1A2B3C") :=
    fun h => absurd ((matchesPlatePattern_iff _).2 h) (by decide)
  ⟨by decide, hne, (ocrPlate_fallback "1A2B3C" 90 0).1 (by decide) hne⟩

/-- C28. Shape of the returned plate. For every raw text and raw confidence,
a returned plate has exactly 6 characters, each an upper-case letter or a
digit, and is a window of 6 consecutive characters of the canonical text (so
never a window of 7); normalising the returned plate again returns the same
plate. -/
theorem ocrPlate_plate_shape (text : String) (c now : Int) (p : String)
    (h : (ocrPlate text c now).plate = some p) :
    p.length = 6
    ∧ (∀ ch ∈ p.data, ch.isUpper = true ∨ ch.isDigit = true)
    ∧ (∃ i, i + 6 ≤ (cleanText text).length ∧ p = substring (cleanText text) i (i + 6))
    ∧ (∀ i, i + 7 ≤ (cleanText text).length → p ≠ substring (cleanText text) i (i + 7))
    ∧ (∀ c2 now2 : Int, (ocrPlate p c2 now2).plate = some p) := by
  have hplate : (detectPlate (cleanText text)).1 = some p := h
  obtain ⟨hlen, i, hi, hw⟩ := detectPlate_window (cleanText text) p hplate
  have hchars : ∀ ch ∈ p.data, isPlateChar ch = true := by
    intro ch hch
    rw [hw] at hch
    exact cleanText_chars text ch (substring_chars _ _ _ ch hch)
  refine ⟨hlen, ?_, ⟨i, hi, hw⟩, ?_, ?_⟩
  · intro ch hch
    have := hchars ch hch
    unfold isPlateChar at this
    simpa using this
  · intro j hj hc
    have := substring_length (cleanText text) j 7 hj
    rw [← hc] at this
    omega
  · intro c2 now2
    have hclean : cleanText p = p := cleanText_of_plateChars p hchars
    show (detectPlate (cleanText p)).1 = some p
    rw [hclean]
    rcases detectPlate_cases p with
      ⟨_, hd, _⟩ | ⟨hdet, plate, hfind, hd, _⟩ | ⟨_, hd, _⟩ | ⟨_, _, hne⟩
    · rw [hd]
    · rw [hd]
      obtain ⟨h6, _⟩ := detectionOf_windowed p hdet
      obtain ⟨j, hj, hpl, _, _⟩ := (windowed_search_spec p h6 plate).1 hfind
      have hj0 : j = 0 := by omega
      subst hj0
      have := substring_full p
      rw [hlen] at this
      rw [hpl, this]
    · rw [hd]
    · exact absurd hlen hne

/-- Witness of C28: the plate ABC123 extracted from XABC123 is returned
again when it is normalised itself. -/
theorem ocrPlate_plate_shape_witness :
    (ocrPlate "XABC123" 90 0).plate = some "ABC123"
    ∧ ("ABC123".length = 6
      ∧ (∀ ch ∈ "ABC123".data, ch.isUpper = true ∨ ch.isDigit = true)
      ∧ (∃ i, i + 6 ≤ (cleanText "XABC123").length
          ∧ "ABC123" = substring (cleanText "XABC123") i (i + 6))
      ∧ (∀ i, i + 7 ≤ (cleanText "XABC123").length →
          "ABC123" ≠ substring (cleanText "XABC123") i (i + 7))
      ∧ (∀ c2 now2 : Int, (ocrPlate "ABC123" c2 now2).plate = some "ABC123")) :=
  ⟨by decide, ocrPlate_plate_shape "XABC123" 90 0 "ABC123" (by decide)⟩

/-- C29. Confidence bands. For every raw text and raw confidence: a result
with a plate reports a confidence of at least 50, and of at least 75 when
patternMatch is true; a result without plate reports at most 40; the
`min(c, 40)` branch is the one of the results without plate; so no reported
confidence lies strictly between 40 and 50. -/
theorem ocrPlate_confidence_bands (text : String) (c now : Int) :
    ((ocrPlate text c now).plate ≠ none → 50 ≤ (ocrPlate text c now).confidence)
    ∧ ((ocrPlate text c now).patternMatch = true → 75 ≤ (ocrPlate text c now).confidence)
    ∧ ((ocrPlate text c now).plate = none → (ocrPlate text c now).confidence ≤ 40)
    ∧ ((ocrPlate text c now).plate = none →
        (ocrPlate text c now).confidence = min c 40)
    ∧ ((ocrPlate text c now).plate ≠ none →
        (ocrPlate text c now).confidence = max c 75
        ∨ (ocrPlate text c now).confidence = roundTenths (max (8 * c) 500))
    ∧ ¬ (40 < (ocrPlate text c now).confidence ∧ (ocrPlate text c now).confidence < 50) := by
  have hmod : 50 ≤ roundTenths (max (8 * c) 500) := by
    unfold roundTenths
    omega
  have key : ((ocrPlate text c now).plate ≠ none ∧ (ocrPlate text c now).patternMatch = true
        ∧ (ocrPlate text c now).confidence = max c 75)
      ∨ ((ocrPlate text c now).plate ≠ none ∧ (ocrPlate text c now).patternMatch = false
        ∧ (ocrPlate text c now).confidence = roundTenths (max (8 * c) 500))
      ∨ ((ocrPlate text c now).plate = none ∧ (ocrPlate text c now).patternMatch = false
        ∧ (ocrPlate text c now).confidence = min c 40) := by
    unfold ocrPlate
    simp only []
    rcases detectPlate_cases (cleanText text) with
      ⟨_, hd, _⟩ | ⟨_, plate, _, hd, hlen⟩ | ⟨_, hd, hlen⟩ | ⟨_, hd, _⟩
    · rw [hd]
      refine Or.inl ⟨by simp, rfl, ?_⟩
      simp only [finalConfidence, if_true]
      exact roundTenths_boost c
    · rw [hd]
      exact Or.inr (Or.inl ⟨by simp, rfl, by simp [finalConfidence, hlen]⟩)
    · rw [hd]
      exact Or.inr (Or.inl ⟨by simp, rfl, by simp [finalConfidence, hlen]⟩)
    · rw [hd]
      refine Or.inr (Or.inr ⟨rfl, rfl, ?_⟩)
      simp only [finalConfidence, Bool.false_eq_true, if_false]
      exact roundTenths_low c
  have hfalse : ∀ {b : Bool}, b = false → b = true → False := by
    intro b h1 h2
    rw [h1] at h2
    cases h2
  rcases key with ⟨hp, hpm, hc⟩ | ⟨hp, hpm, hc⟩ | ⟨hp, hpm, hc⟩
  · refine ⟨fun _ => ?_, fun _ => ?_, fun h => absurd h hp, fun h => absurd h hp,
      fun _ => Or.inl hc, ?_⟩ <;> rw [hc] <;> omega
  · refine ⟨fun _ => ?_, fun h => (hfalse hpm h).elim, fun h => absurd h hp,
      fun h => absurd h hp, fun _ => Or.inr hc, ?_⟩
    · rw [hc]
      exact hmod
    · rw [hc]
      omega
  · refine ⟨fun h => absurd hp h, fun h => (hfalse hpm h).elim, fun _ => ?_, fun _ => hc,
      fun h => absurd hp h, ?_⟩ <;> rw [hc] <;> omega

/-- C25, as claimed, fails: the rejected visitor of the sample (visit of 4
hours from time 0), saved 5 hours after time 0, is stored as expired although
rejected is a terminal status; the status update that rejects the approved
sample visitor at that time stores expired as well. -/
theorem save_rejected_visitor_stored_expired :
    isTerminalStatus rejectedVisitor.status = true
    ∧ claimedPastExpiry rejectedVisitor (5 * 3600000) = true
    ∧ (Visitor.preSave false (5 * 3600000) rejectedVisitor).status = "expired"
    ∧ (Visitor.findById (Visitor.save [rejectedVisitor] (5 * 3600000) rejectedVisitor) 10).map
        (fun v => v.status) = some "expired"
    ∧ (Visitor.findById
        (updateStatus [sampleVisitor 4] (some 7) 10 (some "rejected") none (5 * 3600000)).2 10).map
        (fun v => v.status) = some "expired" := by
  decide

/-- C25, amended. For every visitor record saved at time now: if the record
has an expiry time (a visit date, an expected duration other than 0, and
their sum visitDate + expectedDuration hours in the range of `Date`), the
expiry time is before now and the status is neither completed nor expired
(so pending, approved, in_progress or rejected), the save sets the status to
expired; if the status is completed or expired, or the visit is not past its
expiry (which includes every visit without visit date, with expected
duration 0, or whose sum is outside the range of `Date`), the save leaves the
status unchanged. The stored document is the one the hook returns. -/
theorem save_auto_expires (visitors : List Visitor) (isNew : Bool) (now : Int) (v : Visitor) :
    (∀ d, v.visitDate = some d → v.expectedDuration ≠ 0 →
        isValidTime d = true → isValidTime (d + v.expectedDuration * 3600000) = true →
        d + v.expectedDuration * 3600000 < now →
        v.status ≠ "completed" → v.status ≠ "expired" →
        (Visitor.preSave isNew now v).status = "expired")
    ∧ (v.status = "completed" ∨ v.status = "expired" →
        (Visitor.preSave isNew now v).status = v.status)
    ∧ (v.visitDate = none ∨ v.expectedDuration = 0
        ∨ (∃ d, v.visitDate = some d
            ∧ (isValidTime d = false ∨ isValidTime (d + v.expectedDuration * 3600000) = false
              ∨ now ≤ d + v.expectedDuration * 3600000)) →
        (Visitor.preSave isNew now v).status = v.status)
    ∧ ((∃ x ∈ visitors, x.id = v.id) →
        Visitor.findById (Visitor.save visitors now v) v.id
          = some (Visitor.preSave false now v)) := by
  refine ⟨?_, ?_, ?_, findById_save visitors now v⟩
  · intro d hd h0 hv1 hv2 hlt hc he
    rw [preSave_status_eq, isExpired_eq_specPastExpiry]
    have hp : specPastExpiry v now = true := by
      unfold specPastExpiry
      simp only [hd]
      simp [h0, hv1, hv2]
      omega
    have h1 : (v.status != "completed") = true := by simpa using hc
    have h2 : (v.status != "expired") = true := by simpa using he
    simp [hp, h1, h2]
  · intro h
    rw [preSave_status_eq]
    split
    · rename_i hcond
      simp only [Bool.and_eq_true, bne_iff_ne, ne_eq] at hcond
      rcases h with h | h
      · exact absurd h hcond.1.2
      · exact h.symm
    · rfl
  · intro h
    rw [preSave_status_eq, isExpired_eq_specPastExpiry]
    have hp : specPastExpiry v now = false := by
      unfold specPastExpiry
      rcases h with h | h | ⟨d, hd, h⟩
      · simp only [h]
      · cases hvd : v.visitDate with
        | none => rfl
        | some d => simp [h]
      · simp only [hd]
        rcases h with h | h | h
        · simp [h]
        · simp [h]
        · have : decide (now > d + v.expectedDuration * 3600000) = false := by
            simp
            omega
          simp [this]
    simp [hp]

/-- Witness of the amended C25: the approved sample visitor (4 hours from
time 0) saved 5 hours after time 0 is stored as expired; with an expected
duration of -3000000000 hours the sum is outside the range of `Date` and the
save leaves the status approved. -/
theorem save_auto_expires_witness :
    (sampleVisitor 4).visitDate = some 0
    ∧ (sampleVisitor 4).expectedDuration ≠ 0
    ∧ isValidTime 0 = true
    ∧ isValidTime ((0 : Int) + (sampleVisitor 4).expectedDuration * 3600000) = true
    ∧ (0 : Int) + (sampleVisitor 4).expectedDuration * 3600000 < 5 * 3600000
    ∧ (sampleVisitor 4).status ≠ "completed" ∧ (sampleVisitor 4).status ≠ "expired"
    ∧ (Visitor.preSave false (5 * 3600000) (sampleVisitor 4)).status = "expired"
    ∧ isValidTime ((0 : Int) + (sampleVisitor (-3000000000)).expectedDuration * 3600000) = false
    ∧ (Visitor.preSave false (5 * 3600000) (sampleVisitor (-3000000000))).status = "approved" :=
  ⟨rfl, by decide, by decide, by decide, by decide, by decide, by decide,
    (save_auto_expires [sampleVisitor 4] false (5 * 3600000) (sampleVisitor 4)).1 0 rfl
      (by decide) (by decide) (by decide) (by decide) (by decide) (by decide),
    by decide, by decide⟩

/-- C26, as claimed, fails: on the sample directory the entry of ABC123
succeeds before the expiry of the licence (time 5000) and answers 500 after
it (time 20000000), on the same calendar day; in both runs the open entry
event is appended. -/
theorem entry_response_depends_on_license_expiry :
    (entry sampleState (sampleRequest "abc123") ordinaryClock).1
        = .ok 0 5000 "Ana Perez" "employee"
    ∧ (entry sampleState (sampleRequest "abc123") expiredLicenseClock).1
        = .serverError "Entry registration failed"
    ∧ ordinaryClock.today = expiredLicenseClock.today
    ∧ (entry sampleState (sampleRequest "abc123") ordinaryClock).2.accessLogs.map
          (fun l => (l.licensePlate, l.accessType, l.status, l.exitTime))
        = [("ABC123", "entry", "successful", none)]
    ∧ (entry sampleState (sampleRequest "abc123") expiredLicenseClock).2.accessLogs.map
          (fun l => (l.licensePlate, l.accessType, l.status, l.exitTime))
        = [("ABC123", "entry", "successful", none)] := by
  decide

/-- C26, amended. What `entry` stores in the ledger depends only on the
directory lookup and the request: for every state, every replacement of the
licences and access levels of its employees, every request whose plate
resolves to an employee, and any two clock readings, either both runs answer
500 and store nothing (the schema rejects the event: no active vehicle of the
plate, or no detection method of the schema), or both append the same open
entry event up to its time stamp and first-Thursday flag. The response is a
success iff in addition the licence validator of the save passes
(no licence, or expiryDate after now); isValid, the categories, the access
level and the calendar date do not matter. Consequently `validate` denies
ABC123 with expired_license (licence marked invalid) and with
first_thursday_restriction (first Thursday) while `entry` of the same request
at the same clock reading succeeds and opens a session; and after the expiry
of the licence `entry` answers 500 and still opens the session. -/
theorem entry_ignores_license_and_date (st : State) (lic : Employee → Option License)
    (lvl : Employee → String) (req : Request) (now now' : Clock) :
    (∀ u lp e, req.user = some u → req.licensePlate = some lp →
        Employee.findByPlate st.employees (toUpperCase lp) = some e →
        (¬ (toUpperCase lp ≠ "" ∧ e.getVehicleByPlate (toUpperCase lp) ≠ none
            ∧ req.entryType.getD "manual_confirmation"
                ∈ ["manual", "camera_scan", "qr_scan", "rfid"]) →
          entry st req now = (.serverError "Entry registration failed", st)
          ∧ entry (st.relicensed lic lvl) req now'
              = (.serverError "Entry registration failed", st.relicensed lic lvl))
        ∧ ((toUpperCase lp ≠ "" ∧ e.getVehicleByPlate (toUpperCase lp) ≠ none
            ∧ req.entryType.getD "manual_confirmation"
                ∈ ["manual", "camera_scan", "qr_scan", "rfid"]) →
          ∃ ev, OpenSession (toUpperCase lp) ev ∧ ev.userId = some e.id
            ∧ (entry st req now).2.accessLogs = st.accessLogs ++ [ev]
            ∧ (entry (st.relicensed lic lvl) req now').2.accessLogs
                = st.accessLogs ++ [{ ev with accessTime := now'.time
                                              isFirstThursday := isFirstThursday now'.today }]
            ∧ (entry st req now).1
                = (if e.licenseNotExpired now.time = true then
                    .ok st.accessLogs.length now.time e.fullName "employee"
                  else .serverError "Entry registration failed")
            ∧ (entry (st.relicensed lic lvl) req now').1
                = (if Employee.licenseNotExpired
                      { e with license := lic e, accessLevel := lvl e } now'.time = true then
                    .ok st.accessLogs.length now'.time e.fullName "employee"
                  else .serverError "Entry registration failed")))
    ∧ (observedDecision invalidLicenseState
          (validate invalidLicenseState (sampleRequest "abc123") ordinaryClock)
          = some (.denied "expired_license")
        ∧ (entry invalidLicenseState (sampleRequest "abc123") ordinaryClock).1
          = .ok 0 5000 "Ana Perez" "employee"
        ∧ (entry invalidLicenseState (sampleRequest "abc123") ordinaryClock).2.accessLogs.map
            (fun l => (l.licensePlate, l.accessType, l.status, l.exitTime))
          = [("ABC123", "entry", "successful", none)])
    ∧ (observedDecision sampleState
          (validate sampleState (sampleRequest "abc123") firstThursdayClock)
          = some (.denied "first_thursday_restriction")
        ∧ (entry sampleState (sampleRequest "abc123") firstThursdayClock).1
          = .ok 0 5000 "Ana Perez" "employee"
        ∧ (entry sampleState (sampleRequest "abc123") firstThursdayClock).2.accessLogs.map
            (fun l => (l.licensePlate, l.accessType, l.status, l.exitTime))
          = [("ABC123", "entry", "successful", none)])
    ∧ (observedDecision sampleState
          (validate sampleState (sampleRequest "abc123") expiredLicenseClock)
          = some (.denied "expired_license")
        ∧ (entry sampleState (sampleRequest "abc123") expiredLicenseClock).1
          = .serverError "Entry registration failed"
        ∧ (entry sampleState (sampleRequest "abc123") expiredLicenseClock).2.accessLogs.map
            (fun l => (l.licensePlate, l.accessType, l.status, l.exitTime))
          = [("ABC123", "entry", "successful", none)]) := by
  refine ⟨?_, by decide, by decide, by decide⟩
  intro u lp e hu hlp he
  have he' : Employee.findByPlate (st.relicensed lic lvl).employees (toUpperCase lp)
      = some { e with license := lic e, accessLevel := lvl e } := by
    rw [findByPlate_relicensed, he]
    rfl
  have heq := entry_employee st req now u lp e hu hlp he
  have heq' := entry_employee (st.relicensed lic lvl) req now' u lp
    { e with license := lic e, accessLevel := lvl e } hu hlp he'
  have hiff := entryDoc_accepts_iff req u "employee" e.id "Employee" (toUpperCase lp)
    (e.getVehicleByPlate (toUpperCase lp)) (req.entryType.getD "manual_confirmation")
    (isFirstThursday now.today) (Or.inl rfl) (Or.inl rfl)
  have hiff' := entryDoc_accepts_iff req u "employee" e.id "Employee" (toUpperCase lp)
    (e.getVehicleByPlate (toUpperCase lp)) (req.entryType.getD "manual_confirmation")
    (isFirstThursday now'.today) (Or.inl rfl) (Or.inl rfl)
  have hveh : Employee.getVehicleByPlate { e with license := lic e, accessLevel := lvl e }
      (toUpperCase lp) = e.getVehicleByPlate (toUpperCase lp) := rfl
  have hlogs : (st.relicensed lic lvl).accessLogs = st.accessLogs := rfl
  simp only [hveh, hlogs] at heq'
  refine ⟨?_, ?_⟩
  · intro hn
    have h1 : ¬ AccessLog.schemaAccepts
        (entryDoc req u "employee" (e.id, "Employee") (toUpperCase lp)
          (e.getVehicleByPlate (toUpperCase lp)) (req.entryType.getD "manual_confirmation")
          (isFirstThursday now.today)) = true := fun hc => hn (hiff.1 hc)
    have h2 : ¬ AccessLog.schemaAccepts
        (entryDoc req u "employee" (e.id, "Employee") (toUpperCase lp)
          (e.getVehicleByPlate (toUpperCase lp)) (req.entryType.getD "manual_confirmation")
          (isFirstThursday now'.today)) = true := fun hc => hn (hiff'.1 hc)
    rw [if_neg h1] at heq
    rw [if_neg h2] at heq'
    exact ⟨heq, heq'⟩
  · intro hy
    have h1 := hiff.2 hy
    have h2 := hiff'.2 hy
    rw [if_pos h1] at heq
    rw [if_pos h2] at heq'
    refine ⟨AccessLog.ofInput st.accessLogs.length now.time
      (entryDoc req u "employee" (e.id, "Employee") (toUpperCase lp)
        (e.getVehicleByPlate (toUpperCase lp)) (req.entryType.getD "manual_confirmation")
        (isFirstThursday now.today)), ?_, rfl, ?_, ?_, ?_, ?_⟩
    · simp [OpenSession, AccessLog.ofInput, entryDoc, toUpperCase_idem]
    · rw [heq]
      split <;> rfl
    · rw [heq']
      split <;> rfl
    · rw [heq]
      split <;> rfl
    · rw [heq']
      split <;> rfl

/-- Witness of the amended C26: ABC123 resolves to the sample employee, who
has an active vehicle of the plate, and the request names the detection
method `manual`; with the licence removed and on a first Thursday, `entry`
appends the same open event as on the sample directory on an ordinary day,
and both runs succeed. -/
theorem entry_ignores_license_and_date_witness :
    (sampleRequest "abc123").user = some 7
    ∧ (sampleRequest "abc123").licensePlate = some "abc123"
    ∧ Employee.findByPlate sampleState.employees (toUpperCase "abc123") = some sampleEmployee
    ∧ (toUpperCase "abc123" ≠ ""
        ∧ sampleEmployee.getVehicleByPlate (toUpperCase "abc123") ≠ none
        ∧ (sampleRequest "abc123").entryType.getD "manual_confirmation"
            ∈ ["manual", "camera_scan", "qr_scan", "rfid"])
    ∧ ∃ ev : AccessLog, OpenSession (toUpperCase "abc123") ev
        ∧ ev.userId = some sampleEmployee.id
        ∧ (entry sampleState (sampleRequest "abc123") ordinaryClock).2.accessLogs
            = sampleState.accessLogs ++ [ev]
        ∧ (entry (sampleState.relicensed (fun _ => none) (fun _ => "basic"))
              (sampleRequest "abc123") firstThursdayClock).2.accessLogs
            = sampleState.accessLogs ++ [{ ev with accessTime := firstThursdayClock.time
                                                   isFirstThursday :=
                                                     isFirstThursday firstThursdayClock.today }]
        ∧ (entry sampleState (sampleRequest "abc123") ordinaryClock).1
            = (if sampleEmployee.licenseNotExpired ordinaryClock.time = true then
                .ok sampleState.accessLogs.length ordinaryClock.time sampleEmployee.fullName
                  "employee"
              else .serverError "Entry registration failed")
        ∧ (entry (sampleState.relicensed (fun _ => none) (fun _ => "basic"))
              (sampleRequest "abc123") firstThursdayClock).1
            = (if Employee.licenseNotExpired
                  { sampleEmployee with license := none, accessLevel := "basic" }
                  firstThursdayClock.time = true then
                .ok sampleState.accessLogs.length firstThursdayClock.time
                  sampleEmployee.fullName "employee"
              else .serverError "Entry registration failed") :=
  have hy : toUpperCase "abc123" ≠ ""
      ∧ sampleEmployee.getVehicleByPlate (toUpperCase "abc123") ≠ none
      ∧ (sampleRequest "abc123").entryType.getD "manual_confirmation"
          ∈ ["manual", "camera_scan", "qr_scan", "rfid"] :=
    ⟨by decide, by decide, by decide⟩
  ⟨rfl, rfl, by decide, hy,
    ((entry_ignores_license_and_date sampleState (fun _ => none) (fun _ => "basic")
      (sampleRequest "abc123") ordinaryClock firstThursdayClock).1 7 "abc123" sampleEmployee
      rfl rfl (by decide)).2 hy⟩

/-- C27, on the code. The inactive_employee branch is unreachable: for every
state, request and clock reading, the decision observed on `validate` is
never Denied(inactive_employee), because `Employee.findByPlate` returns
active employees only. The second half of the claim fails: an employee
validation of a plate that only inactive employees hold takes the
invalid_plate branch, as the claim says, but the run answers 500
`Validation failed`, has no decision and stores nothing, because the schema
rejects the denial document of that branch (no user, vehicleType
`unknown`). -/
theorem validate_never_inactive_employee (st : State) (req : Request) (now : Clock) :
    observedDecision st (validate st req now) ≠ some (.denied "inactive_employee")
    ∧ (∀ e, Employee.findByPlate st.employees
          (toUpperCase (req.licensePlate.getD "")) = some e → e.isActive = true)
    ∧ (∀ lp, req.isEmployeeValidation lp →
        (∀ e ∈ st.employees,
          e.vehicles.any (fun v => v.licensePlate == toUpperCase lp) = true →
            e.isActive = false) →
        Employee.findByPlate st.employees (toUpperCase lp) = none
        ∧ validate st req now
          = deny st now
              (denialDoc req "employee" none (toUpperCase lp) "unknown" "invalid_plate"
                (isFirstThursday now.today))
              (.denied "License plate not found in employee records"
                (some (isFirstThursday now.today)))
        ∧ validate st req now = (.serverError "Validation failed", st)
        ∧ observedDecision st (validate st req now) = none) := by
  refine ⟨?_, fun e h => findByPlate_isActive _ _ e h, ?_⟩
  · intro hc
    rcases validate_cases st req now with
      ⟨_, hnd⟩ | ⟨m, p, ut, user, plate, vt, reason, ft, hacc, heq⟩
    · unfold observedDecision at hc
      cases hr : (validate st req now).1 with
      | denied m p => exact hnd m p hr
      | badRequest m => simp [hr] at hc
      | grantedEmployee d => simp [hr] at hc
      | grantedVisitor d => simp [hr] at hc
      | serverError m => simp [hr] at hc
      | noResponse => simp [hr] at hc
    · -- a recorded denial: find which branch recorded it
      have hreason : reason = "inactive_employee" := by
        rw [heq, observedDecision_recorded] at hc
        simp only [Option.some.injEq, Decision.denied.injEq] at hc
        exact hc
      subst hreason
      -- the employee branch never records this reason for an active employee
      cases hlp : req.licensePlate with
      | none => simp [validate, hlp] at heq
      | some lp =>
        by_cases hempty : lp = ""
        · simp [validate, hlp, hempty] at heq
        · by_cases hat : req.accessType.getD "employee" = "employee"
          · have hv := validate_employee_eq st req now lp ⟨hlp, hempty, hat⟩
            cases hf : Employee.findByPlate st.employees (toUpperCase lp) with
            | none =>
              rw [hv, validateEmployee_not_found st req now _ _ hf] at heq
              cases heq
            | some e =>
              have ha := findByPlate_isActive _ _ e hf
              cases hveh : specActiveVehicle e (toUpperCase lp) with
              | none =>
                rw [hv, validateEmployee_no_vehicle st req now _ _ e hf
                  (by rw [getVehicleByPlate_upper]; exact hveh)] at heq
                cases heq
              | some v =>
                have hobs := validateEmployee_observed st req now lp e v hempty hf hveh
                rw [← hv, heq, observedDecision_recorded] at hobs
                simp only [Option.some.injEq] at hobs
                have hne : specEmployeeDecision (some e) (toUpperCase lp) now
                    ≠ .denied "inactive_employee" := by
                  unfold specEmployeeDecision
                  simp only [ha, Bool.true_eq_false, if_false, hveh]
                  split
                  · simp
                  · split
                    · simp
                    · split
                      · simp
                      · split <;> simp
                exact hne hobs.symm
          · by_cases hvis : req.accessType.getD "employee" = "visitor"
            · have hv : validate st req now
                  = validateVisitor st req now (toUpperCase lp) (isFirstThursday now.today) := by
                simp [validate, hlp, hempty, hat, hvis]
              rcases validateVisitor_cases st req now (toUpperCase lp)
                (isFirstThursday now.today) with ⟨d, hd⟩ | hd
              · rw [hv, hd] at heq
                cases heq
              · rw [hv, hd] at heq
                cases heq
            · simp [validate, hlp, hempty, hat, hvis] at heq
  · intro lp hreq hall
    have hnone : Employee.findByPlate st.employees (toUpperCase lp) = none := by
      unfold Employee.findByPlate
      rw [List.find?_eq_none]
      intro e he hm
      unfold Employee.matchesPlate at hm
      simp only [Bool.and_eq_true] at hm
      have h1 := hm.1.1
      rw [toUpperCase_idem] at h1
      have := hall e he h1
      rw [hm.2] at this
      cases this
    have heq : validate st req now
        = deny st now
            (denialDoc req "employee" none (toUpperCase lp) "unknown" "invalid_plate"
              (isFirstThursday now.today))
            (.denied "License plate not found in employee records"
              (some (isFirstThursday now.today))) := by
      rw [validate_employee_eq st req now lp hreq]
      unfold validateEmployee
      simp only [hnone]
    refine ⟨hnone, heq, ?_, ?_⟩
    · rw [validate_employee_eq st req now lp hreq,
        validateEmployee_not_found st req now _ _ hnone]
    · rw [validate_employee_eq st req now lp hreq,
        validateEmployee_not_found st req now _ _ hnone]
      rfl

/-- Evaluation of C27 at the failing input: ABC123 belongs to an inactive
employee only; its validation takes the invalid_plate branch and answers
500, without decision and without recorded event. -/
theorem validate_never_inactive_employee_witness :
    (sampleRequest "abc123").isEmployeeValidation "abc123"
    ∧ (∀ e ∈ inactiveState.employees,
        e.vehicles.any (fun v => v.licensePlate == toUpperCase "abc123") = true →
          e.isActive = false)
    ∧ validate inactiveState (sampleRequest "abc123") ordinaryClock
        = (.serverError "Validation failed", inactiveState)
    ∧ observedDecision inactiveState
        (validate inactiveState (sampleRequest "abc123") ordinaryClock) = none :=
  have hreq : (sampleRequest "abc123").isEmployeeValidation "abc123" :=
    ⟨rfl, by decide, rfl⟩
  have hall : ∀ e ∈ inactiveState.employees,
      e.vehicles.any (fun v => v.licensePlate == toUpperCase "abc123") = true →
        e.isActive = false := by
    intro e he _
    have : e = inactiveEmployee := by simpa [inactiveState] using he
    rw [this]
    rfl
  ⟨hreq, hall,
    ((validate_never_inactive_employee inactiveState (sampleRequest "abc123")
      ordinaryClock).2.2 "abc123" hreq hall).2.2⟩

/-- C30. Termination of the first-Thursday loop and agreement of the client.
For every date: started on day 1 of the month of the date, the loop of
`isFirstThursday` stops after exactly `k` increments for some `k ≤ 6` (it
returns with every bound of more than `k` tests of its condition and with no
smaller bound), on a Thursday whose day of the month is between 1 and 7, in
the month and year of the date; and `checkFirstThursday` of the client gives
the same answer as `isFirstThursday` of the server. -/
theorem firstThursday_loop_terminates (d : CalDate) :
    (∃ k, k ≤ 6
      ∧ (∀ fuel, k + 1 ≤ fuel →
          firstThursdayLoop fuel ⟨d.year, d.month, 1⟩ = some ⟨d.year, d.month, 1 + k⟩)
      ∧ (∀ fuel, fuel ≤ k → firstThursdayLoop fuel ⟨d.year, d.month, 1⟩ = none)
      ∧ getDay ⟨d.year, d.month, 1 + k⟩ = 4
      ∧ 1 ≤ 1 + k ∧ 1 + k ≤ 7 ∧ 1 + k ≤ daysInMonth d.year d.month)
    ∧ checkFirstThursday d = isFirstThursday d := by
  constructor
  · have hlt : getDay ⟨d.year, d.month, 1⟩ < 7 := by
      unfold getDay; omega
    have hskip : ∀ i, i < (11 - getDay ⟨d.year, d.month, 1⟩) % 7 →
        getDay ⟨d.year, d.month, 1 + i⟩ ≠ 4 := by
      intro i hi
      rw [getDay_from_first]
      omega
    have hthu : getDay ⟨d.year, d.month, 1 + (11 - getDay ⟨d.year, d.month, 1⟩) % 7⟩ = 4 := by
      rw [getDay_from_first]
      omega
    have hdays := daysInMonth_ge d.year d.month
    refine ⟨(11 - getDay ⟨d.year, d.month, 1⟩) % 7, by omega, ?_, ?_, hthu, by omega, by omega,
      by omega⟩
    · intro fuel hfuel
      obtain ⟨f, rfl⟩ : ∃ f, fuel = (11 - getDay ⟨d.year, d.month, 1⟩) % 7 + (f + 1) :=
        ⟨fuel - (11 - getDay ⟨d.year, d.month, 1⟩) % 7 - 1, by omega⟩
      rw [firstThursdayLoop_skip d.year d.month _ 1 (f + 1) (by omega) hskip]
      simp [firstThursdayLoop, hthu]
    · intro fuel hfuel
      exact firstThursdayLoop_none d.year d.month fuel _ 1 hfuel (by omega) hskip
  · unfold checkFirstThursday isFirstThursday
    simp only [checkFirstThursdayLoop_eq]

end Parqueadero
